import Mathlib

/-!
# SCPI DMM protocol (`src/hardware/scpi-dmm/protocol.c`)

A shallow embedding of the measurement/range/precision engine of the SCPI
multimeter driver: capability lookup, the mode query, the two measurement
parsers (`scpi_dmm_get_meas_agilent`, `scpi_dmm_get_meas_gwinstek`) and the
timer driven poll routine `scpi_dmm_receive_data`.

Conventions of the embedding:

* a C string is the list of its bytes (`CStr`), a `const char *` that may be
  `NULL` is an `Option CStr`;
* `int` return codes are integers, `SR_OK = 0`;
* a `double` is a `Dbl`: a finite value (kept as the exact rational it
  denotes), an infinity or a NaN; comparisons follow IEEE 754;
* a call of the transport (`sr_scpi_get_string`) is represented by the reply
  it yields: the return code and the response text;
* helpers of libsigrok that live in other files (`sr_atoi`, `sr_atod_ascii`,
  `sr_scpi_unquote_string`) are fields of a `StrUtil` record; general
  statements hold for every such record, concrete runs use `libsigrok`.
-/

namespace ScpiDmm

/-! ## Texts -/

/-- A C string: its bytes up to the terminating NUL. -/
abbrev CStr := List Char

/-- The `g_ascii_isspace` predicate of GLib: space, `\t`, `\n`, `\f`, `\r` (and
not `\v`, which the `isspace` of the C library takes as white space). -/
def g_ascii_isspace (c : Char) : Bool :=
  c = ' ' || c = '\t' || c = '\n' || c = Char.ofNat 12 || c = '\r'

/-- The `isspace` predicate of the C library in the C locale, which the
conversions `strtol` and `strtod` and the helpers of `strutil.c` use: the white
space of `g_ascii_isspace` and `\v`. -/
def c_isspace (c : Char) : Bool :=
  g_ascii_isspace c || c = Char.ofNat 11

/-- The `g_ascii_tolower` of GLib. -/
def g_ascii_tolower (c : Char) : Char :=
  if 'A' ≤ c ∧ c ≤ 'Z' then Char.ofNat (c.toNat + 32) else c

/-- The `g_ascii_isdigit` predicate of GLib. -/
def g_ascii_isdigit (c : Char) : Bool :=
  '0' ≤ c && c ≤ '9'

/-- The value of a decimal digit character. -/
def digit_val (c : Char) : Nat := c.toNat - '0'.toNat

/-- The `g_str_has_prefix (str, prefix)` test of GLib. -/
def g_str_has_prefix (str pfx : CStr) : Bool := pfx.isPrefixOf str

/-- The `g_strchug` step: leading white space is dropped. -/
def g_strchug (s : CStr) : CStr := s.dropWhile g_ascii_isspace

/-- The `g_strchomp` step: trailing white space is dropped. -/
def g_strchomp (s : CStr) : CStr := (s.reverse.dropWhile g_ascii_isspace).reverse

/-- The `g_strstrip` of GLib: `g_strchomp (g_strchug (s))`; `NULL` stays `NULL`. -/
def g_strstrip (s : Option CStr) : Option CStr := s.map fun t => g_strchomp (g_strchug t)

/-- The pieces of `s` between the commas, as `g_strsplit (s, ",", 0)` cuts a
non-empty text: one piece more than there are commas. -/
def split_comma : CStr → List CStr
  | [] => [[]]
  | c :: cs =>
    if c = ',' then [] :: split_comma cs
    else match split_comma cs with
      | [] => [[c]]
      | f :: fs => (c :: f) :: fs

/-- The `g_strsplit (s, ",", 0)` call of GLib: the empty text has no field. -/
def g_strsplit_comma (s : CStr) : List CStr :=
  if s = [] then [] else split_comma s

/-- Decimal digits of a natural number, most significant first (`fuel` bounds
the number of digits). -/
def nat_digits : Nat → Nat → CStr → CStr
  | 0, _, acc => acc
  | fuel + 1, n, acc =>
    let acc := Char.ofNat ('0'.toNat + n % 10) :: acc
    if n / 10 = 0 then acc else nat_digits fuel (n / 10) acc

/-- What `printf ("%d", n)` writes. -/
def fmt_d (n : Int) : CStr :=
  if n < 0 then '-' :: nat_digits (n.natAbs + 1) n.natAbs []
  else nat_digits (n.natAbs + 1) n.natAbs []

/-! ## Return codes and enumerations -/

/-- Modelled from the spec: the return codes of `libsigrok.h` are not under
src/. Success is zero. -/
def SR_OK : Int := 0
/-- Modelled from the spec: generic failure of `libsigrok.h`. -/
def SR_ERR : Int := -1
/-- Modelled from the spec: argument error of `libsigrok.h`. -/
def SR_ERR_ARG : Int := -3
/-- Modelled from the spec: "not applicable" of `libsigrok.h` (NotRecognized,
Unsupported, NotSupportedCommand, UnsupportedQuantity). -/
def SR_ERR_NA : Int := -6
/-- Modelled from the spec: the DataFormatError code of `libsigrok.h`. -/
def SR_ERR_DATA : Int := -10
/-- Modelled from the spec: the CommunicationFailure code of `libsigrok.h`. -/
def SR_ERR_IO : Int := -11

/-- Modelled from the spec: `enum sr_mq` of `libsigrok.h` (not under src/). -/
def SR_MQ_VOLTAGE : Nat := 10000
/-- Modelled from the spec: `enum sr_mq`, current. -/
def SR_MQ_CURRENT : Nat := 10001
/-- Modelled from the spec: `enum sr_mq`, resistance. -/
def SR_MQ_RESISTANCE : Nat := 10002
/-- Modelled from the spec: `enum sr_mq`, capacitance. -/
def SR_MQ_CAPACITANCE : Nat := 10003
/-- Modelled from the spec: `enum sr_mq`, temperature. -/
def SR_MQ_TEMPERATURE : Nat := 10004
/-- Modelled from the spec: `enum sr_mq`, frequency. -/
def SR_MQ_FREQUENCY : Nat := 10005
/-- Modelled from the spec: `enum sr_mq`, continuity. -/
def SR_MQ_CONTINUITY : Nat := 10007
/-- Modelled from the spec: `enum sr_mq`, time. -/
def SR_MQ_TIME : Nat := 10015

/-- Modelled from the spec: `enum sr_unit` of `libsigrok.h` (not under src/). -/
def SR_UNIT_VOLT : Nat := 10000
/-- Modelled from the spec: `enum sr_unit`, ampere. -/
def SR_UNIT_AMPERE : Nat := 10001
/-- Modelled from the spec: `enum sr_unit`, ohm. -/
def SR_UNIT_OHM : Nat := 10002
/-- Modelled from the spec: `enum sr_unit`, farad. -/
def SR_UNIT_FARAD : Nat := 10003
/-- Modelled from the spec: `enum sr_unit`, degree Celsius. -/
def SR_UNIT_CELSIUS : Nat := 10005
/-- Modelled from the spec: `enum sr_unit`, degree Fahrenheit. -/
def SR_UNIT_FAHRENHEIT : Nat := 10006
/-- Modelled from the spec: `enum sr_unit`, hertz. -/
def SR_UNIT_HERTZ : Nat := 10007
/-- Modelled from the spec: `enum sr_unit`, second. -/
def SR_UNIT_SECOND : Nat := 10010

/-- Modelled from the spec: `NO_DFLT_PREC` of `protocol.h` (not under src/),
the default precision of a capability that has none. -/
def NO_DFLT_PREC : Int := -99

/-! ## Doubles -/

/-- A C `double`: a finite number by its exact value (`fin 0` is the zero
with the plus sign), the zero with the minus sign, the two infinities, and
NaN. -/
inductive Dbl
  | fin (q : ℚ)
  | nzero
  | pinf
  | ninf
  | nan
deriving DecidableEq

namespace Dbl

/-- IEEE `a < b`: false as soon as a NaN is involved. -/
def lt : Dbl → Dbl → Bool
  | fin a, fin b => decide (a < b)
  | fin a, nzero => decide (a < 0)
  | nzero, fin b => decide (0 < b)
  | fin _, pinf => true
  | nzero, pinf => true
  | ninf, fin _ => true
  | ninf, nzero => true
  | ninf, pinf => true
  | _, _ => false

/-- IEEE `a <= b`: false as soon as a NaN is involved. -/
def le : Dbl → Dbl → Bool
  | fin a, fin b => decide (a ≤ b)
  | fin a, nzero => decide (a ≤ 0)
  | nzero, fin b => decide (0 ≤ b)
  | nzero, nzero => true
  | fin _, pinf => true
  | nzero, pinf => true
  | ninf, fin _ => true
  | ninf, nzero => true
  | ninf, pinf => true
  | pinf, pinf => true
  | ninf, ninf => true
  | _, _ => false

/-- IEEE `a == b`: a NaN equals nothing, the two zeros are equal. -/
def eq : Dbl → Dbl → Bool
  | fin a, fin b => decide (a = b)
  | fin a, nzero => decide (a = 0)
  | nzero, fin b => decide (b = 0)
  | nzero, nzero => true
  | pinf, pinf => true
  | ninf, ninf => true
  | _, _ => false

/-- Unary minus: the sign is flipped, also that of a zero. -/
def neg : Dbl → Dbl
  | fin a => if a = 0 then nzero else fin (-a)
  | nzero => fin 0
  | pinf => ninf
  | ninf => pinf
  | nan => nan

instance : LT Dbl := ⟨fun a b => lt a b = true⟩
instance : LE Dbl := ⟨fun a b => le a b = true⟩
instance : Neg Dbl := ⟨neg⟩
instance (a b : Dbl) : Decidable (a < b) := inferInstanceAs (Decidable (lt a b = true))
instance (a b : Dbl) : Decidable (a ≤ b) := inferInstanceAs (Decidable (le a b = true))

end Dbl

/-- Number of binary digits of `n` (`fuel` bounds the count). -/
def bit_length : Nat → Nat → Nat
  | 0, _ => 0
  | fuel + 1, n => if n = 0 then 0 else bit_length fuel (n / 2) + 1

/-- Round-to-nearest-even of the positive rational `n / d` to a binary
floating point format with `prec` significant bits and exponents
`emin .. emax`; `neg` is the sign. Values past the largest finite number
become an infinity, values that round to nothing become the zero of the
sign. -/
def round_binary (prec : Nat) (emin emax : Int) (neg : Bool) (n d : Nat) : Dbl :=
  if n = 0 ∨ d = 0 then (if neg then .nzero else .fin 0) else
  let e0 : Int := (bit_length n n : Int) - (bit_length d d : Int)
  let ge : Bool := if 0 ≤ e0 then decide (d * 2 ^ e0.toNat ≤ n) else decide (d ≤ n * 2 ^ (-e0).toNat)
  let e : Int := if ge then e0 else e0 - 1
  let s : Int := max e emin - ((prec : Int) - 1)
  let N : Nat := if s < 0 then n * 2 ^ (-s).toNat else n
  let D : Nat := if s < 0 then d else d * 2 ^ s.toNat
  let m := N / D
  let r := N % D
  let m := if D < 2 * r ∨ (2 * r = D ∧ m % 2 = 1) then m + 1 else m
  let num : Nat := if s < 0 then m else m * 2 ^ s.toNat
  let den : Nat := if s < 0 then 2 ^ (-s).toNat else 1
  if emax < (bit_length m m : Int) - 1 + s then (if neg then .ninf else .pinf)
  else if m = 0 then (if neg then .nzero else .fin 0)
  else .fin (if neg then mkRat (-(num : Int)) den else mkRat num den)

/-- Rounding of a decimal number `m * 10 ^ e` to binary64. -/
def binary64_of_decimal (neg : Bool) (m : Nat) (e : Int) : Dbl :=
  if 0 ≤ e then round_binary 53 (-1022) 1023 neg (m * 10 ^ e.toNat) 1
  else round_binary 53 (-1022) 1023 neg m (10 ^ (-e).toNat)

/-- The conversion `(float) x` of C, read back as a double. -/
def to_float : Dbl → Dbl
  | .fin q => round_binary 24 (-126) 127 (decide (q < 0)) q.num.natAbs q.den
  | x => x

/-- The C literal `9e37`: the binary64 number nearest to 9 * 10^37. -/
def dbl_9e37 : Dbl := .fin 89999999999999992307089061666856370176
/-- The C literal `1.2e8`. -/
def dbl_1_2e8 : Dbl := .fin 120000000
/-- The C literal `1.99999e8`. -/
def dbl_1_99999e8 : Dbl := .fin 199999000
/-- The C literal `1.2e3`. -/
def dbl_1_2e3 : Dbl := .fin 1200
/-- The C literal `1.0e0`. -/
def dbl_1_0 : Dbl := .fin 1
/-- The C literal `0.0`. -/
def dbl_0 : Dbl := .fin 0

/-! ## String conversion helpers of libsigrok -/

/-- The helpers of `strutil.c` and `scpi.c` that `protocol.c` calls. Each
conversion yields its return code and the value it stores on success. -/
structure StrUtil where
  /-- The `sr_atoi (str, &ret)` call. -/
  sr_atoi : CStr → Int × Int
  /-- The `sr_atod_ascii (str, &ret)` call; the text may be `NULL`. -/
  sr_atod_ascii : Option CStr → Int × Dbl
  /-- The `sr_scpi_unquote_string (s)` call. -/
  sr_scpi_unquote_string : CStr → CStr

/-- The leading decimal digits of a text: their value on top of `acc`, their
number on top of `k`, and the rest of the text. -/
def take_digits : CStr → Nat → Nat → Nat × Nat × CStr
  | [], acc, k => (acc, k, [])
  | c :: cs, acc, k =>
    if g_ascii_isdigit c then take_digits cs (acc * 10 + digit_val c) (k + 1)
    else (acc, k, c :: cs)

/-- An optional sign: whether it is a minus, and the rest of the text. -/
def take_sign : CStr → Bool × CStr
  | '-' :: cs => (true, cs)
  | '+' :: cs => (false, cs)
  | s => (false, s)

/-- The `strtol (s, &endptr, 10)` call of the C library: the value and the
text at `endptr`. Without a digit nothing is converted and `endptr` is `s`. -/
def strtol10 (s : CStr) : Int × CStr :=
  let sg := take_sign (s.dropWhile c_isspace)
  let d := take_digits sg.2 0 0
  if d.2.1 = 0 then (0, s)
  else ((if sg.1 then -(d.1 : Int) else (d.1 : Int)), d.2.2)

/-- The `atoi (s)` call of the C library. -/
def c_atoi (s : CStr) : Int := (strtol10 s).1

/-- Modelled from the spec: `sr_atoi` of `strutil.c` is not under src/. It
reads a decimal integer with `strtol`, tolerates trailing white space, and
fails (`SR_ERR`) on any other trailing text or on a value outside `int`. -/
def sr_atoi (s : CStr) : Int × Int :=
  let r := strtol10 s
  if r.2.dropWhile c_isspace ≠ [] then (SR_ERR, 0)
  else if r.1 < -2147483648 ∨ 2147483647 < r.1 then (SR_ERR, 0)
  else (SR_OK, r.1)

/-- The decimal floating point text at the start of `s`, as `strtod` reads it:
sign, digits with an optional period, an optional exponent. The result is the
sign, the digits as a natural number, the power of ten, and the text that
follows; nothing when there is no digit to convert. -/
def strtod_decimal (s : CStr) : Option (Bool × Nat × Int × CStr) :=
  let sg := take_sign (s.dropWhile c_isspace)
  let ip := take_digits sg.2 0 0
  let fp : Nat × Nat × CStr :=
    match ip.2.2 with
    | '.' :: t => take_digits t ip.1 0
    | _ => (ip.1, 0, ip.2.2)
  if ip.2.1 + fp.2.1 = 0 then none
  else
    match fp.2.2 with
    | [] => some (sg.1, fp.1, -(fp.2.1 : Int), [])
    | c :: t =>
      if c = 'e' ∨ c = 'E' then
        let es := take_sign t
        let ed := take_digits es.2 0 0
        if ed.2.1 = 0 then some (sg.1, fp.1, -(fp.2.1 : Int), c :: t)
        else some (sg.1, fp.1, (if es.1 then -(ed.1 : Int) else (ed.1 : Int)) - (fp.2.1 : Int), ed.2.2)
      else some (sg.1, fp.1, -(fp.2.1 : Int), c :: t)

/-- Whether the double of value `q` is the decimal number `m * 10 ^ e` up to
its sign, with nothing rounded away. -/
def exact_decimal (q : ℚ) (m : Nat) (e : Int) : Bool :=
  if 0 ≤ e then decide (q.den = 1 ∧ q.num.natAbs = m * 10 ^ e.toNat)
  else decide (q.num.natAbs * 10 ^ (-e).toNat = m * q.den)

/-- Whether the double of value `q` is below the smallest normal number
`2 ^ -1022` in magnitude and not zero. -/
def is_subnormal (q : ℚ) : Bool :=
  decide (q ≠ 0) &&
    decide (bit_length q.num.natAbs q.num.natAbs + 1023 ≤ bit_length q.den q.den)

/-- Modelled from the spec: `sr_atod_ascii` of `strutil.c` is not under src/.
It parses the whole text as a floating point number in the C locale: a text
that is not a number to its end fails (`SR_ERR`), and so does a number
outside the range of a double, one that underflows included. Covered here:
decimal notation with an optional exponent (the notation the meters use),
the words `inf`, `infinity` and `nan` in either case; the empty text reads as
zero, as `strtod` leaves it. -/
def sr_atod_ascii (s : Option CStr) : Int × Dbl :=
  match s with
  | none => (SR_ERR, dbl_0)
  | some t =>
    match strtod_decimal t with
    | none =>
      if t = [] then (SR_OK, dbl_0)
      else
        let sg := take_sign (t.dropWhile c_isspace)
        let word := sg.2.map g_ascii_tolower
        if word = "inf".toList ∨ word = "infinity".toList then
          (SR_OK, if sg.1 then .ninf else .pinf)
        else if word = "nan".toList then (SR_OK, .nan)
        else (SR_ERR, dbl_0)
    | some (neg, m, e, rest) =>
      if rest ≠ [] then (SR_ERR, dbl_0)
      else
        match binary64_of_decimal neg m e with
        | .fin q =>
          if q = 0 ∧ m ≠ 0 then (SR_ERR, dbl_0)
          else if is_subnormal q && !exact_decimal q m e then (SR_ERR, dbl_0)
          else (SR_OK, .fin q)
        | .nzero => if m ≠ 0 then (SR_ERR, dbl_0) else (SR_OK, .nzero)
        | _ => (SR_ERR, dbl_0)

/-- Pairs of the quote character `q` become one. -/
def collapse_quotes (q : Char) : CStr → CStr
  | a :: b :: t => if a = q ∧ b = q then q :: collapse_quotes q t else a :: collapse_quotes q (b :: t)
  | s => s

/-- Modelled from the spec: `sr_scpi_unquote_string` of `scpi.c` is not under
src/. A text of two or more bytes that starts and ends with the same quote
character (single or double) loses that pair of quotes, and doubled quotes
inside become single; any other text is returned as it is. -/
def sr_scpi_unquote_string (s : CStr) : CStr :=
  match s with
  | [] => s
  | q :: t =>
    if t = [] then s
    else if q ≠ (Char.ofNat 39) ∧ q ≠ '"' then s
    else if t.getLast? ≠ some q then s
    else collapse_quotes q t.dropLast

/-- The helpers as libsigrok implements them. -/
def libsigrok : StrUtil where
  sr_atoi := sr_atoi
  sr_atod_ascii := sr_atod_ascii
  sr_scpi_unquote_string := sr_scpi_unquote_string

/-! ## Data model -/

/-- An entry of a model's capability table (`struct mqopt_item`). -/
structure mqopt_item where
  mq : Nat
  mqflag : Nat
  scpi_func_setup : Option CStr
  scpi_func_query : Option CStr
  default_precision : Int
  drv_flags : Nat
deriving DecidableEq

/-- The command templates of a model that `sr_scpi_cmd_get` looks up in
`devc->cmdset`; a command the model lacks is `NULL`. -/
structure scpi_cmdset where
  query_func : Option CStr
  setup_func : Option CStr
  query_range : Option CStr
  query_range_auto : Option CStr
  setup_range : Option CStr
  query_value : Option CStr

/-- A model profile (`struct scpi_dmm_model`), without the function pointers. -/
structure scpi_dmm_model where
  model : CStr
  digits : Int
  mqopts : List mqopt_item
  infinity_limit : Dbl
  conf_delay_us : Nat

/-- The conversion of an `int` to `int8_t` that an assignment to an `int8_t`
field performs: the value modulo 256, taken in -128 .. 127. -/
def to_int8 (n : Int) : Int := (n + 128) % 256 - 128

/-- The parts of `struct sr_datafeed_analog` (with its encoding, meaning and
spec) that a measurement routine fills in. `data` is the number that the
`data` pointer refers to. `unitsize` is a `uint8_t`; `digits` and `spec_digits`
are `int8_t` fields, so what is stored in them is a value of `to_int8`. -/
structure sr_datafeed_analog where
  data : Dbl
  unitsize : Nat
  digits : Int
  mq : Nat
  mqflags : Nat
  unit : Nat
  spec_digits : Int
deriving DecidableEq

/-- The acquisition scratch data (`struct scpi_dmm_acq_info`). -/
structure scpi_dmm_acq_info where
  d_value : Dbl
  f_value : Dbl
  analog : Nat → sr_datafeed_analog

/-- The driver context (`struct dev_context`) as the measurement routines
read it. -/
structure dev_context where
  model : scpi_dmm_model
  cmdset : scpi_cmdset
  precision : Option CStr

/-- The reply of one `sr_scpi_get_string` call: return code and response. -/
abbrev ScpiReply := Int × Option CStr

/-- The size of a `double`. -/
def sizeof_double : Nat := 8
/-- The size of a `float`. -/
def sizeof_float : Nat := 4

/-! ## Capability lookup and mode query -/

/-- Lookup by number, `scpi_dmm_lookup_mq_number`: the first entry of the table with the
given quantity and flag. -/
def scpi_dmm_lookup_mq_number (mqopts : List mqopt_item) (mq flag : Nat) : Option mqopt_item :=
  match mqopts with
  | [] => none
  | item :: rest =>
    if item.mq ≠ mq ∨ item.mqflag ≠ flag then scpi_dmm_lookup_mq_number rest mq flag
    else some item

/-- Lookup by text, `scpi_dmm_lookup_mq_text`: the first entry of the table whose query
token is present, not empty, and a prefix of the text. -/
def scpi_dmm_lookup_mq_text (mqopts : List mqopt_item) (text : CStr) : Option mqopt_item :=
  match mqopts with
  | [] => none
  | item :: rest =>
    match item.scpi_func_query with
    | none => scpi_dmm_lookup_mq_text rest text
    | some q =>
      if q = [] then scpi_dmm_lookup_mq_text rest text
      else if g_str_has_prefix text q = false then scpi_dmm_lookup_mq_text rest text
      else some item

/-- What `scpi_dmm_get_mq` hands back: the return code and the four outputs. -/
structure mq_result where
  ret : Int
  mq : Nat
  flag : Nat
  rsp : Option CStr
  mqitem : Option mqopt_item

/-- The mode query `scpi_dmm_get_mq`. `reply` is what the transport answers to the
function query. All outputs are cleared first; the response is handed to
the caller whenever the query itself went through. -/
def scpi_dmm_get_mq (devc : dev_context) (reply : ScpiReply) : mq_result :=
  match devc.cmdset.query_func with
  | none => ⟨SR_ERR_NA, 0, 0, none, none⟩
  | some command =>
    if command = [] then ⟨SR_ERR_NA, 0, 0, none, none⟩
    else if reply.1 ≠ SR_OK then ⟨reply.1, 0, 0, none, none⟩
    else
      match reply.2 with
      | none => ⟨SR_ERR_NA, 0, 0, none, none⟩
      | some response =>
        if response = [] then ⟨SR_ERR_NA, 0, 0, none, none⟩
        else
          let have_ : CStr := if response.head? = some '"' then response.tail else response
          match scpi_dmm_lookup_mq_text devc.model.mqopts have_ with
          | some item => ⟨SR_OK, item.mq, item.mqflag, some response, some item⟩
          | none => ⟨SR_ERR_NA, 0, 0, some response, none⟩

/-! ## Measurement routines -/

/-- The scan that both measurement routines run over a number text: skip white
space, one sign, digits, one period, digits. What is left is the exponent
suffix, if any. -/
def skip_number (p : CStr) : CStr :=
  let p1 := p.dropWhile g_ascii_isspace
  let p2 := match p1 with
    | c :: t => if c = '+' ∨ c = '-' then t else p1
    | [] => p1
  let p3 := p2.dropWhile g_ascii_isdigit
  let p4 := match p3 with
    | c :: t => if c = '.' then t else p3
    | [] => p3
  p4.dropWhile g_ascii_isdigit

/-- The end of that scan: no text left (or no text at all) is exponent zero,
an `e` or `E` hands the rest to `sr_atoi`, any other byte is `SR_ERR_DATA`.
The result is the return code and the exponent. -/
def exponent_suffix (lib : StrUtil) (p : Option CStr) : Int × Int :=
  match p with
  | none => (SR_OK, 0)
  | some [] => (SR_OK, 0)
  | some (c :: t) =>
    if c ≠ 'e' ∧ c ≠ 'E' then (SR_ERR_DATA, 0)
    else lib.sr_atoi t

/-- The precision text of `scpi_dmm_get_meas_agilent`: the last comma
separated field of the unquoted mode response when there are two or more
fields, else the default precision of the capability written as `1e<n>`,
else no text. Either text goes through `snprintf` into `char prec_text[20]`,
which keeps 19 bytes. -/
def agilent_prec_text (lib : StrUtil) (mode_response : CStr) (item : Option mqopt_item) :
    Option CStr :=
  let fields := g_strsplit_comma (lib.sr_scpi_unquote_string mode_response)
  let count := fields.length
  if 2 ≤ count then some ((fields.getD (count - 1) []).take 19)
  else
    match item with
    | none => none
    | some it =>
      if it.default_precision = NO_DFLT_PREC then none
      else some (('1' :: 'e' :: fmt_d it.default_precision).take 19)

/-- The quantity to unit `switch` of `scpi_dmm_get_meas_agilent`; nothing for
the `default` case. -/
def agilent_unit (mq : Nat) : Option Nat :=
  if mq = SR_MQ_VOLTAGE then some SR_UNIT_VOLT
  else if mq = SR_MQ_CURRENT then some SR_UNIT_AMPERE
  else if mq = SR_MQ_RESISTANCE ∨ mq = SR_MQ_CONTINUITY then some SR_UNIT_OHM
  else if mq = SR_MQ_CAPACITANCE then some SR_UNIT_FARAD
  else if mq = SR_MQ_TEMPERATURE then some SR_UNIT_CELSIUS
  else if mq = SR_MQ_FREQUENCY then some SR_UNIT_HERTZ
  else if mq = SR_MQ_TIME then some SR_UNIT_SECOND
  else none

/-- The filling in of `analog` for channel `ch` that ends both measurement
routines: value and width, digits, quantity and flags; then the unit and the
spec digits, unless the quantity has no unit (`SR_ERR_NA`). The `int` digits
are narrowed to the `int8_t` fields they are assigned to. -/
def fill_analog (info : scpi_dmm_acq_info) (ch : Nat) (use_double : Bool) (digits : Int)
    (mq mqflag : Nat) (unit : Option Nat) : Int × scpi_dmm_acq_info :=
  let info1 : scpi_dmm_acq_info :=
    if use_double then info else { info with f_value := to_float info.d_value }
  let a0 := info1.analog ch
  let a1 : sr_datafeed_analog :=
    { a0 with
      data := if use_double then info1.d_value else info1.f_value
      unitsize := if use_double then sizeof_double else sizeof_float
      digits := to_int8 digits
      mq := mq
      mqflags := mqflag }
  match unit with
  | none => (SR_ERR_NA, { info1 with analog := Function.update info1.analog ch a1 })
  | some u =>
    (SR_OK, { info1 with
      analog := Function.update info1.analog ch
        { a1 with unit := u, spec_digits := to_int8 digits } })

/-- Strategy A, `scpi_dmm_get_meas_agilent (sdi, ch)`. `func_reply` and
`value_reply` are the answers of the transport to the function query and to
the value query. The result is the return code and the scratch data; `+1`
is the soft skip. The digits `-prec_exp` are taken in the integers, which is
the C result for every `int` exponent but `INT_MIN`. -/
def scpi_dmm_get_meas_agilent (lib : StrUtil) (devc : dev_context) (info : scpi_dmm_acq_info)
    (ch : Nat) (func_reply value_reply : ScpiReply) : Int × scpi_dmm_acq_info :=
  let m := scpi_dmm_get_mq devc func_reply
  if m.ret ≠ SR_OK then (m.ret, info)
  else
    match m.rsp with
    | none => (SR_ERR, info)
    | some mode_response =>
      if m.mq = 0 then (1, info)
      else
        let pe := exponent_suffix lib ((agilent_prec_text lib mode_response m.mqitem).map skip_number)
        if pe.1 ≠ SR_OK then (pe.1, info)
        else
          match devc.cmdset.query_value with
          | none => (SR_ERR_NA, info)
          | some command =>
            if command = [] then (SR_ERR_NA, info)
            else if value_reply.1 ≠ SR_OK then (value_reply.1, info)
            else
              let response := g_strstrip value_reply.2
              let use_double := decide (6 ≤ devc.model.digits)
              let cv := lib.sr_atod_ascii response
              if cv.1 ≠ SR_OK then (cv.1, info)
              else
                match response with
                | none => (SR_ERR, { info with d_value := cv.2 })
                | some rtext =>
                  let limit := dbl_9e37
                  let r : Int × Dbl :=
                    if limit < cv.2 then (SR_OK, Dbl.pinf)
                    else if cv.2 < -limit then (SR_OK, Dbl.ninf)
                    else ((exponent_suffix lib (some (skip_number rtext))).1, cv.2)
                  if r.1 ≠ SR_OK then (r.1, { info with d_value := r.2 })
                  else
                    fill_analog { info with d_value := r.2 } ch use_double (-pe.2)
                      m.mq m.flag (agilent_unit m.mq)

/-- The overload threshold of `scpi_dmm_get_meas_gwinstek`: the override of
the model when it is not `0.0`, else `9e37`. -/
def gwinstek_limit (infinity_limit : Dbl) : Dbl :=
  if !(Dbl.eq infinity_limit dbl_0) then infinity_limit else dbl_9e37

/-- The `switch (mmode)` of `scpi_dmm_get_meas_gwinstek` that reports the
meter's "0L" readings as infinity. -/
def gwinstek_remap (model_name : CStr) (mmode : Int) (d_value : Dbl) : Dbl :=
  if mmode = 7 ∨ mmode = 16 then
    let limit := if model_name = "GDM8255A".toList then dbl_1_99999e8 else dbl_1_2e8
    if limit ≤ d_value then Dbl.pinf else d_value
  else if mmode = 13 then
    if dbl_1_2e3 ≤ d_value then Dbl.pinf else d_value
  else if mmode = 17 then
    if Dbl.eq d_value dbl_1_0 then Dbl.pinf else d_value
  else d_value

/-- The digits of `scpi_dmm_get_meas_gwinstek`: from the precision text read
at acquisition start, else the digits of the model. -/
def gwinstek_digits (model_digits : Int) (precision : Option CStr) : Int :=
  match precision with
  | none => model_digits
  | some p =>
    if p = [] then model_digits
    else if g_str_has_prefix p "Slow".toList then 6
    else if g_str_has_prefix p "Mid".toList then 5
    else if g_str_has_prefix p "Fast".toList then 4
    else model_digits

/-- The quantity to unit `switch` of `scpi_dmm_get_meas_gwinstek`. -/
def gwinstek_unit (mq : Nat) (mmode : Int) : Option Nat :=
  if mq = SR_MQ_VOLTAGE then some SR_UNIT_VOLT
  else if mq = SR_MQ_CURRENT then some SR_UNIT_AMPERE
  else if mq = SR_MQ_RESISTANCE ∨ mq = SR_MQ_CONTINUITY then some SR_UNIT_OHM
  else if mq = SR_MQ_CAPACITANCE then some SR_UNIT_FARAD
  else if mq = SR_MQ_TEMPERATURE then
    (if mmode = 15 then some SR_UNIT_FAHRENHEIT else some SR_UNIT_CELSIUS)
  else if mq = SR_MQ_FREQUENCY then some SR_UNIT_HERTZ
  else if mq = SR_MQ_TIME then some SR_UNIT_SECOND
  else none

/-- Strategy B, `scpi_dmm_get_meas_gwinstek (sdi, ch)`, with the replies of
the transport as for strategy A. -/
def scpi_dmm_get_meas_gwinstek (lib : StrUtil) (devc : dev_context) (info : scpi_dmm_acq_info)
    (ch : Nat) (func_reply value_reply : ScpiReply) : Int × scpi_dmm_acq_info :=
  let m := scpi_dmm_get_mq devc func_reply
  if m.ret ≠ SR_OK then (m.ret, info)
  else
    match m.rsp with
    | none => (SR_ERR, info)
    | some mode_response =>
      if m.mq = 0 then (1, info)
      else
        let mmode := c_atoi mode_response
        match devc.cmdset.query_value with
        | none => (SR_ERR_NA, info)
        | some command =>
          if command = [] then (SR_ERR_NA, info)
          else if value_reply.1 ≠ SR_OK then (value_reply.1, info)
          else
            let response := g_strstrip value_reply.2
            let use_double := decide (6 < devc.model.digits)
            let cv := lib.sr_atod_ascii response
            if cv.1 ≠ SR_OK then (cv.1, info)
            else
              match response with
              | none => (SR_ERR, { info with d_value := cv.2 })
              | some rtext =>
                let limit := gwinstek_limit devc.model.infinity_limit
                let r : Int × Dbl :=
                  if limit ≤ cv.2 then (SR_OK, Dbl.pinf)
                  else if cv.2 ≤ -limit then (SR_OK, Dbl.ninf)
                  else ((exponent_suffix lib (some (skip_number rtext))).1, cv.2)
                if r.1 ≠ SR_OK then (r.1, { info with d_value := r.2 })
                else
                  fill_analog { info with d_value := gwinstek_remap devc.model.model mmode r.2 }
                    ch use_double (gwinstek_digits devc.model.digits devc.precision)
                    m.mq m.flag (gwinstek_unit m.mq mmode)

/-! ## The poll routine -/

/-- A channel of the device instance (`struct sr_channel`): its enabled flag. -/
structure sr_channel where
  enabled : Bool

/-- Modelled from the spec: `struct sr_sw_limits` of `sw_limits.c` is not
under src/. The configured sample, frame and time limits, the counters, and
the start time of the acquisition. -/
structure sr_sw_limits where
  limit_samples : Nat
  limit_frames : Nat
  limit_msec : Nat
  samples_read : Nat
  frames_read : Nat
  start_time : Nat
deriving DecidableEq

/-- Modelled from the spec: `sr_sw_limits_update_samples_read` of
`sw_limits.c` is not under src/. It advances the sweep counter by the given
count. -/
def sr_sw_limits_update_samples_read (limits : sr_sw_limits) (samples_read : Nat) :
    sr_sw_limits :=
  { limits with samples_read := limits.samples_read + samples_read }

/-- Modelled from the spec: `sr_sw_limits_check` of `sw_limits.c` is not
under src/. A configured limit is reached when the sample counter or the
frame counter is at or past it, or when more than the time limit has passed
since the start; `now` is the clock reading of the check. -/
def sr_sw_limits_check (limits : sr_sw_limits) (now : Nat) : Bool :=
  (limits.limit_samples ≠ 0 && decide (limits.limit_samples ≤ limits.samples_read))
  || (limits.limit_frames ≠ 0 && decide (limits.limit_frames ≤ limits.frames_read))
  || (limits.limit_msec ≠ 0 && limits.start_time ≠ 0
      && decide (limits.start_time < now) && decide (limits.limit_msec < now - limits.start_time))

/-- What the poll routine is given by the model and the session: the
measurement routine of the model (`devc->model->get_measurement`, which may
be `NULL`), the preparation of a channel's packet (`sr_analog_init` and the
OPC check), and the packet that `sr_session_send` receives for a channel.
`σ` is the state the measurement routine works on (device and scratch data),
`α` the payload of a packet. -/
structure poll_env (σ α : Type) where
  get_measurement : Option (σ → Nat → Int × σ)
  prepare : σ → Nat → σ
  packet : σ → Nat → α

/-- The variables of the channel loop of `scpi_dmm_receive_data`, with two
logs: the calls of the measurement routine (channel and return code) and the
packets sent to the session (channel and payload), oldest first. -/
structure loop_state (σ α : Type) where
  dev : σ
  ret : Int
  sent_sample : Bool
  calls : List (Nat × Int)
  sent : List (Nat × α)

/-- The channel loop `for (ch = 0; ch < devc->num_channels; ch++)`, started
at channel `ch` with `k` channels to go. `channels ch` is the channel that
`g_slist_nth_data (sdi->channels, ch)` yields. -/
def channel_loop {σ α : Type} (P : poll_env σ α) (channels : Nat → sr_channel) :
    Nat → Nat → loop_state σ α → loop_state σ α
  | 0, _, s => s
  | k + 1, ch, s =>
    if !(channels ch).enabled then channel_loop P channels k (ch + 1) s
    else
      match P.get_measurement with
      | none => { s with dev := P.prepare s.dev ch, ret := SR_ERR_NA }
      | some get_measurement =>
        let r := get_measurement (P.prepare s.dev ch) ch
        let s1 : loop_state σ α :=
          { s with dev := r.2, ret := r.1, calls := s.calls ++ [(ch, r.1)] }
        if 0 < r.1 then channel_loop P channels k (ch + 1) s1
        else if r.1 ≠ SR_OK then s1
        else
          channel_loop P channels k (ch + 1)
            { s1 with sent := s1.sent ++ [(ch, P.packet r.2 ch)], sent_sample := true }

/-- What one poll tick leaves behind: the device and scratch data, the
software limits, the calls of the measurement routine and the packets sent
during the tick, and whether the tick called `sr_dev_acquisition_stop`. -/
structure tick_result (σ α : Type) where
  dev : σ
  limits : sr_sw_limits
  calls : List (Nat × Int)
  sent : List (Nat × α)
  stop_requested : Bool

/-- One tick, `scpi_dmm_receive_data`, for a device instance whose connection and
context are present (the routine does nothing otherwise); `now` is the clock
at the limit check. -/
def scpi_dmm_receive_data {σ α : Type} (P : poll_env σ α) (channels : Nat → sr_channel)
    (num_channels : Nat) (now : Nat) (dev : σ) (limits : sr_sw_limits) : tick_result σ α :=
  let s := channel_loop P channels num_channels 0
    { dev := dev, ret := SR_OK, sent_sample := false, calls := [], sent := [] }
  let limits1 :=
    if s.sent_sample then sr_sw_limits_update_samples_read limits 1 else limits
  if s.ret ≠ SR_OK then
    { dev := s.dev, limits := limits1, calls := s.calls, sent := s.sent, stop_requested := true }
  else if sr_sw_limits_check limits1 now then
    { dev := s.dev, limits := limits1, calls := s.calls, sent := s.sent, stop_requested := true }
  else
    { dev := s.dev, limits := limits1, calls := s.calls, sent := s.sent,
      stop_requested := false }

/-- Modelled from the spec: `sr_analog_init` of `analog.c` is not under src/.
It resets the packet of a channel before the measurement routine fills it. -/
def sr_analog_init : sr_datafeed_analog :=
  { data := dbl_0, unitsize := sizeof_float, digits := 0, mq := 0, mqflags := 0, unit := 0,
    spec_digits := 0 }

/-- The poll environment of a model that measures with strategy A, in front
of a device that answers the function query and the value query of channel
`ch` with `replies ch`. -/
def agilent_env (lib : StrUtil) (devc : dev_context) (replies : Nat → ScpiReply × ScpiReply) :
    poll_env scpi_dmm_acq_info sr_datafeed_analog where
  get_measurement := some fun info ch =>
    scpi_dmm_get_meas_agilent lib devc info ch (replies ch).1 (replies ch).2
  prepare := fun info ch => { info with analog := Function.update info.analog ch sr_analog_init }
  packet := fun info ch => info.analog ch

/-- The scratch data at acquisition start. -/
def acq_info_init : scpi_dmm_acq_info :=
  { d_value := dbl_0, f_value := dbl_0, analog := fun _ => sr_analog_init }

/-- Software limits that stop nothing. -/
def no_limits : sr_sw_limits :=
  { limit_samples := 0, limit_frames := 0, limit_msec := 0, samples_read := 0, frames_read := 0,
    start_time := 0 }

/-- The test that the loop of `scpi_dmm_lookup_mq_text` makes on one entry: the query
token is present, not empty, and a prefix of the text. -/
def mq_text_matches (text : CStr) (item : mqopt_item) : Bool :=
  match item.scpi_func_query with
  | none => false
  | some q => q ≠ [] && g_str_has_prefix text q

/-- The test that the loop of `scpi_dmm_lookup_mq_number` makes on one entry. -/
def mq_number_matches (mq flag : Nat) (item : mqopt_item) : Bool :=
  item.mq = mq && item.mqflag = flag

/-! ## Setting the measurement mode -/

/-- Modelled from the spec: the behaviour flag no-range of a capability,
`FLAG_NO_RANGE` of `protocol.h`, which is not under src/. -/
def FLAG_NO_RANGE : Nat := 1

/-- Modelled from the spec: the behaviour flag needs-settle-delay of a
capability, `FLAG_CONF_DELAY` of `protocol.h`, which is not under src/. -/
def FLAG_CONF_DELAY : Nat := 2

/-- What a setup routine does to the device and the clock, in order:
`scpi_dmm_cmd_delay`, `sr_scpi_send` with the command format and its argument,
`sr_scpi_cmd` with the format found in the command set and its arguments, and
`g_usleep`. -/
inductive scpi_op where
  | cmd_delay
  | send (format : Option CStr) (arg : Option CStr)
  | cmd (format : Option CStr) (args : List (Option CStr))
  | usleep (us : Nat)
deriving DecidableEq

/-- The mode setup `scpi_dmm_set_mq`: the return code and what was done.
`send_ret` is the code with which `sr_scpi_send` returns. -/
def scpi_dmm_set_mq (devc : dev_context) (mq flag : Nat) (send_ret : Int) :
    Int × List scpi_op :=
  match scpi_dmm_lookup_mq_number devc.model.mqopts mq flag with
  | none => (SR_ERR_NA, [])
  | some item =>
    let mode := item.scpi_func_setup
    let command := devc.cmdset.setup_func
    let ops := [scpi_op.cmd_delay, scpi_op.send command mode]
    if send_ret ≠ SR_OK then (send_ret, ops)
    else if item.drv_flags &&& FLAG_CONF_DELAY ≠ 0 then
      (SR_OK, ops ++ [scpi_op.usleep devc.model.conf_delay_us])
    else (SR_OK, ops)

/-! ## Range text of the vendor-normalised strategy -/

/-- The two bytes of the Ohm sign in UTF-8, `"\xCE\xA9"`. -/
def ohm_sign : CStr := [Char.ofNat 0xCE, Char.ofNat 0xA9]

/-- The `g_string_replace (s, "\xCE\xA9", "Ohm", 0)` call of GLib: every
occurrence of the two bytes, from left to right, becomes `Ohm`. -/
def replace_ohm : CStr → CStr
  | a :: b :: t =>
    if a = Char.ofNat 0xCE ∧ b = Char.ofNat 0xA9 then 'O' :: 'h' :: 'm' :: replace_ohm t
    else a :: replace_ohm (b :: t)
  | s => s

/-- The bytes that the number scan of `scpi_dmm_owon_get_range_text` steps over:
digits, period, signs, and the exponent letters. -/
def owon_number_char (c : Char) : Bool :=
  g_ascii_isdigit c || c = '.' || c = '+' || c = '-' || c = 'e' || c = 'E'

/-- What `snprintf (buf, size, ...)` leaves in the buffer of a text: its first
`size - 1` bytes. -/
def snprintf_s (size : Nat) (text : CStr) : CStr := text.take (size - 1)

/-- The text that `scpi_dmm_owon_get_range_text` writes to `devc->range_text` for the
response of the range query: the Ohm sign replaced, then either the number,
one space and what follows the number, or the response as it is.
`range_text_size` is `sizeof (devc->range_text)`, declared in `protocol.h`; a
`NULL` response is the empty text of `g_string_new (NULL)`. -/
def owon_range_text (range_text_size : Nat) (reply : Option CStr) : CStr :=
  let response := replace_ohm (reply.getD [])
  let pos := response.dropWhile g_ascii_isspace
  let number := pos.takeWhile owon_number_char
  let number_end := pos.dropWhile owon_number_char
  match number_end with
  | [] => snprintf_s range_text_size response
  | c :: _ =>
    if number ≠ [] ∧ g_ascii_isspace c = false then
      snprintf_s range_text_size (number ++ ' ' :: number_end)
    else snprintf_s range_text_size response

/-- The range read-back `scpi_dmm_owon_get_range_text`; no result is `NULL`.
`func_reply` answers the function query, `auto_cmd` and `range_cmd` are the
codes with which `sr_scpi_cmd` returns for the auto range query and the range
query, `auto_reply` and `range_reply` what `sr_scpi_get_bool` and
`sr_scpi_get_string` yield. -/
def scpi_dmm_owon_get_range_text (devc : dev_context) (range_text_size : Nat)
    (func_reply : ScpiReply) (auto_cmd : Int) (auto_reply : Int × Bool) (range_cmd : Int)
    (range_reply : ScpiReply) : Option CStr :=
  let m := scpi_dmm_get_mq devc func_reply
  if m.ret ≠ SR_OK then none
  else
    match m.mqitem with
    | none => none
    | some mqitem =>
      if mqitem.scpi_func_setup = none then none
      else if mqitem.drv_flags &&& FLAG_NO_RANGE ≠ 0 then none
      else if auto_cmd ≠ SR_OK then none
      else if auto_reply.1 ≠ SR_OK then none
      else if auto_reply.2 then some "auto".toList
      else if range_cmd ≠ SR_OK then none
      else if range_reply.1 ≠ SR_OK then none
      else some (owon_range_text range_text_size range_reply.2)

/-! ## Setting the range of the vendor-normalised strategy -/

/-- The sign bit of a double that is not NaN. -/
def Dbl.signbit : Dbl → Bool
  | .fin q => decide (q < 0)
  | .nzero => true
  | .ninf => true
  | _ => false

/-- Whether a double is one of the two zeros. -/
def Dbl.is_zero : Dbl → Bool
  | .fin q => decide (q = 0)
  | .nzero => true
  | _ => false

/-- Whether a double is one of the two infinities. -/
def Dbl.is_inf : Dbl → Bool
  | .pinf => true
  | .ninf => true
  | _ => false

/-- The product `a * b` of two doubles as IEEE 754 defines it: NaN with a
NaN operand and for zero times infinity; else the sign is the exclusive or
of the signs, also for a zero; the magnitude is the exact product rounded to
binary64. -/
def Dbl.mul (a b : Dbl) : Dbl :=
  if a = .nan ∨ b = .nan then .nan
  else if a.is_inf ∨ b.is_inf then
    (if a.is_zero ∨ b.is_zero then .nan
     else if a.signbit != b.signbit then .ninf else .pinf)
  else
    match a, b with
    | .fin x, .fin y =>
      round_binary 53 (-1022) 1023 (a.signbit != b.signbit)
        (x.num.natAbs * y.num.natAbs) (x.den * y.den)
    | _, _ => if a.signbit != b.signbit then .nzero else .fin 0

/-- The C literal `1e3`. -/
def dbl_1e3 : Dbl := .fin 1000
/-- The C literal `1e6`. -/
def dbl_1e6 : Dbl := .fin 1000000
/-- The C literal `1e9`. -/
def dbl_1e9 : Dbl := .fin 1000000000
/-- The C literal `1e-3`. -/
def dbl_1e_3 : Dbl := binary64_of_decimal false 1 (-3)
/-- The C literal `1e-6`. -/
def dbl_1e_6 : Dbl := binary64_of_decimal false 1 (-6)
/-- The C literal `1e-9`. -/
def dbl_1e_9 : Dbl := binary64_of_decimal false 1 (-9)
/-- The C literal `1e-12`. -/
def dbl_1e_12 : Dbl := binary64_of_decimal false 1 (-12)

/-- How often `d` can be multiplied by ten without passing `n`. -/
def decades_up : Nat → Nat → Nat → Nat
  | 0, _, _ => 0
  | fuel + 1, n, d => if d * 10 ≤ n then decades_up fuel n (d * 10) + 1 else 0

/-- How often `n` must be multiplied by ten to reach `d`. -/
def decades_down : Nat → Nat → Nat → Nat
  | 0, _, _ => 0
  | fuel + 1, n, d => if d ≤ n then 0 else decades_down fuel (n * 10) d + 1

/-- The decimal exponent of the positive rational `n / d`: the `e` with
`10 ^ e ≤ n / d < 10 ^ (e + 1)`. -/
def decimal_exponent (n d : Nat) : Int :=
  if d ≤ n then (decades_up 400 n d : Int) else -(decades_down 400 n d : Int)

/-- The quotient `n / d` rounded to the nearest integer, ties to even. -/
def div_half_even (n d : Nat) : Nat :=
  let m := n / d
  let r := n % d
  if d < 2 * r ∨ (2 * r = d ∧ m % 2 = 1) then m + 1 else m

/-- A text without its trailing zero digits. -/
def strip_zeros (s : CStr) : CStr := (s.reverse.dropWhile (fun c => c = '0')).reverse

/-- How `printf ("%.17g", x)` lays out the seventeen significant digits of a
number with decimal exponent `e`: in fixed notation when the exponent is
from -4 to 16 and in exponent notation otherwise, without trailing zeros. -/
def fmt_g_layout (digits : CStr) (e : Int) : CStr :=
  if -4 ≤ e ∧ e < 17 then
    if 0 ≤ e then
      let frac := strip_zeros (digits.drop (e.toNat + 1))
      if frac = [] then digits.take (e.toNat + 1)
      else digits.take (e.toNat + 1) ++ '.' :: frac
    else '0' :: '.' :: (List.replicate ((-e).toNat - 1) '0' ++ strip_zeros digits)
  else
    let frac := strip_zeros (digits.drop 1)
    let mant := if frac = [] then digits.take 1 else digits.take 1 ++ '.' :: frac
    let ex := nat_digits 4 e.natAbs []
    mant ++ 'e' :: (if e < 0 then '-' else '+') :: (if ex.length < 2 then '0' :: ex else ex)

/-- The text that `printf ("%.17g", x)` writes for the positive rational
`n / d`: its seventeen significant digits, rounded to nearest with ties to
even, laid out by the decimal exponent. -/
def fmt_17g (n d : Nat) : CStr :=
  let e0 := decimal_exponent n d
  let m0 := if e0 ≤ 16 then div_half_even (n * 10 ^ (16 - e0).toNat) d
    else div_half_even n (d * 10 ^ (e0 - 16).toNat)
  let e := if m0 = 10 ^ 17 then e0 + 1 else e0
  let m := if m0 = 10 ^ 17 then 10 ^ 16 else m0
  fmt_g_layout (nat_digits 17 m []) e

/-- The `g_ascii_dtostr (buffer, 64, d)` call of GLib, which formats with
`%.17g` in the C locale; no such text is longer than 24 bytes. -/
def g_ascii_dtostr : Dbl → CStr
  | .fin q =>
    if q = 0 then ['0']
    else if q < 0 then '-' :: fmt_17g q.num.natAbs q.den
    else fmt_17g q.num.natAbs q.den
  | .nzero => "-0".toList
  | .pinf => "inf".toList
  | .ninf => "-inf".toList
  | .nan => "nan".toList

/-- Whether `g_ascii_strcasecmp (a, b)` is `0`: the texts agree up to the
case of the ASCII letters. -/
def g_ascii_strcasecmp_eq (a b : CStr) : Bool :=
  a.map g_ascii_tolower = b.map g_ascii_tolower

/-- The `switch (prefix)` of `scpi_dmm_owon_set_range_from_text`: the multiplier of an SI
prefix, nothing in the `default` case. -/
def owon_si_multiplier (c : Char) : Option Dbl :=
  if c = 'k' ∨ c = 'K' then some dbl_1e3
  else if c = 'm' then some dbl_1e_3
  else if c = 'u' then some dbl_1e_6
  else if c = 'n' then some dbl_1e_9
  else if c = 'p' then some dbl_1e_12
  else if c = 'M' then some dbl_1e6
  else if c = 'G' then some dbl_1e9
  else none

/-- The preprocessing of the range text in `scpi_dmm_owon_set_range_from_text`, which
fills `char processed_range[64]`. With a space that is not the last byte, the
text before the first space goes to `char num_str[32]` and is parsed; the
result is undefined (no value here) when that text has 32 bytes or more,
since `num_str[num_len]` is then written past the array. -/
def owon_processed_range (lib : StrUtil) (range : CStr) : Option CStr :=
  let num_str := range.takeWhile (fun c => c != ' ')
  match range.dropWhile (fun c => c != ' ') with
  | _ :: pfx :: _ =>
    if 32 ≤ num_str.length then none
    else
      let cv := lib.sr_atod_ascii (some num_str)
      if cv.1 = SR_OK then
        match owon_si_multiplier pfx with
        | some multiplier => some (g_ascii_dtostr (Dbl.mul cv.2 multiplier))
        | none => some (snprintf_s 64 range)
      else some (snprintf_s 64 range)
  | _ => some (snprintf_s 64 range)

/-- The end of `scpi_dmm_owon_set_range_from_text`: the setup range command is sent with
the setup token of the capability and the payload, and the settle delay is
slept when the command went through and the capability is flagged for it. -/
def owon_send_range (devc : dev_context) (item : mqopt_item) (payload : CStr)
    (cmd_ret : Int) : Int × List scpi_op :=
  let ops := [scpi_op.cmd_delay,
    scpi_op.cmd devc.cmdset.setup_range [item.scpi_func_setup, some payload]]
  if cmd_ret ≠ SR_OK then (cmd_ret, ops)
  else if item.drv_flags &&& FLAG_CONF_DELAY ≠ 0 then
    (SR_OK, ops ++ [scpi_op.usleep devc.model.conf_delay_us])
  else (SR_OK, ops)

/-- The range setup `scpi_dmm_owon_set_range_from_text`: the return code and what was
done, when defined. `func_reply` answers the function query, `cmd_ret` is
the code with which `sr_scpi_cmd` returns. -/
def scpi_dmm_owon_set_range_from_text (lib : StrUtil) (devc : dev_context)
    (range : Option CStr) (func_reply : ScpiReply) (cmd_ret : Int) :
    Option (Int × List scpi_op) :=
  match range with
  | none => some (SR_ERR_ARG, [])
  | some [] => some (SR_ERR_ARG, [])
  | some (r0 :: rs) =>
    let m := scpi_dmm_get_mq devc func_reply
    if m.ret ≠ SR_OK then some (m.ret, [])
    else
      match m.mqitem with
      | none => some (SR_ERR_ARG, [])
      | some item =>
        if item.scpi_func_setup = none then some (SR_ERR_ARG, [])
        else if item.drv_flags &&& FLAG_NO_RANGE ≠ 0 then some (SR_ERR_NA, [])
        else
          let is_auto := g_ascii_strcasecmp_eq (r0 :: rs) "auto".toList
          match owon_processed_range lib (r0 :: rs) with
          | none => none
          | some processed_range =>
            some (owon_send_range devc item
              (if is_auto then "AUTO".toList else processed_range) cmd_ret)

/-! ## Range setup of the generic strategy and the range catalogues -/

/-- The range setup `scpi_dmm_set_range_from_text` of the generic strategy: the return
code and what was done. `func_reply` answers the function query, `cmd_ret` is
the code with which `sr_scpi_cmd` returns. -/
def scpi_dmm_set_range_from_text (devc : dev_context) (range : Option CStr)
    (func_reply : ScpiReply) (cmd_ret : Int) : Int × List scpi_op :=
  match range with
  | none => (SR_ERR_ARG, [])
  | some [] => (SR_ERR_ARG, [])
  | some (r0 :: rs) =>
    let m := scpi_dmm_get_mq devc func_reply
    if m.ret ≠ SR_OK then (m.ret, [])
    else
      match m.mqitem with
      | none => (SR_ERR_ARG, [])
      | some item =>
        if item.scpi_func_setup = none then (SR_ERR_ARG, [])
        else if item.drv_flags &&& FLAG_NO_RANGE ≠ 0 then (SR_ERR_NA, [])
        else
          let is_auto := g_ascii_strcasecmp_eq (r0 :: rs) "auto".toList
          let ops := [scpi_op.cmd_delay,
            scpi_op.cmd devc.cmdset.setup_range
              [item.scpi_func_setup, some (if is_auto then "AUTO".toList else r0 :: rs)]]
          if cmd_ret ≠ SR_OK then (cmd_ret, ops)
          else if item.drv_flags &&& FLAG_CONF_DELAY ≠ 0 then
            (SR_OK, ops ++ [scpi_op.usleep devc.model.conf_delay_us])
          else (SR_OK, ops)

/-- Modelled from the spec: the flag `SR_MQFLAG_AC` of `libsigrok.h`, which is
not under src/. -/
def SR_MQFLAG_AC : Nat := 1

/-- Modelled from the spec: the flag `SR_MQFLAG_DC` of `libsigrok.h`, which is
not under src/. -/
def SR_MQFLAG_DC : Nat := 2

/-- The range catalogue `owon_dcv_ranges`. -/
def owon_dcv_ranges : List CStr :=
  ["auto", "50 mV", "500 mV", "5 V", "50 V", "500 V", "1000 V"].map String.toList

/-- The range catalogue `owon_acv_ranges`. -/
def owon_acv_ranges : List CStr :=
  ["auto", "500 mV", "5 V", "50 V", "500 V", "750 V"].map String.toList

/-- The range catalogue `owon_dci_ranges`. -/
def owon_dci_ranges : List CStr :=
  ["auto", "500 uA", "5 mA", "50 mA", "500 mA", "5 A", "10 A"].map String.toList

/-- The range catalogue `owon_aci_ranges`. -/
def owon_aci_ranges : List CStr :=
  ["auto", "500 uA", "5 mA", "50 mA", "500 mA", "5 A", "10 A"].map String.toList

/-- The range catalogue `owon_res_ranges`. -/
def owon_res_ranges : List CStr :=
  ["auto", "500 Ohm", "5 kOhm", "50 kOhm", "500 kOhm", "5 MOhm", "50 MOhm"].map String.toList

/-- The range catalogue `owon_cap_ranges`. -/
def owon_cap_ranges : List CStr :=
  ["auto", "50 nF", "500 nF", "5 uF", "50 uF", "500 uF", "5 mF", "50 mF"].map String.toList

/-- The range catalogue `owon_temp_ranges`. -/
def owon_temp_ranges : List CStr :=
  ["KITS90", "Pt100"].map String.toList

/-- The `switch (mq)` of `scpi_dmm_owon_get_range_text_list`: the catalogue for a
quantity and a flag word, nothing when `ranges` stays `NULL`. -/
def owon_select_ranges (mq mqflag : Nat) : Option (List CStr) :=
  if mq = SR_MQ_VOLTAGE then
    (if mqflag &&& SR_MQFLAG_DC ≠ 0 then some owon_dcv_ranges
     else if mqflag &&& SR_MQFLAG_AC ≠ 0 then some owon_acv_ranges
     else none)
  else if mq = SR_MQ_CURRENT then
    (if mqflag &&& SR_MQFLAG_DC ≠ 0 then some owon_dci_ranges
     else if mqflag &&& SR_MQFLAG_AC ≠ 0 then some owon_aci_ranges
     else none)
  else if mq = SR_MQ_RESISTANCE then some owon_res_ranges
  else if mq = SR_MQ_CAPACITANCE then some owon_cap_ranges
  else if mq = SR_MQ_TEMPERATURE then some owon_temp_ranges
  else none

/-- The range list `scpi_dmm_owon_get_range_text_list`: the texts added to the string
array, in order. -/
def scpi_dmm_owon_get_range_text_list (devc : dev_context) (func_reply : ScpiReply) :
    List CStr :=
  let m := scpi_dmm_get_mq devc func_reply
  if m.ret ≠ SR_OK then []
  else if (match m.mqitem with
      | some mqitem => decide (mqitem.drv_flags &&& FLAG_NO_RANGE ≠ 0)
      | none => false) then []
  else
    match owon_select_ranges m.mq m.flag with
    | some ranges => ranges
    | none => []

/-- The range answers of an XDM1041 that the comment above `scpi_dmm_owon_get_range_text`
lists, mode by mode, each with the catalogue of the mode: DC voltage, AC
voltage, DC current, AC current, resistance, capacitance, temperature. -/
def owon_observed_answers : List (List CStr × List CStr) :=
  [ (owon_dcv_ranges,
      ["1000 V", "500 V", "50 V", "5 V", "500 mV", "50 mV"].map String.toList),
    (owon_acv_ranges, ["750 V", "500 V", "50 V", "5 V", "500 mV"].map String.toList),
    (owon_dci_ranges,
      ["10 A", "5 A", "500 mA", "50 mA", "5 mA", "500 uA"].map String.toList),
    (owon_aci_ranges,
      ["10 A", "5 A", "500 mA", "50 mA", "5 mA", "500 uA"].map String.toList),
    (owon_res_ranges,
      [ "50 M".toList ++ ohm_sign, "5 M".toList ++ ohm_sign, "500 K".toList ++ ohm_sign,
        "50 K".toList ++ ohm_sign, "5 K".toList ++ ohm_sign, "500 ".toList ++ ohm_sign ]),
    (owon_cap_ranges,
      ["50 mF", "5 mF", "500uF", "50uF", "5uF", "500 nF", "50 nF"].map String.toList),
    (owon_temp_ranges, ["KITS90", "Pt100"].map String.toList) ]

/-- The condition under which `scpi_dmm_owon_get_range_text` copies the response as it
is (the `else` branch of its last test): there is no number at the start, or
nothing after the number, or white space after it. -/
def owon_copies (response : CStr) : Bool :=
  let pos := response.dropWhile g_ascii_isspace
  match pos.dropWhile owon_number_char with
  | [] => true
  | c :: _ => pos.takeWhile owon_number_char = [] || g_ascii_isspace c

/-! ## Concrete inputs -/

/-- A model with a DC voltage and a continuity capability, five digits. -/
def demo_model : scpi_dmm_model :=
  { model := "34405A".toList, digits := 5,
    mqopts :=
      [ { mq := SR_MQ_VOLTAGE, mqflag := 2, scpi_func_setup := some "VOLT".toList,
          scpi_func_query := some "VOLT".toList, default_precision := NO_DFLT_PREC,
          drv_flags := 0 },
        { mq := SR_MQ_CONTINUITY, mqflag := 0, scpi_func_setup := some "CONT".toList,
          scpi_func_query := some "CONT".toList, default_precision := -1, drv_flags := 0 } ],
    infinity_limit := dbl_0, conf_delay_us := 0 }

/-- Its command set: function query and value query. -/
def demo_cmdset : scpi_cmdset :=
  { query_func := some "CONF?".toList, setup_func := some "CONF:%s".toList, query_range := none,
    query_range_auto := none, setup_range := none, query_value := some "READ?".toList }

/-- The driver context of that model. -/
def demo_devc : dev_context :=
  { model := demo_model, cmdset := demo_cmdset, precision := none }

/-- A successful reply of the transport with the given text. -/
def reply_ok (text : String) : ScpiReply := (SR_OK, some text.toList)

/-- A mode-code model of the given name: resistance answers the function
query with code 07, continuity with 13, the diode test with 17; with an
optional overload threshold override. -/
def demo_gw_model (name : String) (infinity_limit : Dbl) : scpi_dmm_model :=
  { model := name.toList, digits := 6,
    mqopts :=
      [ { mq := SR_MQ_VOLTAGE, mqflag := 2, scpi_func_setup := some "CONF:VOLT:DC".toList,
          scpi_func_query := some "01".toList, default_precision := NO_DFLT_PREC,
          drv_flags := 0 },
        { mq := SR_MQ_RESISTANCE, mqflag := 0, scpi_func_setup := some "CONF:RES".toList,
          scpi_func_query := some "07".toList, default_precision := NO_DFLT_PREC,
          drv_flags := 0 },
        { mq := SR_MQ_CONTINUITY, mqflag := 0, scpi_func_setup := some "CONF:CONT".toList,
          scpi_func_query := some "13".toList, default_precision := NO_DFLT_PREC,
          drv_flags := 0 },
        { mq := SR_MQ_VOLTAGE, mqflag := 6, scpi_func_setup := some "CONF:DIOD".toList,
          scpi_func_query := some "17".toList, default_precision := NO_DFLT_PREC,
          drv_flags := 0 } ],
    infinity_limit := infinity_limit, conf_delay_us := 0 }

/-- The driver context of a mode-code model. -/
def demo_gw_devc (name : String) (infinity_limit : Dbl) : dev_context :=
  { model := demo_gw_model name infinity_limit,
    cmdset :=
      { query_func := some "CONF:STAT:FUNC?".toList, setup_func := some "%s".toList,
        query_range := none, query_range_auto := none, setup_range := none,
        query_value := some "VAL1?".toList },
    precision := some "Slow".toList }

/-- A device that answers every function query with `func` and every value
query with `value`, except for channel `bad`, whose queries fail with the
code `err`. -/
def demo_replies (func value : String) (bad : Option Nat) (err : Int) :
    Nat → ScpiReply × ScpiReply :=
  fun ch => if bad = some ch then ((err, none), (err, none)) else (reply_ok func, reply_ok value)

/-- A measurement routine that returns a scripted code for each channel and
leaves the state alone. -/
def scripted_env (codes : Nat → Int) : poll_env Unit Nat where
  get_measurement := some fun d ch => (codes ch, d)
  prepare := fun d _ => d
  packet := fun _ ch => ch

/-- Three channels of which the second (index 1) is disabled. -/
def demo_channels_2_off : Nat → sr_channel := fun ch => { enabled := ch != 1 }

/-- Channels that are all enabled. -/
def demo_channels_on : Nat → sr_channel := fun _ => { enabled := true }

/-- Limits of an acquisition started at clock 1 with a time limit of 1000 ms
and no sample limit. -/
def demo_time_limits : sr_sw_limits :=
  { limit_samples := 0, limit_frames := 0, limit_msec := 1000, samples_read := 0,
    frames_read := 0, start_time := 1 }

/-- Channels that are all disabled. -/
def demo_channels_off : Nat → sr_channel := fun _ => { enabled := false }

/-- A capability table with distinct (quantity, flag) pairs and distinct
query tokens, in which the token of the first entry is a prefix of the token
of the second. -/
def demo_table_general_first : List mqopt_item :=
  [ { mq := SR_MQ_VOLTAGE, mqflag := 2, scpi_func_setup := some "VOLT".toList,
      scpi_func_query := some "VOLT".toList, default_precision := NO_DFLT_PREC, drv_flags := 0 },
    { mq := SR_MQ_VOLTAGE, mqflag := 1, scpi_func_setup := some "VOLT:AC".toList,
      scpi_func_query := some "VOLT:AC".toList, default_precision := NO_DFLT_PREC,
      drv_flags := 0 } ]

/-- A capability table whose first entry can be set up but has an empty
query token. -/
def demo_table_empty_token : List mqopt_item :=
  [ { mq := SR_MQ_TIME, mqflag := 0, scpi_func_setup := some "PER".toList,
      scpi_func_query := some [], default_precision := NO_DFLT_PREC, drv_flags := 0 },
    { mq := SR_MQ_VOLTAGE, mqflag := 2, scpi_func_setup := some "VOLT".toList,
      scpi_func_query := some "VOLT".toList, default_precision := NO_DFLT_PREC,
      drv_flags := 0 } ]

/-- The demo model with a settle delay of 1000 microseconds, flagged on the
voltage capability only. -/
def demo_delay_devc : dev_context :=
  { model :=
      { demo_model with
        mqopts :=
          [ { mq := SR_MQ_VOLTAGE, mqflag := 2, scpi_func_setup := some "VOLT".toList,
              scpi_func_query := some "VOLT".toList, default_precision := NO_DFLT_PREC,
              drv_flags := FLAG_CONF_DELAY },
            { mq := SR_MQ_CONTINUITY, mqflag := 0, scpi_func_setup := some "CONT".toList,
              scpi_func_query := some "CONT".toList, default_precision := -1,
              drv_flags := 0 } ],
        conf_delay_us := 1000 },
    cmdset := demo_cmdset, precision := none }

/-- A driver context of the vendor-normalised strategy: resistance and
capacitance, with range commands. -/
def demo_owon_devc : dev_context :=
  { model :=
      { model := "XDM1041".toList, digits := 5,
        mqopts :=
          [ { mq := SR_MQ_RESISTANCE, mqflag := 0, scpi_func_setup := some "RES".toList,
              scpi_func_query := some "RES".toList, default_precision := NO_DFLT_PREC,
              drv_flags := 0 },
            { mq := SR_MQ_CAPACITANCE, mqflag := 0, scpi_func_setup := some "CAP".toList,
              scpi_func_query := some "CAP".toList, default_precision := NO_DFLT_PREC,
              drv_flags := 0 },
            { mq := SR_MQ_VOLTAGE, mqflag := 2, scpi_func_setup := some "VOLT".toList,
              scpi_func_query := some "VOLT".toList, default_precision := NO_DFLT_PREC,
              drv_flags := FLAG_CONF_DELAY } ],
        infinity_limit := dbl_0, conf_delay_us := 1000 },
    cmdset :=
      { query_func := some "FUNC?".toList, setup_func := some "CONF:%s".toList,
        query_range := some "RANGE?".toList, query_range_auto := some "AUTO?".toList,
        setup_range := some "CONF:%s %s".toList, query_value := some "MEAS1?".toList },
    precision := none }

/-- A driver context of the vendor-normalised strategy with every kind of
mode: AC and DC voltage and current, resistance, capacitance, temperature, a
frequency mode (no catalogue), and a diode mode flagged as having no
ranges. -/
def demo_owon_full_devc : dev_context :=
  { model :=
      { model := "XDM1041".toList, digits := 5,
        mqopts :=
          [ ⟨SR_MQ_VOLTAGE, SR_MQFLAG_AC, some "VOLT:AC".toList, some "VOLT AC".toList,
              NO_DFLT_PREC, 0⟩,
            ⟨SR_MQ_VOLTAGE, SR_MQFLAG_DC, some "VOLT".toList, some "VOLT".toList,
              NO_DFLT_PREC, 0⟩,
            ⟨SR_MQ_CURRENT, SR_MQFLAG_AC, some "CURR:AC".toList, some "CURR AC".toList,
              NO_DFLT_PREC, 0⟩,
            ⟨SR_MQ_CURRENT, SR_MQFLAG_DC, some "CURR".toList, some "CURR".toList,
              NO_DFLT_PREC, 0⟩,
            ⟨SR_MQ_RESISTANCE, 0, some "RES".toList, some "RES".toList, NO_DFLT_PREC, 0⟩,
            ⟨SR_MQ_CAPACITANCE, 0, some "CAP".toList, some "CAP".toList, NO_DFLT_PREC, 0⟩,
            ⟨SR_MQ_TEMPERATURE, 0, some "TEMP".toList, some "TEMP".toList, NO_DFLT_PREC, 0⟩,
            ⟨SR_MQ_FREQUENCY, 0, some "FREQ".toList, some "FREQ".toList, NO_DFLT_PREC, 0⟩,
            ⟨SR_MQ_VOLTAGE, 10, some "DIOD".toList, some "DIOD".toList, NO_DFLT_PREC,
              FLAG_NO_RANGE⟩ ],
        infinity_limit := dbl_0, conf_delay_us := 1000 },
    cmdset := demo_owon_devc.cmdset,
    precision := none }

/-! ## Theorems -/

/-! ### Facts about doubles -/

theorem Dbl.lt_iff (a b : Dbl) : a < b ↔ Dbl.lt a b = true := Iff.rfl

/-- The non-strict order of doubles is the comparison function. -/
theorem Dbl.le_iff (a b : Dbl) : a ≤ b ↔ Dbl.le a b = true := Iff.rfl

/-- Unary minus of doubles is `Dbl.neg`. -/
theorem Dbl.neg_def (a : Dbl) : -a = Dbl.neg a := rfl

/-- No double is below itself. -/
theorem Dbl.lt_irrefl (v : Dbl) : ¬ v < v := by
  rw [Dbl.lt_iff]
  cases v <;> simp [Dbl.lt]

/-- A double strictly below another is not at or above it. -/
theorem Dbl.not_le_of_lt (a b : Dbl) (h : a < b) : ¬ b ≤ a := by
  rw [Dbl.lt_iff] at h
  rw [Dbl.le_iff]
  cases a <;> cases b <;> simp_all [Dbl.lt, Dbl.le]

set_option maxRecDepth 8000 in
/-- The constants are the binary64 values of the C literals `9e37`, `1.2e8`,
`1.99999e8`, `1.2e3` and `1.0e0`. -/
theorem literals_are_rounded :
    binary64_of_decimal false 9 37 = dbl_9e37 ∧
    binary64_of_decimal false 12 7 = dbl_1_2e8 ∧
    binary64_of_decimal false 199999 3 = dbl_1_99999e8 ∧
    binary64_of_decimal false 12 2 = dbl_1_2e3 ∧
    binary64_of_decimal false 10 (-1) = dbl_1_0 := by
  decide

/-- The negation of a finite double that is not zero. -/
theorem Dbl.neg_fin (a : ℚ) (h : a ≠ 0) : -(Dbl.fin a) = Dbl.fin (-a) := by
  rw [Dbl.neg_def, Dbl.neg, if_neg h]

/-- A reading below `-9e37` is not above `9e37`. -/
theorem not_gt_of_lt_neg_9e37 (v : Dbl) (h : v < -dbl_9e37) : ¬ dbl_9e37 < v := by
  have hn : -dbl_9e37 = Dbl.fin (-89999999999999992307089061666856370176) :=
    Dbl.neg_fin _ (by norm_num)
  rw [hn] at h
  rw [Dbl.lt_iff] at h ⊢
  cases v with
  | fin q =>
    simp only [dbl_9e37, Dbl.lt, decide_eq_true_eq] at h ⊢
    linarith
  | nzero =>
    simp only [dbl_9e37, Dbl.lt, decide_eq_true_eq] at h ⊢
    linarith
  | pinf => simp [Dbl.lt] at h
  | ninf => simp [dbl_9e37, Dbl.lt]
  | nan => simp [dbl_9e37, Dbl.lt]

/-- With a threshold that is not negative, a reading at or below the negated
threshold is not at or above the threshold. -/
theorem not_ge_limit_of_le_neg (il v : Dbl) (hpos : ¬ il < dbl_0)
    (h : v ≤ -gwinstek_limit il) : ¬ gwinstek_limit il ≤ v := by
  have hfin : ∀ l : ℚ, 0 < l → v ≤ -(Dbl.fin l) → ¬ Dbl.fin l ≤ v := by
    intro l hl hle
    rw [Dbl.neg_fin l (ne_of_gt hl)] at hle
    rw [Dbl.le_iff] at hle ⊢
    cases v with
    | fin q =>
      simp only [Dbl.le, decide_eq_true_eq] at hle ⊢
      intro hge
      linarith only [hl, hle, hge]
    | nzero =>
      simp only [Dbl.le, decide_eq_true_eq] at hle ⊢
      intro hge
      linarith only [hl, hle, hge]
    | pinf => simp [Dbl.le] at hle
    | ninf => simp [Dbl.le]
    | nan => simp [Dbl.le]
  cases il with
  | nzero =>
    have : gwinstek_limit Dbl.nzero = dbl_9e37 := by decide
    rw [this] at h ⊢
    exact hfin _ (by norm_num) h
  | fin x =>
    by_cases hx : x = 0
    · subst hx
      have : gwinstek_limit (Dbl.fin 0) = dbl_9e37 := by decide
      rw [this] at h ⊢
      exact hfin _ (by norm_num) h
    · have hl : gwinstek_limit (Dbl.fin x) = Dbl.fin x := by
        simp [gwinstek_limit, Dbl.eq, dbl_0, hx]
      rw [hl] at h ⊢
      have hx0 : 0 < x := by
        rw [Dbl.lt_iff] at hpos
        simp only [dbl_0, Dbl.lt, decide_eq_true_eq, not_lt] at hpos
        exact lt_of_le_of_ne hpos (Ne.symm hx)
      exact hfin x hx0 h
  | pinf =>
    have hl : gwinstek_limit Dbl.pinf = Dbl.pinf := by decide
    rw [hl] at h ⊢
    rw [Dbl.le_iff] at h ⊢
    cases v <;> simp_all [Dbl.neg_def, Dbl.neg, Dbl.le]
  | ninf => exact absurd (by decide) hpos
  | nan =>
    have hl : gwinstek_limit Dbl.nan = Dbl.nan := by decide
    rw [hl] at h
    rw [Dbl.le_iff] at h
    cases v <;> simp [Dbl.neg_def, Dbl.neg, Dbl.le] at h

/-! ### Facts about texts and numbers -/

theorem exponent_suffix_nil (lib : StrUtil) : exponent_suffix lib (some []) = (SR_OK, 0) := rfl

/-- An exponent marker hands the rest to `sr_atoi`. -/
theorem exponent_suffix_exp (lib : StrUtil) (c : Char) (t : CStr) (hc : c = 'e' ∨ c = 'E') :
    exponent_suffix lib (some (c :: t)) = lib.sr_atoi t := by
  rcases hc with rfl | rfl <;> simp [exponent_suffix]

/-- Any other byte is a data error. -/
theorem exponent_suffix_other (lib : StrUtil) (c : Char) (t : CStr) (h1 : c ≠ 'e') (h2 : c ≠ 'E') :
    exponent_suffix lib (some (c :: t)) = (SR_ERR_DATA, 0) := by
  simp [exponent_suffix, h1, h2]

/-- The scan of the text `1e...` stops at the `e`. -/
theorem skip_number_one_e (t : CStr) : skip_number ('1' :: 'e' :: t) = 'e' :: t := by
  simp [skip_number, List.dropWhile, g_ascii_isspace, g_ascii_isdigit]

/-- A number below `10 ^ k` is written with `k` digits at most. -/
theorem nat_digits_length (fuel : Nat) : ∀ (n : Nat) (acc : CStr) (k : Nat), 0 < k → n < 10 ^ k →
    (nat_digits fuel n acc).length ≤ acc.length + k := by
  induction fuel with
  | zero => intro n acc k _ _; simp [nat_digits]
  | succ f ih =>
    intro n acc k hk hn
    unfold nat_digits
    by_cases h0 : n / 10 = 0
    · simp only [h0, if_true, List.length_cons]; omega
    · simp only [h0, if_false]
      have hk2 : 2 ≤ k := by
        by_contra hlt
        have : k = 1 := by omega
        subst this
        have : n / 10 = 0 := Nat.div_eq_of_lt (by simpa using hn)
        exact h0 this
      have hlt : n / 10 < 10 ^ (k - 1) := by
        apply Nat.div_lt_of_lt_mul
        have : 10 * 10 ^ (k - 1) = 10 ^ k := by
          rw [← pow_succ']; congr 1; omega
        omega
      have := ih (n / 10) (Char.ofNat ('0'.toNat + n % 10) :: acc) (k - 1) (by omega) hlt
      simp only [List.length_cons] at this
      omega

/-- An `int` is written with eleven bytes at most. -/
theorem fmt_d_length (n : Int) (h1 : -2147483648 ≤ n) (h2 : n ≤ 2147483647) :
    (fmt_d n).length ≤ 11 := by
  have hn : n.natAbs < 10 ^ 10 := by omega
  unfold fmt_d
  split
  · have := nat_digits_length (n.natAbs + 1) n.natAbs [] 10 (by norm_num) hn
    simp only [List.length_cons, List.length_nil] at this ⊢
    omega
  · have := nat_digits_length (n.natAbs + 1) n.natAbs [] 10 (by norm_num) hn
    simp only [List.length_nil] at this
    omega

/-- The character of a decimal digit is a digit, not white space, not a sign,
and has the digit as its value. -/
theorem digit_char_facts (d : Nat) (hd : d < 10) :
    g_ascii_isdigit (Char.ofNat (48 + d)) = true ∧
    c_isspace (Char.ofNat (48 + d)) = false ∧
    Char.ofNat (48 + d) ≠ '-' ∧ Char.ofNat (48 + d) ≠ '+' ∧
    digit_val (Char.ofNat (48 + d)) = d := by
  interval_cases d <;> decide

/-- One step of `nat_digits`. -/
theorem nat_digits_step (fuel n : Nat) (acc : CStr) :
    nat_digits (fuel + 1) n acc =
      if n / 10 = 0 then Char.ofNat (48 + n % 10) :: acc
      else nat_digits fuel (n / 10) (Char.ofNat (48 + n % 10) :: acc) := by
  rw [nat_digits]
  rfl

/-- Reading one digit. -/
theorem take_digits_digit (d : Nat) (hd : d < 10) (acc : CStr) (a k : Nat) :
    take_digits (Char.ofNat (48 + d) :: acc) a k = take_digits acc (a * 10 + d) (k + 1) := by
  obtain ⟨h1, -, -, -, h5⟩ := digit_char_facts d hd
  rw [take_digits, if_pos h1, h5]

/-- Reading back the digits that `nat_digits` writes in front of `acc`. -/
theorem take_digits_nat_digits (fuel : Nat) : ∀ n : Nat, n < 10 ^ (fuel + 1) →
    ∃ L, 0 < L ∧ ∀ (acc : CStr) (a k : Nat),
      take_digits (nat_digits (fuel + 1) n acc) a k = take_digits acc (a * 10 ^ L + n) (k + L) := by
  induction fuel with
  | zero =>
    intro n hn
    refine ⟨1, Nat.one_pos, fun acc a k => ?_⟩
    have hn10 : n < 10 := by simpa using hn
    have h0 : n / 10 = 0 := Nat.div_eq_of_lt hn10
    have hm : n % 10 = n := Nat.mod_eq_of_lt hn10
    rw [nat_digits_step, if_pos h0, hm, take_digits_digit n hn10, pow_one]
  | succ f ih =>
    intro n hn
    by_cases h0 : n / 10 = 0
    · refine ⟨1, Nat.one_pos, fun acc a k => ?_⟩
      have hn10 : n < 10 := by omega
      have hm : n % 10 = n := Nat.mod_eq_of_lt hn10
      rw [nat_digits_step, if_pos h0, hm, take_digits_digit n hn10, pow_one]
    · have hlt : n / 10 < 10 ^ (f + 1) := by
        apply Nat.div_lt_of_lt_mul
        rw [← pow_succ']
        exact hn
      obtain ⟨L, hL, hrec⟩ := ih (n / 10) hlt
      refine ⟨L + 1, Nat.succ_pos _, fun acc a k => ?_⟩
      rw [nat_digits_step, if_neg h0, hrec,
        take_digits_digit (n % 10) (Nat.mod_lt _ (by norm_num))]
      have e1 : (a * 10 ^ L + n / 10) * 10 + n % 10 = a * 10 ^ (L + 1) + n := by
        have := Nat.div_add_mod n 10
        rw [pow_succ]
        nlinarith [Nat.div_add_mod n 10]
      have e2 : k + L + 1 = k + (L + 1) := by omega
      rw [e1, e2]

/-- The text that `nat_digits` writes starts with a digit. -/
theorem nat_digits_head (fuel : Nat) : ∀ (n : Nat) (acc : CStr),
    ∃ d, d < 10 ∧ ∃ rest, nat_digits (fuel + 1) n acc = Char.ofNat (48 + d) :: rest := by
  induction fuel with
  | zero =>
    intro n acc
    refine ⟨n % 10, Nat.mod_lt _ (by norm_num), acc, ?_⟩
    rw [nat_digits_step]
    by_cases h0 : n / 10 = 0
    · rw [if_pos h0]
    · rw [if_neg h0, nat_digits]
  | succ f ih =>
    intro n acc
    by_cases h0 : n / 10 = 0
    · refine ⟨n % 10, Nat.mod_lt _ (by norm_num), acc, ?_⟩
      rw [nat_digits_step, if_pos h0]
    · obtain ⟨d, hd, rest, hr⟩ := ih (n / 10) (Char.ofNat (48 + n % 10) :: acc)
      refine ⟨d, hd, rest, ?_⟩
      rw [nat_digits_step, if_neg h0]
      exact hr

/-- The fuel that `fmt_d` gives `nat_digits` is enough. -/
theorem lt_ten_pow_succ (n : Nat) : n < 10 ^ (n + 1) :=
  lt_trans (Nat.lt_succ_self n) (Nat.lt_pow_self (by norm_num) _)

/-- The model of `sr_atoi` reads back every `int` that `%d` has written. -/
theorem sr_atoi_fmt_d (n : Int) (h1 : -2147483648 ≤ n) (h2 : n ≤ 2147483647) :
    sr_atoi (fmt_d n) = (SR_OK, n) := by
  obtain ⟨L, hL, hrec⟩ := take_digits_nat_digits n.natAbs n.natAbs (lt_ten_pow_succ _)
  obtain ⟨d, hd, rest, hhead⟩ := nat_digits_head n.natAbs n.natAbs []
  obtain ⟨-, hsp, hm, hp, -⟩ := digit_char_facts d hd
  have htd : take_digits (nat_digits (n.natAbs + 1) n.natAbs []) 0 0 = (n.natAbs, L, []) := by
    rw [hrec]; simp [take_digits]
  have hL0 : L ≠ 0 := by omega
  have hr : ¬ (n < -2147483648 ∨ 2147483647 < n) := by omega
  have hs : strtol10 (fmt_d n) = (n, []) := by
    by_cases hneg : n < 0
    · unfold strtol10 fmt_d
      have hdash : c_isspace '-' = false := by decide
      have hdw : List.dropWhile c_isspace ('-' :: nat_digits (n.natAbs + 1) n.natAbs []) =
          '-' :: nat_digits (n.natAbs + 1) n.natAbs [] := by
        rw [List.dropWhile_cons_of_neg (by simp [hdash])]
      have hsg : take_sign ('-' :: nat_digits (n.natAbs + 1) n.natAbs []) =
          (true, nat_digits (n.natAbs + 1) n.natAbs []) := rfl
      simp only [hneg, if_true, hdw, hsg, htd, hL0, if_false]
      have e : -(n.natAbs : Int) = n := by omega
      rw [e]
    · unfold strtol10 fmt_d
      have hdw : List.dropWhile c_isspace (nat_digits (n.natAbs + 1) n.natAbs []) =
          nat_digits (n.natAbs + 1) n.natAbs [] := by
        rw [hhead, List.dropWhile_cons_of_neg (by simp [hsp])]
      have hsg : take_sign (nat_digits (n.natAbs + 1) n.natAbs []) =
          (false, nat_digits (n.natAbs + 1) n.natAbs []) := by
        rw [hhead]
        unfold take_sign
        split
        · rename_i heq; exact absurd (List.cons.inj heq).1 hm
        · rename_i heq; exact absurd (List.cons.inj heq).1 hp
        · rfl
      simp only [hneg, if_false, hdw, hsg, htd, hL0]
      have e : (n.natAbs : Int) = n := by omega
      simp [e]
  unfold sr_atoi
  simp only [hs, List.dropWhile]
  simp [hr]

/-- With two or more fields the precision text is the cut last field. -/
theorem agilent_prec_text_fields (lib : StrUtil) (mode_response last : CStr)
    (item : Option mqopt_item)
    (h2 : 2 ≤ (g_strsplit_comma (lib.sr_scpi_unquote_string mode_response)).length)
    (hl : (g_strsplit_comma (lib.sr_scpi_unquote_string mode_response)).getLast? = some last) :
    agilent_prec_text lib mode_response item = some (last.take 19) := by
  unfold agilent_prec_text
  simp only [h2, if_true]
  rw [List.getLast?_eq_getElem?] at hl
  simp [List.getD_eq_getElem?_getD, hl]

/-- With one field the precision text is the default precision as `1e<n>`. -/
theorem agilent_prec_text_default (lib : StrUtil) (mode_response : CStr) (item : mqopt_item)
    (h2 : (g_strsplit_comma (lib.sr_scpi_unquote_string mode_response)).length < 2)
    (hd : item.default_precision ≠ NO_DFLT_PREC)
    (h3 : -2147483648 ≤ item.default_precision) (h4 : item.default_precision ≤ 2147483647) :
    agilent_prec_text lib mode_response (some item) =
      some ('1' :: 'e' :: fmt_d item.default_precision) := by
  unfold agilent_prec_text
  have hn : ¬ 2 ≤ (g_strsplit_comma (lib.sr_scpi_unquote_string mode_response)).length := by omega
  simp only [hn, if_false, hd]
  have hlen := fmt_d_length item.default_precision h3 h4
  rw [List.take_of_length_le (by simp only [List.length_cons]; omega)]

/-- With one field and no default precision there is no precision text. -/
theorem agilent_prec_text_none (lib : StrUtil) (mode_response : CStr) (item : mqopt_item)
    (h2 : (g_strsplit_comma (lib.sr_scpi_unquote_string mode_response)).length < 2)
    (hd : item.default_precision = NO_DFLT_PREC) :
    agilent_prec_text lib mode_response (some item) = none := by
  unfold agilent_prec_text
  have hn : ¬ 2 ≤ (g_strsplit_comma (lib.sr_scpi_unquote_string mode_response)).length := by omega
  simp only [hn, if_false, hd, if_true]

/-! ### Successful measurements -/

/-- An `int` that an `int8_t` holds is stored as it is. -/
theorem to_int8_of_fits (n : Int) (h1 : -128 ≤ n) (h2 : n ≤ 127) : to_int8 n = n := by
  unfold to_int8
  omega

/-- What is stored in an `int8_t` is from -128 to 127 and differs from the
`int` assigned by a multiple of 256. -/
theorem to_int8_range (n : Int) :
    -128 ≤ to_int8 n ∧ to_int8 n ≤ 127 ∧ (n - to_int8 n) % 256 = 0 := by
  unfold to_int8
  omega

theorem fill_analog_some (info : scpi_dmm_acq_info) (ch : Nat) (ud : Bool) (digits : Int)
    (mq mqflag u : Nat) :
    (fill_analog info ch ud digits mq mqflag (some u)).1 = SR_OK ∧
    (fill_analog info ch ud digits mq mqflag (some u)).2.d_value = info.d_value ∧
    ((fill_analog info ch ud digits mq mqflag (some u)).2.analog ch) =
      { info.analog ch with
        data := if ud then info.d_value else to_float info.d_value
        unitsize := if ud then sizeof_double else sizeof_float
        digits := to_int8 digits, mq := mq, mqflags := mqflag, unit := u,
        spec_digits := to_int8 digits } := by
  unfold fill_analog
  cases ud <;> simp

/-- What a successful run of strategy A went through. -/
theorem agilent_ok (lib : StrUtil) (devc : dev_context) (info : scpi_dmm_acq_info) (ch : Nat)
    (fr vr : ScpiReply)
    (h : (scpi_dmm_get_meas_agilent lib devc info ch fr vr).1 = SR_OK) :
    ∃ mode_response rtext u,
      (scpi_dmm_get_mq devc fr).ret = SR_OK ∧
      (scpi_dmm_get_mq devc fr).rsp = some mode_response ∧
      (scpi_dmm_get_mq devc fr).mq ≠ 0 ∧
      (exponent_suffix lib ((agilent_prec_text lib mode_response
        (scpi_dmm_get_mq devc fr).mqitem).map skip_number)).1 = SR_OK ∧
      vr.1 = SR_OK ∧ g_strstrip vr.2 = some rtext ∧
      (lib.sr_atod_ascii (g_strstrip vr.2)).1 = SR_OK ∧
      agilent_unit (scpi_dmm_get_mq devc fr).mq = some u ∧
      scpi_dmm_get_meas_agilent lib devc info ch fr vr =
        fill_analog
          { info with d_value :=
              if dbl_9e37 < (lib.sr_atod_ascii (g_strstrip vr.2)).2 then Dbl.pinf
              else if (lib.sr_atod_ascii (g_strstrip vr.2)).2 < -dbl_9e37 then Dbl.ninf
              else (lib.sr_atod_ascii (g_strstrip vr.2)).2 }
          ch (decide (6 ≤ devc.model.digits))
          (-(exponent_suffix lib ((agilent_prec_text lib mode_response
            (scpi_dmm_get_mq devc fr).mqitem).map skip_number)).2)
          (scpi_dmm_get_mq devc fr).mq (scpi_dmm_get_mq devc fr).flag (some u) := by
  unfold scpi_dmm_get_meas_agilent at h
  by_cases h1 : (scpi_dmm_get_mq devc fr).ret = SR_OK
  swap
  · exact absurd h (by simp [h1])
  simp only [h1, ne_eq, not_true_eq_false, if_false] at h
  cases hr : (scpi_dmm_get_mq devc fr).rsp with
  | none => simp [hr, SR_ERR, SR_OK] at h
  | some mode_response =>
    simp only [hr] at h
    by_cases h2 : (scpi_dmm_get_mq devc fr).mq = 0
    · simp [h2, SR_OK] at h
    simp only [h2, if_false] at h
    by_cases h3 : (exponent_suffix lib ((agilent_prec_text lib mode_response
        (scpi_dmm_get_mq devc fr).mqitem).map skip_number)).1 = SR_OK
    swap
    · exact absurd h (by simp [h3])
    simp only [h3, not_true_eq_false, if_false] at h
    cases hc : devc.cmdset.query_value with
    | none => simp [hc, SR_ERR_NA, SR_OK] at h
    | some command =>
      simp only [hc] at h
      by_cases h4 : command = []
      · simp [h4, SR_ERR_NA, SR_OK] at h
      simp only [h4, if_false] at h
      by_cases h5 : vr.1 = SR_OK
      swap
      · exact absurd h (by simp [h5])
      simp only [h5, not_true_eq_false, if_false] at h
      by_cases h6 : (lib.sr_atod_ascii (g_strstrip vr.2)).1 = SR_OK
      swap
      · exact absurd h (by simp [h6])
      simp only [h6, not_true_eq_false, if_false] at h
      cases hs : g_strstrip vr.2 with
      | none => simp [hs, SR_ERR, SR_OK] at h
      | some rtext =>
        simp only [hs] at h h6
        have hu : ∃ u, agilent_unit (scpi_dmm_get_mq devc fr).mq = some u := by
          by_contra hne
          have hn : agilent_unit (scpi_dmm_get_mq devc fr).mq = none := by
            cases hq : agilent_unit (scpi_dmm_get_mq devc fr).mq with
            | none => rfl
            | some u => exact absurd ⟨u, hq⟩ hne
          rw [hn] at h
          split_ifs at h <;> simp_all [fill_analog, SR_OK, SR_ERR_NA]
        obtain ⟨u, hu⟩ := hu
        refine ⟨mode_response, rtext, u, h1, rfl, h2, h3, h5, rfl, by simpa [hs] using h6, hu, ?_⟩
        unfold scpi_dmm_get_meas_agilent
        simp only [h1, hr, h2, h3, hc, h4, h5, hs, h6, hu, ne_eq, not_true_eq_false, if_false]
        by_cases c1 : dbl_9e37 < (lib.sr_atod_ascii (some rtext)).2
        · simp only [c1, if_true, not_true_eq_false, if_false]
        · by_cases c2 : (lib.sr_atod_ascii (some rtext)).2 < -dbl_9e37
          · simp only [c1, c2, if_true, not_true_eq_false, if_false]
          · simp only [c1, c2, if_false] at h ⊢
            by_cases c3 : (exponent_suffix lib (some (skip_number rtext))).1 = SR_OK
            · simp only [c3, not_true_eq_false, if_false]
            · simp [c3] at h

/-- The sample of a successful run of strategy A, field by field. -/
theorem agilent_ok_sample (lib : StrUtil) (devc : dev_context) (info : scpi_dmm_acq_info) (ch : Nat)
    (fr vr : ScpiReply) (mode_response : CStr)
    (hrsp : (scpi_dmm_get_mq devc fr).rsp = some mode_response)
    (h : (scpi_dmm_get_meas_agilent lib devc info ch fr vr).1 = SR_OK) :
    (exponent_suffix lib ((agilent_prec_text lib mode_response
        (scpi_dmm_get_mq devc fr).mqitem).map skip_number)).1 = SR_OK ∧
    ((scpi_dmm_get_meas_agilent lib devc info ch fr vr).2.analog ch).digits =
      to_int8 (-(exponent_suffix lib ((agilent_prec_text lib mode_response
        (scpi_dmm_get_mq devc fr).mqitem).map skip_number)).2) ∧
    (scpi_dmm_get_meas_agilent lib devc info ch fr vr).2.d_value =
      (if dbl_9e37 < (lib.sr_atod_ascii (g_strstrip vr.2)).2 then Dbl.pinf
       else if (lib.sr_atod_ascii (g_strstrip vr.2)).2 < -dbl_9e37 then Dbl.ninf
       else (lib.sr_atod_ascii (g_strstrip vr.2)).2) ∧
    ((scpi_dmm_get_meas_agilent lib devc info ch fr vr).2.analog ch).data =
      (if 6 ≤ devc.model.digits then (scpi_dmm_get_meas_agilent lib devc info ch fr vr).2.d_value
       else to_float (scpi_dmm_get_meas_agilent lib devc info ch fr vr).2.d_value) := by
  obtain ⟨mr, rtext, u, -, h2, -, h4, -, -, -, -, heq⟩ := agilent_ok lib devc info ch fr vr h
  rw [hrsp] at h2
  cases h2
  have hf := fill_analog_some
    { info with d_value :=
        if dbl_9e37 < (lib.sr_atod_ascii (g_strstrip vr.2)).2 then Dbl.pinf
        else if (lib.sr_atod_ascii (g_strstrip vr.2)).2 < -dbl_9e37 then Dbl.ninf
        else (lib.sr_atod_ascii (g_strstrip vr.2)).2 }
    ch (decide (6 ≤ devc.model.digits))
    (-(exponent_suffix lib ((agilent_prec_text lib mode_response
        (scpi_dmm_get_mq devc fr).mqitem).map skip_number)).2)
    (scpi_dmm_get_mq devc fr).mq (scpi_dmm_get_mq devc fr).flag u
  rw [← heq] at hf
  obtain ⟨-, hd, ha⟩ := hf
  refine ⟨h4, ?_, hd, ?_⟩
  · rw [ha]
  · rw [ha, hd]
    by_cases h6 : 6 ≤ devc.model.digits <;> simp [h6]

/-- The sample of a successful run of strategy B: the reading after the
overload test goes through the mode code remap. -/
theorem gwinstek_ok_sample (lib : StrUtil) (devc : dev_context) (info : scpi_dmm_acq_info)
    (ch : Nat) (fr vr : ScpiReply) (mode_response : CStr)
    (hrsp : (scpi_dmm_get_mq devc fr).rsp = some mode_response)
    (h : (scpi_dmm_get_meas_gwinstek lib devc info ch fr vr).1 = SR_OK) :
    (scpi_dmm_get_meas_gwinstek lib devc info ch fr vr).2.d_value =
      gwinstek_remap devc.model.model (c_atoi mode_response)
        (if gwinstek_limit devc.model.infinity_limit ≤ (lib.sr_atod_ascii (g_strstrip vr.2)).2
          then Dbl.pinf
         else if (lib.sr_atod_ascii (g_strstrip vr.2)).2 ≤ -gwinstek_limit devc.model.infinity_limit
          then Dbl.ninf
         else (lib.sr_atod_ascii (g_strstrip vr.2)).2) ∧
    ((scpi_dmm_get_meas_gwinstek lib devc info ch fr vr).2.analog ch).data =
      (if 6 < devc.model.digits then (scpi_dmm_get_meas_gwinstek lib devc info ch fr vr).2.d_value
       else to_float (scpi_dmm_get_meas_gwinstek lib devc info ch fr vr).2.d_value) ∧
    ((scpi_dmm_get_meas_gwinstek lib devc info ch fr vr).2.analog ch).digits =
      to_int8 (gwinstek_digits devc.model.digits devc.precision) := by
  unfold scpi_dmm_get_meas_gwinstek at h ⊢
  by_cases h1 : (scpi_dmm_get_mq devc fr).ret = SR_OK
  swap
  · exact absurd h (by simp [h1])
  simp only [h1, ne_eq, not_true_eq_false, if_false, hrsp] at h ⊢
  by_cases h2 : (scpi_dmm_get_mq devc fr).mq = 0
  · simp [h2, SR_OK] at h
  simp only [h2, if_false] at h ⊢
  cases hc : devc.cmdset.query_value with
  | none => simp [hc, SR_ERR_NA, SR_OK] at h
  | some command =>
    simp only [hc] at h ⊢
    by_cases h4 : command = []
    · simp [h4, SR_ERR_NA, SR_OK] at h
    simp only [h4, if_false] at h ⊢
    by_cases h5 : vr.1 = SR_OK
    swap
    · exact absurd h (by simp [h5])
    simp only [h5, not_true_eq_false, if_false] at h ⊢
    by_cases h6 : (lib.sr_atod_ascii (g_strstrip vr.2)).1 = SR_OK
    swap
    · exact absurd h (by simp [h6])
    simp only [h6, not_true_eq_false, if_false] at h ⊢
    cases hs : g_strstrip vr.2 with
    | none => simp [hs, SR_ERR, SR_OK] at h
    | some rtext =>
      simp only [hs] at h h6 ⊢
      have hu : ∃ u, gwinstek_unit (scpi_dmm_get_mq devc fr).mq (c_atoi mode_response) = some u := by
        cases hq : gwinstek_unit (scpi_dmm_get_mq devc fr).mq (c_atoi mode_response) with
        | some u => exact ⟨u, rfl⟩
        | none =>
          rw [hq] at h
          split_ifs at h <;> simp_all [fill_analog, SR_OK, SR_ERR_NA]
      obtain ⟨u, hu⟩ := hu
      simp only [hu] at h ⊢
      have key : ∀ x : Dbl, ∀ ud : Bool, ∀ dg : Int,
          (fill_analog { info with d_value := x } ch ud dg (scpi_dmm_get_mq devc fr).mq
            (scpi_dmm_get_mq devc fr).flag (some u)).2.d_value = x ∧
          ((fill_analog { info with d_value := x } ch ud dg (scpi_dmm_get_mq devc fr).mq
            (scpi_dmm_get_mq devc fr).flag (some u)).2.analog ch).data =
              (if ud then x else to_float x) ∧
          ((fill_analog { info with d_value := x } ch ud dg (scpi_dmm_get_mq devc fr).mq
            (scpi_dmm_get_mq devc fr).flag (some u)).2.analog ch).digits = to_int8 dg := by
        intro x ud dg
        obtain ⟨-, hd, ha⟩ := fill_analog_some { info with d_value := x } ch ud dg
          (scpi_dmm_get_mq devc fr).mq (scpi_dmm_get_mq devc fr).flag u
        exact ⟨hd, by rw [ha], by rw [ha]⟩
      by_cases c1 : gwinstek_limit devc.model.infinity_limit ≤ (lib.sr_atod_ascii (some rtext)).2
      · simp only [c1, if_true, not_true_eq_false, if_false] at h ⊢
        refine ⟨(key _ _ _).1, ?_, (key _ _ _).2.2⟩
        rw [(key _ _ _).2.1, (key _ _ _).1]
        by_cases h7 : 6 < devc.model.digits <;> simp [h7]
      · by_cases c2 : (lib.sr_atod_ascii (some rtext)).2 ≤ -gwinstek_limit devc.model.infinity_limit
        · simp only [c1, c2, if_true, not_true_eq_false, if_false] at h ⊢
          refine ⟨(key _ _ _).1, ?_, (key _ _ _).2.2⟩
          rw [(key _ _ _).2.1, (key _ _ _).1]
          by_cases h7 : 6 < devc.model.digits <;> simp [h7]
        · simp only [c1, c2, if_false] at h ⊢
          by_cases c3 : (exponent_suffix lib (some (skip_number rtext))).1 = SR_OK
          · simp only [c3, not_true_eq_false, if_false] at h ⊢
            refine ⟨(key _ _ _).1, ?_, (key _ _ _).2.2⟩
            rw [(key _ _ _).2.1, (key _ _ _).1]
            by_cases h7 : 6 < devc.model.digits <;> simp [h7]
          · simp [c3] at h

/-- The mode code remap keeps `+infinity`. -/
theorem gwinstek_remap_pinf (name : CStr) (mmode : Int) :
    gwinstek_remap name mmode Dbl.pinf = Dbl.pinf := by
  unfold gwinstek_remap
  split_ifs <;> rfl

/-- The mode code remap keeps `-infinity`. -/
theorem gwinstek_remap_ninf (name : CStr) (mmode : Int) :
    gwinstek_remap name mmode Dbl.ninf = Dbl.ninf := by
  unfold gwinstek_remap
  split_ifs <;> first | rfl | (exfalso; revert ‹_ ≤ Dbl.ninf›; decide) | (exfalso; revert ‹Dbl.eq Dbl.ninf _ = true›; decide)

/-- A function query answer that no capability matches makes strategy A
return `SR_ERR_NA` with the scratch data untouched, whatever the helpers and
the value reply are. -/
theorem agilent_unrecognized_mode (lib : StrUtil) (devc : dev_context)
    (info : scpi_dmm_acq_info) (ch : Nat) (vr : ScpiReply) (command response : CStr)
    (hcmd : devc.cmdset.query_func = some command) (hne : command ≠ [])
    (hresp : response ≠ [])
    (hno : scpi_dmm_lookup_mq_text devc.model.mqopts
      (if response.head? = some '"' then response.tail else response) = none) :
    scpi_dmm_get_meas_agilent lib devc info ch (SR_OK, some response) vr = (SR_ERR_NA, info) := by
  have hm : (scpi_dmm_get_mq devc (SR_OK, some response)).ret = SR_ERR_NA := by
    unfold scpi_dmm_get_mq
    simp [hcmd, hne, hresp, hno]
  unfold scpi_dmm_get_meas_agilent
  simp only [hm]
  rw [if_pos (by decide)]

/-! ### The channel loop -/

/-- What a run of the channel loop over the channels `ch .. ch + k - 1` adds
to the two logs, and how the loop variables end. -/
theorem channel_loop_spec {σ α : Type} (P : poll_env σ α) (channels : Nat → sr_channel) :
    ∀ (k ch : Nat) (s : loop_state σ α),
    ∃ (nc : List (Nat × Int)) (ns : List (Nat × α)),
      (channel_loop P channels k ch s).calls = s.calls ++ nc ∧
      (channel_loop P channels k ch s).sent = s.sent ++ ns ∧
      (channel_loop P channels k ch s).sent_sample = (s.sent_sample || !ns.isEmpty) ∧
      ns.map Prod.fst = (nc.filter (fun c => decide (c.2 = SR_OK))).map Prod.fst ∧
      (∀ c ∈ nc, ch ≤ c.1 ∧ c.1 < ch + k ∧ (channels c.1).enabled = true) ∧
      nc.Pairwise (fun a b => a.1 < b.1 ∧ 0 ≤ a.2) ∧
      (∀ c, nc.getLast? = some c → (channel_loop P channels k ch s).ret = c.2) ∧
      (nc = [] → P.get_measurement ≠ none → (channel_loop P channels k ch s).ret = s.ret) ∧
      ((∀ c ∈ nc, 0 ≤ c.2) → P.get_measurement ≠ none →
        nc.map Prod.fst = (List.range' ch k).filter (fun c => (channels c).enabled)) := by
  intro k
  induction k with
  | zero =>
    intro ch s
    refine ⟨[], [], ?_⟩
    simp [channel_loop]
  | succ k ih =>
    intro ch s
    by_cases he : (channels ch).enabled = true
    swap
    · obtain ⟨nc, ns, h1, h2, h3, h4, h5, h6, h7, h8, h9⟩ := ih (ch + 1) s
      have hstep : channel_loop P channels (k + 1) ch s = channel_loop P channels k (ch + 1) s := by
        simp [channel_loop, he]
      rw [hstep]
      refine ⟨nc, ns, h1, h2, h3, h4, ?_, h6, h7, h8, ?_⟩
      · intro c hc
        obtain ⟨a, b, c'⟩ := h5 c hc
        exact ⟨by omega, by omega, c'⟩
      · intro hall hgm
        rw [h9 hall hgm, List.range'_succ, List.filter_cons_of_neg (by simpa using he)]
    · cases hg : P.get_measurement with
      | none =>
        refine ⟨[], [], ?_⟩
        simp [channel_loop, he, hg]
      | some g =>
        generalize hr : g (P.prepare s.dev ch) ch = r
        by_cases hpos : 0 < r.1
        · obtain ⟨nc, ns, h1, h2, h3, h4, h5, h6, h7, h8, h9⟩ := ih (ch + 1)
            ⟨r.2, r.1, s.sent_sample, s.calls ++ [(ch, r.1)], s.sent⟩
          have hstep : channel_loop P channels (k + 1) ch s = channel_loop P channels k (ch + 1)
              ⟨r.2, r.1, s.sent_sample, s.calls ++ [(ch, r.1)], s.sent⟩ := by
            simp [channel_loop, he, hg, hr, hpos]
          rw [hstep]
          refine ⟨(ch, r.1) :: nc, ns, ?_, h2, h3, ?_, ?_, ?_, ?_, ?_, ?_⟩
          · rw [h1]; simp
          · have hne : ¬ r.1 = SR_OK := by
              simp only [SR_OK]; omega
            rw [h4, List.filter_cons_of_neg (by simpa using hne)]
          · intro c hc
            rcases List.mem_cons.mp hc with rfl | hc
            · exact ⟨le_refl _, by omega, he⟩
            · obtain ⟨a, b, c'⟩ := h5 c hc
              exact ⟨by omega, by omega, c'⟩
          · refine List.pairwise_cons.mpr ⟨fun c hc => ?_, h6⟩
            exact ⟨by have := (h5 c hc).1; simp only; omega, le_of_lt hpos⟩
          · intro c hc
            cases nc with
            | nil =>
              simp only [List.getLast?_singleton, Option.some.injEq] at hc
              rw [h8 rfl (by simp [hg]), ← hc]
            | cons a l =>
              rw [List.getLast?_cons_cons] at hc
              exact h7 c hc
          · intro hnil
            exact absurd hnil (List.cons_ne_nil _ _)
          · intro hall _
            have := h9 (fun c hc => hall c (List.mem_cons_of_mem _ hc)) (by simp [hg])
            rw [List.map_cons, this, List.range'_succ, List.filter_cons_of_pos (by simpa using he)]
        · by_cases hz : r.1 = SR_OK
          · obtain ⟨nc, ns, h1, h2, h3, h4, h5, h6, h7, h8, h9⟩ := ih (ch + 1)
              ⟨r.2, r.1, true, s.calls ++ [(ch, r.1)], s.sent ++ [(ch, P.packet r.2 ch)]⟩
            have hstep : channel_loop P channels (k + 1) ch s = channel_loop P channels k (ch + 1)
                ⟨r.2, r.1, true, s.calls ++ [(ch, r.1)], s.sent ++ [(ch, P.packet r.2 ch)]⟩ := by
              have hz0 : ¬ (0 : Int) < SR_OK := by decide
              simp [channel_loop, he, hg, hr, hz, hz0]
            rw [hstep]
            refine ⟨(ch, r.1) :: nc, (ch, P.packet r.2 ch) :: ns, ?_, ?_, ?_, ?_, ?_, ?_, ?_, ?_, ?_⟩
            · rw [h1]; simp
            · rw [h2]; simp
            · rw [h3]; simp
            · rw [List.filter_cons_of_pos (by simpa using hz), List.map_cons, List.map_cons, h4]
            · intro c hc
              rcases List.mem_cons.mp hc with rfl | hc
              · exact ⟨le_refl _, by omega, he⟩
              · obtain ⟨a, b, c'⟩ := h5 c hc
                exact ⟨by omega, by omega, c'⟩
            · refine List.pairwise_cons.mpr ⟨fun c hc => ?_, h6⟩
              exact ⟨by have := (h5 c hc).1; simp only; omega, by rw [hz]; simp [SR_OK]⟩
            · intro c hc
              cases nc with
              | nil =>
                simp only [List.getLast?_singleton, Option.some.injEq] at hc
                rw [h8 rfl (by simp [hg]), ← hc]
              | cons a l =>
                rw [List.getLast?_cons_cons] at hc
                exact h7 c hc
            · intro hnil
              exact absurd hnil (List.cons_ne_nil _ _)
            · intro hall _
              have := h9 (fun c hc => hall c (List.mem_cons_of_mem _ hc)) (by simp [hg])
              rw [List.map_cons, this, List.range'_succ,
                List.filter_cons_of_pos (by simpa using he)]
          · have hstep : channel_loop P channels (k + 1) ch s =
                ⟨r.2, r.1, s.sent_sample, s.calls ++ [(ch, r.1)], s.sent⟩ := by
              simp [channel_loop, he, hg, hr, hpos, hz]
            rw [hstep]
            refine ⟨[(ch, r.1)], [], rfl, by simp, by simp, ?_, ?_, ?_, ?_, ?_, ?_⟩
            · rw [List.filter_cons_of_neg (by simpa using hz)]; simp
            · intro c hc
              rw [List.mem_singleton] at hc
              subst hc
              exact ⟨le_refl _, by omega, he⟩
            · exact List.pairwise_singleton _ _
            · intro c hc
              simp only [List.getLast?_singleton, Option.some.injEq] at hc
              rw [← hc]
            · intro hnil
              exact absurd hnil (List.cons_ne_nil _ _)
            · intro hall _
              have := hall _ (List.mem_singleton.mpr rfl)
              simp only [SR_OK] at hz
              simp only at this
              omega

/-- The logs and flags of a tick, read off the channel loop. -/
theorem receive_data_fields {σ α : Type} (P : poll_env σ α) (channels : Nat → sr_channel)
    (num_channels now : Nat) (dev : σ) (limits : sr_sw_limits) :
    (scpi_dmm_receive_data P channels num_channels now dev limits).calls =
      (channel_loop P channels num_channels 0 ⟨dev, SR_OK, false, [], []⟩).calls ∧
    (scpi_dmm_receive_data P channels num_channels now dev limits).sent =
      (channel_loop P channels num_channels 0 ⟨dev, SR_OK, false, [], []⟩).sent ∧
    (scpi_dmm_receive_data P channels num_channels now dev limits).limits =
      (if (channel_loop P channels num_channels 0 ⟨dev, SR_OK, false, [], []⟩).sent_sample
        then sr_sw_limits_update_samples_read limits 1 else limits) ∧
    ((channel_loop P channels num_channels 0 ⟨dev, SR_OK, false, [], []⟩).ret ≠ SR_OK →
      (scpi_dmm_receive_data P channels num_channels now dev limits).stop_requested = true) := by
  unfold scpi_dmm_receive_data
  simp only
  split_ifs <;> simp_all

/-- In a strictly ascending call log where only the last call may have
failed, a failed call is the last one and every other call is for a lower
channel. -/
theorem failed_call_is_last (k : Nat) (r : Int) (hr : r < 0) :
    ∀ nc : List (Nat × Int), nc.Pairwise (fun a b => a.1 < b.1 ∧ 0 ≤ a.2) → (k, r) ∈ nc →
      (∀ c ∈ nc, c = (k, r) ∨ c.1 < k) ∧ nc.getLast? = some (k, r) := by
  intro nc
  induction nc with
  | nil => intro _ h; cases h
  | cons a l ih =>
    intro hp hmem
    obtain ⟨ha, hl⟩ := List.pairwise_cons.mp hp
    rcases List.mem_cons.mp hmem with heq | hin
    · subst heq
      cases l with
      | nil => simp
      | cons b l' =>
        have := (ha b (List.mem_cons_self _ _)).2
        simp only at this
        omega
    · obtain ⟨h1, h2⟩ := ih hl hin
      refine ⟨fun c hc => ?_, ?_⟩
      · rcases List.mem_cons.mp hc with rfl | hc
        · exact Or.inr (ha _ hin).1
        · exact h1 c hc
      · cases l with
        | nil => cases hin
        | cons b l' => rw [List.getLast?_cons_cons]; exact h2

/-- A strictly ascending call log has one entry per channel at most. -/
theorem call_log_unique : ∀ nc : List (Nat × Int),
    nc.Pairwise (fun a b => a.1 < b.1 ∧ 0 ≤ a.2) →
    ∀ x ∈ nc, ∀ y ∈ nc, y.1 = x.1 → y = x := by
  intro nc
  induction nc with
  | nil => intro _ x hx; cases hx
  | cons a l ih =>
    intro hp x hx y hy hxy
    obtain ⟨ha, hl⟩ := List.pairwise_cons.mp hp
    rcases List.mem_cons.mp hx with hxa | hxl <;> rcases List.mem_cons.mp hy with hya | hyl
    · rw [hxa, hya]
    · have := (ha y hyl).1; rw [hxa] at hxy; omega
    · have := (ha x hxl).1; rw [hya] at hxy; omega
    · exact ih hl x hxl y hyl hxy

/-! ### Claims -/

set_option maxRecDepth 8000 in
/-- C1, the code at a mode it does not know: the meter answers the function
query with `PER +1.0E-01,+1.0E-06`, which no capability of the model matches.
The mode query reports `SR_ERR_NA`, strategy A returns that error (a negative
code, not the soft skip `+1`), and the tick with this single enabled channel
sends nothing and requests acquisition stop. -/
theorem C1_unrecognized_mode_is_fatal :
    scpi_dmm_lookup_mq_text demo_model.mqopts "PER +1.0E-01,+1.0E-06".toList = none ∧
    (scpi_dmm_get_mq demo_devc (reply_ok "PER +1.0E-01,+1.0E-06")).ret = SR_ERR_NA ∧
    (scpi_dmm_get_meas_agilent libsigrok demo_devc acq_info_init 0
        (reply_ok "PER +1.0E-01,+1.0E-06") (reply_ok "+1.09450E-01\n")).1 = SR_ERR_NA ∧
    ¬ 0 < (scpi_dmm_get_meas_agilent libsigrok demo_devc acq_info_init 0
        (reply_ok "PER +1.0E-01,+1.0E-06") (reply_ok "+1.09450E-01\n")).1 ∧
    (scpi_dmm_receive_data
        (agilent_env libsigrok demo_devc
          (demo_replies "PER +1.0E-01,+1.0E-06" "+1.09450E-01\n" none 0))
        demo_channels_on 1 0 acq_info_init no_limits).calls = [(0, SR_ERR_NA)] ∧
    (scpi_dmm_receive_data
        (agilent_env libsigrok demo_devc
          (demo_replies "PER +1.0E-01,+1.0E-06" "+1.09450E-01\n" none 0))
        demo_channels_on 1 0 acq_info_init no_limits).sent = [] ∧
    (scpi_dmm_receive_data
        (agilent_env libsigrok demo_devc
          (demo_replies "PER +1.0E-01,+1.0E-06" "+1.09450E-01\n" none 0))
        demo_channels_on 1 0 acq_info_init no_limits).stop_requested = true := by
  decide

/-- C2 (as amended): in strategy A, with the mode determined and `p` the
precision text, let `rest` be `p` after the skip of white space, sign, digits,
period and digits. (i) If `rest` is empty the exponent is 0 and a successful
measurement has digits 0. (ii) If `rest` is `e` or `E` followed by a text that
`sr_atoi` reads as `n`, the exponent is `n` and a successful measurement has
as digits what the `int8_t` digits field keeps of `-n`: `-n` itself when `n` is
from -127 to 128, and the value of `-n` modulo 256 in -128 .. 127 in general.
(iii) If `rest` starts with any other byte, the routine fails with
`SR_ERR_DATA`. -/
theorem C2_precision_exponent (lib : StrUtil) (devc : dev_context) (info : scpi_dmm_acq_info)
    (ch : Nat) (fr vr : ScpiReply) (mode_response p : CStr)
    (hret : (scpi_dmm_get_mq devc fr).ret = SR_OK)
    (hrsp : (scpi_dmm_get_mq devc fr).rsp = some mode_response)
    (hmq : (scpi_dmm_get_mq devc fr).mq ≠ 0)
    (hp : agilent_prec_text lib mode_response (scpi_dmm_get_mq devc fr).mqitem = some p) :
    (skip_number p = [] →
      exponent_suffix lib (some (skip_number p)) = (SR_OK, 0) ∧
      ((scpi_dmm_get_meas_agilent lib devc info ch fr vr).1 = SR_OK →
        ((scpi_dmm_get_meas_agilent lib devc info ch fr vr).2.analog ch).digits = 0)) ∧
    (∀ c t n, skip_number p = c :: t → (c = 'e' ∨ c = 'E') → lib.sr_atoi t = (SR_OK, n) →
      exponent_suffix lib (some (skip_number p)) = (SR_OK, n) ∧
      ((scpi_dmm_get_meas_agilent lib devc info ch fr vr).1 = SR_OK →
        ((scpi_dmm_get_meas_agilent lib devc info ch fr vr).2.analog ch).digits =
          to_int8 (-n) ∧
        (-127 ≤ n → n ≤ 128 →
          ((scpi_dmm_get_meas_agilent lib devc info ch fr vr).2.analog ch).digits = -n) ∧
        -128 ≤ ((scpi_dmm_get_meas_agilent lib devc info ch fr vr).2.analog ch).digits ∧
        ((scpi_dmm_get_meas_agilent lib devc info ch fr vr).2.analog ch).digits ≤ 127 ∧
        (-n - ((scpi_dmm_get_meas_agilent lib devc info ch fr vr).2.analog ch).digits) % 256
          = 0)) ∧
    (∀ c t, skip_number p = c :: t → c ≠ 'e' → c ≠ 'E' →
      scpi_dmm_get_meas_agilent lib devc info ch fr vr = (SR_ERR_DATA, info)) := by
  have hdig : (scpi_dmm_get_meas_agilent lib devc info ch fr vr).1 = SR_OK →
      ((scpi_dmm_get_meas_agilent lib devc info ch fr vr).2.analog ch).digits =
        to_int8 (-(exponent_suffix lib (some (skip_number p))).2) := by
    intro hok
    have := (agilent_ok_sample lib devc info ch fr vr mode_response hrsp hok).2.1
    rw [hp] at this
    exact this
  refine ⟨?_, ?_, ?_⟩
  · intro hnil
    refine ⟨by rw [hnil]; rfl, fun hok => ?_⟩
    rw [hdig hok, hnil, exponent_suffix_nil]
    rfl
  · intro c t n hrest hc hn
    have he : exponent_suffix lib (some (skip_number p)) = (SR_OK, n) := by
      rw [hrest, exponent_suffix_exp lib c t hc, hn]
    refine ⟨he, fun hok => ?_⟩
    rw [hdig hok, he]
    exact ⟨rfl, fun h1 h2 => to_int8_of_fits _ (by omega) (by omega), (to_int8_range _).1,
      (to_int8_range _).2.1, (to_int8_range _).2.2⟩
  · intro c t hrest h1 h2
    have he : exponent_suffix lib (some (skip_number p)) = (SR_ERR_DATA, 0) := by
      rw [hrest, exponent_suffix_other lib c t h1 h2]
    unfold scpi_dmm_get_meas_agilent
    simp [hret, hrsp, hmq, hp, he, SR_ERR_DATA, SR_OK]

set_option maxRecDepth 8000 in
/-- C2, the three precision texts of the spec: `+1.00000E-01` gives digits 1,
`+1.00000E-06` gives digits 6, `+1.00000` gives digits 0. -/
theorem C2_precision_exponent_witness :
    ((scpi_dmm_get_meas_agilent libsigrok demo_devc acq_info_init 0
        (reply_ok "\"VOLT +1.00000E+00,+1.00000E-01\"") (reply_ok "+1.09450E-01\n")).2.analog 0).digits = 1 ∧
    ((scpi_dmm_get_meas_agilent libsigrok demo_devc acq_info_init 0
        (reply_ok "\"VOLT +1.00000E-01,+1.00000E-06\"") (reply_ok "+1.09450E-01\n")).2.analog 0).digits = 6 ∧
    ((scpi_dmm_get_meas_agilent libsigrok demo_devc acq_info_init 0
        (reply_ok "\"VOLT +1.00000E+00,+1.00000\"") (reply_ok "+1.09450E-01\n")).2.analog 0).digits = 0 ∧
    scpi_dmm_get_meas_agilent libsigrok demo_devc acq_info_init 0
        (reply_ok "\"VOLT +1.00000E+00,+1.00000V\"") (reply_ok "+1.09450E-01\n") =
      (SR_ERR_DATA, acq_info_init) := by
  refine ⟨?_, ?_, ?_, ?_⟩
  · have h := (((C2_precision_exponent libsigrok demo_devc acq_info_init 0
      (reply_ok "\"VOLT +1.00000E+00,+1.00000E-01\"") (reply_ok "+1.09450E-01\n")
      "\"VOLT +1.00000E+00,+1.00000E-01\"".toList "+1.00000E-01".toList
      (by decide) (by decide) (by decide) (by decide)).2.1
      'E' "-01".toList (-1) (by decide) (by decide) (by decide)).2 (by decide)).2.1
      (by decide) (by decide)
    simpa using h
  · have h := (((C2_precision_exponent libsigrok demo_devc acq_info_init 0
      (reply_ok "\"VOLT +1.00000E-01,+1.00000E-06\"") (reply_ok "+1.09450E-01\n")
      "\"VOLT +1.00000E-01,+1.00000E-06\"".toList "+1.00000E-06".toList
      (by decide) (by decide) (by decide) (by decide)).2.1
      'E' "-06".toList (-6) (by decide) (by decide) (by decide)).2 (by decide)).2.1
      (by decide) (by decide)
    simpa using h
  · exact ((C2_precision_exponent libsigrok demo_devc acq_info_init 0
      (reply_ok "\"VOLT +1.00000E+00,+1.00000\"") (reply_ok "+1.09450E-01\n")
      "\"VOLT +1.00000E+00,+1.00000\"".toList "+1.00000".toList
      (by decide) (by decide) (by decide) (by decide)).1 (by decide)).2 (by decide)
  · exact (C2_precision_exponent libsigrok demo_devc acq_info_init 0
      (reply_ok "\"VOLT +1.00000E+00,+1.00000V\"") (reply_ok "+1.09450E-01\n")
      "\"VOLT +1.00000E+00,+1.00000V\"".toList "+1.00000V".toList
      (by decide) (by decide) (by decide) (by decide)).2.2 'V' [] (by decide) (by decide)
      (by decide)

set_option maxRecDepth 8000 in
/-- C2 as stated fails for an exponent whose negation the digits field does
not hold: with the precision text `+1.0E-128` the exponent read is -128, and
the successful measurement has digits -128, not 128. -/
theorem C2_counterexample :
    skip_number "+1.0E-128".toList = "E-128".toList ∧
    libsigrok.sr_atoi "-128".toList = (SR_OK, -128) ∧
    agilent_prec_text libsigrok "VOLT +1.0E+00,+1.0E-128".toList
      (scpi_dmm_get_mq demo_devc (reply_ok "VOLT +1.0E+00,+1.0E-128")).mqitem =
      some "+1.0E-128".toList ∧
    (scpi_dmm_get_meas_agilent libsigrok demo_devc acq_info_init 0
        (reply_ok "VOLT +1.0E+00,+1.0E-128") (reply_ok "+1.09450E-01\n")).1 = SR_OK ∧
    ((scpi_dmm_get_meas_agilent libsigrok demo_devc acq_info_init 0
        (reply_ok "VOLT +1.0E+00,+1.0E-128") (reply_ok "+1.09450E-01\n")).2.analog 0).digits
      = -128 := by
  decide

/-- C3 (as amended): in strategy A, for a successful measurement:
if the unquoted mode response has two or more comma separated fields, the
digits are the negated exponent of the first 19 bytes of its last field (of
the last field itself when it has at most 19 bytes); if it has a single field
and the capability has a default precision `n` (an `int` that `sr_atoi` reads
back from its `%d` form), the digits are `-n`; if it has a single field and
the capability has no default precision, the digits are 0. In the first two
cases this is so when the exponent is from -127 to 128; in general the
digits are what the `int8_t` digits field keeps of the negated exponent. -/
theorem C3_precision_text_selection (lib : StrUtil) (devc : dev_context)
    (info : scpi_dmm_acq_info) (ch : Nat) (fr vr : ScpiReply) (mode_response : CStr)
    (hrsp : (scpi_dmm_get_mq devc fr).rsp = some mode_response)
    (hok : (scpi_dmm_get_meas_agilent lib devc info ch fr vr).1 = SR_OK) :
    (∀ last, 2 ≤ (g_strsplit_comma (lib.sr_scpi_unquote_string mode_response)).length →
      (g_strsplit_comma (lib.sr_scpi_unquote_string mode_response)).getLast? = some last →
      ((scpi_dmm_get_meas_agilent lib devc info ch fr vr).2.analog ch).digits =
          to_int8 (-(exponent_suffix lib (some (skip_number (last.take 19)))).2) ∧
      (last.length ≤ 19 →
        ((scpi_dmm_get_meas_agilent lib devc info ch fr vr).2.analog ch).digits =
          to_int8 (-(exponent_suffix lib (some (skip_number last))).2)) ∧
      (-127 ≤ (exponent_suffix lib (some (skip_number (last.take 19)))).2 →
        (exponent_suffix lib (some (skip_number (last.take 19)))).2 ≤ 128 →
        ((scpi_dmm_get_meas_agilent lib devc info ch fr vr).2.analog ch).digits =
          -(exponent_suffix lib (some (skip_number (last.take 19)))).2) ∧
      (last.length ≤ 19 →
        -127 ≤ (exponent_suffix lib (some (skip_number last))).2 →
        (exponent_suffix lib (some (skip_number last))).2 ≤ 128 →
        ((scpi_dmm_get_meas_agilent lib devc info ch fr vr).2.analog ch).digits =
          -(exponent_suffix lib (some (skip_number last))).2)) ∧
    (∀ item, (g_strsplit_comma (lib.sr_scpi_unquote_string mode_response)).length < 2 →
      (scpi_dmm_get_mq devc fr).mqitem = some item →
      item.default_precision ≠ NO_DFLT_PREC →
      -2147483648 ≤ item.default_precision → item.default_precision ≤ 2147483647 →
      lib.sr_atoi (fmt_d item.default_precision) = (SR_OK, item.default_precision) →
      ((scpi_dmm_get_meas_agilent lib devc info ch fr vr).2.analog ch).digits =
        to_int8 (-item.default_precision) ∧
      (-127 ≤ item.default_precision → item.default_precision ≤ 128 →
        ((scpi_dmm_get_meas_agilent lib devc info ch fr vr).2.analog ch).digits =
          -item.default_precision)) ∧
    (∀ item, (g_strsplit_comma (lib.sr_scpi_unquote_string mode_response)).length < 2 →
      (scpi_dmm_get_mq devc fr).mqitem = some item →
      item.default_precision = NO_DFLT_PREC →
      ((scpi_dmm_get_meas_agilent lib devc info ch fr vr).2.analog ch).digits = 0) := by
  have hd := (agilent_ok_sample lib devc info ch fr vr mode_response hrsp hok).2.1
  refine ⟨?_, ?_, ?_⟩
  · intro last h2 hl
    rw [agilent_prec_text_fields lib mode_response last _ h2 hl] at hd
    simp only [Option.map_some'] at hd
    have hfit : -127 ≤ (exponent_suffix lib (some (skip_number (last.take 19)))).2 →
        (exponent_suffix lib (some (skip_number (last.take 19)))).2 ≤ 128 →
        ((scpi_dmm_get_meas_agilent lib devc info ch fr vr).2.analog ch).digits =
          -(exponent_suffix lib (some (skip_number (last.take 19)))).2 := by
      intro a b
      rw [hd]
      exact to_int8_of_fits _ (by omega) (by omega)
    refine ⟨hd, fun hlen => ?_, hfit, fun hlen => ?_⟩
    · rw [List.take_of_length_le hlen] at hd
      exact hd
    · rw [List.take_of_length_le hlen] at hfit
      exact hfit
  · intro item h2 hi hne h3 h4 hatoi
    rw [hi, agilent_prec_text_default lib mode_response item h2 hne h3 h4] at hd
    simp only [Option.map_some', skip_number_one_e] at hd
    rw [exponent_suffix_exp lib 'e' _ (Or.inl rfl), hatoi] at hd
    refine ⟨hd, fun a b => ?_⟩
    rw [hd]
    exact to_int8_of_fits _ (by omega) (by omega)
  · intro item h2 hi hnone
    rw [hi, agilent_prec_text_none lib mode_response item h2 hnone] at hd
    simpa [exponent_suffix] using hd

set_option maxRecDepth 8000 in
/-- C3, runs of the amended statement: the last of two fields decides
(`+1.00000E-06` gives 6), the default precision -1 of the continuity
capability gives 1, and a capability without default gives 0. -/
theorem C3_precision_text_selection_witness :
    ((scpi_dmm_get_meas_agilent libsigrok demo_devc acq_info_init 0
        (reply_ok "VOLT +1.00000E-01,+1.00000E-06") (reply_ok "+1.09450E-01\n")).2.analog 0).digits
      = 6 ∧
    ((scpi_dmm_get_meas_agilent libsigrok demo_devc acq_info_init 0
        (reply_ok "CONT") (reply_ok "+1.09450E-01\n")).2.analog 0).digits = 1 ∧
    ((scpi_dmm_get_meas_agilent libsigrok demo_devc acq_info_init 0
        (reply_ok "VOLT") (reply_ok "+1.09450E-01\n")).2.analog 0).digits = 0 := by
  refine ⟨?_, ?_, ?_⟩
  · have h := ((C3_precision_text_selection libsigrok demo_devc acq_info_init 0
      (reply_ok "VOLT +1.00000E-01,+1.00000E-06") (reply_ok "+1.09450E-01\n")
      "VOLT +1.00000E-01,+1.00000E-06".toList (by decide) (by decide)).1
      "+1.00000E-06".toList (by decide) (by decide)).2.1 (by decide)
    rw [h]
    decide
  · have h := ((C3_precision_text_selection libsigrok demo_devc acq_info_init 0
      (reply_ok "CONT") (reply_ok "+1.09450E-01\n")
      "CONT".toList (by decide) (by decide)).2.1
      { mq := SR_MQ_CONTINUITY, mqflag := 0, scpi_func_setup := some "CONT".toList,
        scpi_func_query := some "CONT".toList, default_precision := -1, drv_flags := 0 }
      (by decide) (by decide) (by decide) (by decide) (by decide) (by decide)).2
      (by decide) (by decide)
    simpa using h
  · exact (C3_precision_text_selection libsigrok demo_devc acq_info_init 0
      (reply_ok "VOLT") (reply_ok "+1.09450E-01\n")
      "VOLT".toList (by decide) (by decide)).2.2
      { mq := SR_MQ_VOLTAGE, mqflag := 2, scpi_func_setup := some "VOLT".toList,
        scpi_func_query := some "VOLT".toList, default_precision := NO_DFLT_PREC,
        drv_flags := 0 }
      (by decide) (by decide) (by decide)

set_option maxRecDepth 8000 in
/-- C3 as stated fails for a long last field: in the mode response
`VOLT +1.00000E-01,+1.0000000000000E-06` the last field has 20 bytes and the
exponent -6, yet the successful measurement has digits 0 and not 6, since
only `+1.0000000000000E-0` reaches the exponent scan. It also fails for a
last field whose negated exponent the digits field does not hold: the last
field `+1.0E-128` gives digits -128, not 128. -/
theorem C3_counterexample :
    g_strsplit_comma (sr_scpi_unquote_string "VOLT +1.00000E-01,+1.0000000000000E-06".toList) =
      ["VOLT +1.00000E-01".toList, "+1.0000000000000E-06".toList] ∧
    exponent_suffix libsigrok (some (skip_number "+1.0000000000000E-06".toList)) = (SR_OK, -6) ∧
    (scpi_dmm_get_meas_agilent libsigrok demo_devc acq_info_init 0
        (reply_ok "VOLT +1.00000E-01,+1.0000000000000E-06") (reply_ok "+1.09450E-01\n")).1
      = SR_OK ∧
    ((scpi_dmm_get_meas_agilent libsigrok demo_devc acq_info_init 0
        (reply_ok "VOLT +1.00000E-01,+1.0000000000000E-06") (reply_ok "+1.09450E-01\n")).2.analog
        0).digits = 0 ∧
    exponent_suffix libsigrok (some (skip_number "+1.0E-128".toList)) = (SR_OK, -128) ∧
    (scpi_dmm_get_meas_agilent libsigrok demo_devc acq_info_init 0
        (reply_ok "VOLT +1.00000E-01,+1.0E-128") (reply_ok "+1.09450E-01\n")).1 = SR_OK ∧
    ((scpi_dmm_get_meas_agilent libsigrok demo_devc acq_info_init 0
        (reply_ok "VOLT +1.00000E-01,+1.0E-128") (reply_ok "+1.09450E-01\n")).2.analog
        0).digits = -128 := by
  decide

/-- C4: in strategy A, a successful measurement whose value text parses to
`v` leaves `+infinity` when `v > 9e37`, `-infinity` when `v < -9e37`, and
`v` itself otherwise; a reading equal to `9e37` or to `-9e37` is not clamped.
The packet carries that value, as a `double` when the model has six digits or
more and converted to `float` otherwise (an infinity stays an infinity). -/
theorem C4_agilent_overload_clamp (lib : StrUtil) (devc : dev_context) (info : scpi_dmm_acq_info)
    (ch : Nat) (fr vr : ScpiReply) (v : Dbl)
    (hv : (lib.sr_atod_ascii (g_strstrip vr.2)).2 = v)
    (hok : (scpi_dmm_get_meas_agilent lib devc info ch fr vr).1 = SR_OK) :
    (dbl_9e37 < v →
      (scpi_dmm_get_meas_agilent lib devc info ch fr vr).2.d_value = Dbl.pinf ∧
      ((scpi_dmm_get_meas_agilent lib devc info ch fr vr).2.analog ch).data = Dbl.pinf) ∧
    (v < -dbl_9e37 →
      (scpi_dmm_get_meas_agilent lib devc info ch fr vr).2.d_value = Dbl.ninf ∧
      ((scpi_dmm_get_meas_agilent lib devc info ch fr vr).2.analog ch).data = Dbl.ninf) ∧
    (¬ dbl_9e37 < v → ¬ v < -dbl_9e37 →
      (scpi_dmm_get_meas_agilent lib devc info ch fr vr).2.d_value = v ∧
      ((scpi_dmm_get_meas_agilent lib devc info ch fr vr).2.analog ch).data =
        (if 6 ≤ devc.model.digits then v else to_float v)) ∧
    (v = dbl_9e37 → (scpi_dmm_get_meas_agilent lib devc info ch fr vr).2.d_value = dbl_9e37) ∧
    (v = -dbl_9e37 → (scpi_dmm_get_meas_agilent lib devc info ch fr vr).2.d_value = -dbl_9e37) := by
  cases hr : (scpi_dmm_get_mq devc fr).rsp with
  | none =>
    obtain ⟨mr, -, -, -, h2, -⟩ := agilent_ok lib devc info ch fr vr hok
    rw [hr] at h2
    cases h2
  | some mode_response =>
    obtain ⟨-, -, hd, ha⟩ := agilent_ok_sample lib devc info ch fr vr mode_response hr hok
    rw [hv] at hd
    have hmid : ¬ dbl_9e37 < v → ¬ v < -dbl_9e37 →
        (scpi_dmm_get_meas_agilent lib devc info ch fr vr).2.d_value = v ∧
        ((scpi_dmm_get_meas_agilent lib devc info ch fr vr).2.analog ch).data =
          (if 6 ≤ devc.model.digits then v else to_float v) := by
      intro h1 h2
      have hd1 : (scpi_dmm_get_meas_agilent lib devc info ch fr vr).2.d_value = v := by
        rw [hd, if_neg h1, if_neg h2]
      exact ⟨hd1, by rw [ha, hd1]⟩
    refine ⟨?_, ?_, hmid, ?_, ?_⟩
    · intro h1
      have hd1 : (scpi_dmm_get_meas_agilent lib devc info ch fr vr).2.d_value = Dbl.pinf := by
        rw [hd, if_pos h1]
      refine ⟨hd1, ?_⟩
      rw [ha, hd1]
      by_cases h6 : 6 ≤ devc.model.digits <;> simp [h6, to_float]
    · intro h2
      have hd1 : (scpi_dmm_get_meas_agilent lib devc info ch fr vr).2.d_value = Dbl.ninf := by
        rw [hd, if_neg (not_gt_of_lt_neg_9e37 v h2), if_pos h2]
      refine ⟨hd1, ?_⟩
      rw [ha, hd1]
      by_cases h6 : 6 ≤ devc.model.digits <;> simp [h6, to_float]
    · intro he
      have h1 : ¬ dbl_9e37 < v := by rw [he]; exact Dbl.lt_irrefl _
      have h2 : ¬ v < -dbl_9e37 := by rw [he]; decide
      rw [(hmid h1 h2).1, he]
    · intro he
      have h1 : ¬ dbl_9e37 < v := by rw [he]; decide
      have h2 : ¬ v < -dbl_9e37 := by rw [he]; exact Dbl.lt_irrefl _
      rw [(hmid h1 h2).1, he]

set_option maxRecDepth 8000 in
/-- C4, the readings of the spec on the five digit model: `9.99999E+37` gives
`+infinity`, `-9.99999E+37` gives `-infinity`, `5.0E+00` gives 5, and `9e37`
itself is kept. -/
theorem C4_agilent_overload_clamp_witness :
    ((scpi_dmm_get_meas_agilent libsigrok demo_devc acq_info_init 0
        (reply_ok "VOLT +1.00000E+03,+1.00000E-03") (reply_ok "9.99999E+37\n")).2.analog 0).data
      = Dbl.pinf ∧
    ((scpi_dmm_get_meas_agilent libsigrok demo_devc acq_info_init 0
        (reply_ok "VOLT +1.00000E+03,+1.00000E-03") (reply_ok "-9.99999E+37\n")).2.analog 0).data
      = Dbl.ninf ∧
    ((scpi_dmm_get_meas_agilent libsigrok demo_devc acq_info_init 0
        (reply_ok "VOLT +1.00000E+03,+1.00000E-03") (reply_ok "5.0E+00\n")).2.analog 0).data
      = Dbl.fin 5 ∧
    (scpi_dmm_get_meas_agilent libsigrok demo_devc acq_info_init 0
        (reply_ok "VOLT +1.00000E+03,+1.00000E-03") (reply_ok "9e37\n")).2.d_value = dbl_9e37 := by
  refine ⟨?_, ?_, ?_, ?_⟩
  · exact ((C4_agilent_overload_clamp libsigrok demo_devc acq_info_init 0
      (reply_ok "VOLT +1.00000E+03,+1.00000E-03") (reply_ok "9.99999E+37\n")
      (Dbl.fin 99999900000000004159462354073616908288) (by decide) (by decide)).1 (by decide)).2
  · exact ((C4_agilent_overload_clamp libsigrok demo_devc acq_info_init 0
      (reply_ok "VOLT +1.00000E+03,+1.00000E-03") (reply_ok "-9.99999E+37\n")
      (Dbl.fin (-99999900000000004159462354073616908288)) (by decide) (by decide)).2.1
      (by decide)).2
  · have h := ((C4_agilent_overload_clamp libsigrok demo_devc acq_info_init 0
      (reply_ok "VOLT +1.00000E+03,+1.00000E-03") (reply_ok "5.0E+00\n")
      (Dbl.fin 5) (by decide) (by decide)).2.2.1 (by decide) (by decide)).2
    rw [h]
    decide
  · exact (C4_agilent_overload_clamp libsigrok demo_devc acq_info_init 0
      (reply_ok "VOLT +1.00000E+03,+1.00000E-03") (reply_ok "9e37\n")
      dbl_9e37 (by decide) (by decide)).2.2.2.1 rfl

/-- C5: in strategy B the overload threshold `L` is the override of the model
when that is not `0.0` and `9e37` otherwise. A successful measurement whose
value text parses to `v` leaves `+infinity` when `v >= L` (so also at
`v = L`), `-infinity` when `v <= -L` (for a threshold override that is not
negative; in general, when `v <= -L` and not `v >= L`, the first test being
the first), and hands `v` unchanged to the mode code remap when
`-L < v < L`. -/
theorem C5_gwinstek_overload_clamp (lib : StrUtil) (devc : dev_context)
    (info : scpi_dmm_acq_info) (ch : Nat) (fr vr : ScpiReply) (mode_response : CStr) (v L : Dbl)
    (hrsp : (scpi_dmm_get_mq devc fr).rsp = some mode_response)
    (hv : (lib.sr_atod_ascii (g_strstrip vr.2)).2 = v)
    (hL : gwinstek_limit devc.model.infinity_limit = L)
    (hok : (scpi_dmm_get_meas_gwinstek lib devc info ch fr vr).1 = SR_OK) :
    (L = if Dbl.eq devc.model.infinity_limit dbl_0 then dbl_9e37
         else devc.model.infinity_limit) ∧
    (L ≤ v → (scpi_dmm_get_meas_gwinstek lib devc info ch fr vr).2.d_value = Dbl.pinf) ∧
    (¬ devc.model.infinity_limit < dbl_0 → v ≤ -L →
      (scpi_dmm_get_meas_gwinstek lib devc info ch fr vr).2.d_value = Dbl.ninf) ∧
    (¬ L ≤ v → v ≤ -L →
      (scpi_dmm_get_meas_gwinstek lib devc info ch fr vr).2.d_value = Dbl.ninf) ∧
    (-L < v → v < L →
      (scpi_dmm_get_meas_gwinstek lib devc info ch fr vr).2.d_value =
        gwinstek_remap devc.model.model (c_atoi mode_response) v) ∧
    (v = L → L ≤ L →
      (scpi_dmm_get_meas_gwinstek lib devc info ch fr vr).2.d_value = Dbl.pinf) := by
  have hd := (gwinstek_ok_sample lib devc info ch fr vr mode_response hrsp hok).1
  rw [hv, hL] at hd
  have hge : L ≤ v → (scpi_dmm_get_meas_gwinstek lib devc info ch fr vr).2.d_value = Dbl.pinf := by
    intro h1
    rw [hd, if_pos h1, gwinstek_remap_pinf]
  have hle : ¬ L ≤ v → v ≤ -L →
      (scpi_dmm_get_meas_gwinstek lib devc info ch fr vr).2.d_value = Dbl.ninf := by
    intro h1 h2
    rw [hd, if_neg h1, if_pos h2, gwinstek_remap_ninf]
  refine ⟨?_, hge, ?_, hle, ?_, ?_⟩
  · rw [← hL]
    unfold gwinstek_limit
    cases Dbl.eq devc.model.infinity_limit dbl_0 <;> simp
  · intro hpos h2
    have h1 : ¬ L ≤ v := by
      rw [← hL] at h2 ⊢
      exact not_ge_limit_of_le_neg _ v hpos h2
    exact hle h1 h2
  · intro h2 h1
    rw [hd, if_neg (Dbl.not_le_of_lt v L h1), if_neg (Dbl.not_le_of_lt (-L) v h2)]
  · intro he hLL
    exact hge (by rw [he]; exact hLL)

set_option maxRecDepth 8000 in
/-- C5, runs: without override a reading of exactly `9e37` becomes
`+infinity` in strategy B (strategy A keeps it); with the override `1e10`
the readings `1e10` and `-1e10` become the infinities and `5` stays. -/
theorem C5_gwinstek_overload_clamp_witness :
    (scpi_dmm_get_meas_gwinstek libsigrok (demo_gw_devc "GDM8251A" dbl_0) acq_info_init 0
        (reply_ok "01") (reply_ok "9e37\n")).2.d_value = Dbl.pinf ∧
    (scpi_dmm_get_meas_agilent libsigrok demo_devc acq_info_init 0
        (reply_ok "VOLT +1.00000E+03,+1.00000E-03") (reply_ok "9e37\n")).2.d_value = dbl_9e37 ∧
    (scpi_dmm_get_meas_gwinstek libsigrok (demo_gw_devc "GDM8251A" (Dbl.fin 10000000000))
        acq_info_init 0 (reply_ok "01") (reply_ok "1e10\n")).2.d_value = Dbl.pinf ∧
    (scpi_dmm_get_meas_gwinstek libsigrok (demo_gw_devc "GDM8251A" (Dbl.fin 10000000000))
        acq_info_init 0 (reply_ok "01") (reply_ok "-1e10\n")).2.d_value = Dbl.ninf ∧
    (scpi_dmm_get_meas_gwinstek libsigrok (demo_gw_devc "GDM8251A" (Dbl.fin 10000000000))
        acq_info_init 0 (reply_ok "01") (reply_ok "5\n")).2.d_value = Dbl.fin 5 := by
  refine ⟨?_, by decide, ?_, ?_, ?_⟩
  · exact (C5_gwinstek_overload_clamp libsigrok (demo_gw_devc "GDM8251A" dbl_0) acq_info_init 0
      (reply_ok "01") (reply_ok "9e37\n") "01".toList dbl_9e37 dbl_9e37
      (by decide) (by decide) (by decide) (by decide)).2.2.2.2.2 rfl (by decide)
  · exact (C5_gwinstek_overload_clamp libsigrok (demo_gw_devc "GDM8251A" (Dbl.fin 10000000000))
      acq_info_init 0 (reply_ok "01") (reply_ok "1e10\n") "01".toList (Dbl.fin 10000000000)
      (Dbl.fin 10000000000)
      (by decide) (by decide) (by decide) (by decide)).2.1 (by decide)
  · exact (C5_gwinstek_overload_clamp libsigrok (demo_gw_devc "GDM8251A" (Dbl.fin 10000000000))
      acq_info_init 0 (reply_ok "01") (reply_ok "-1e10\n") "01".toList (Dbl.fin (-10000000000))
      (Dbl.fin 10000000000)
      (by decide) (by decide) (by decide) (by decide)).2.2.1 (by decide) (by decide)
  · have h := (C5_gwinstek_overload_clamp libsigrok (demo_gw_devc "GDM8251A" (Dbl.fin 10000000000))
      acq_info_init 0 (reply_ok "01") (reply_ok "5\n") "01".toList (Dbl.fin 5)
      (Dbl.fin 10000000000)
      (by decide) (by decide) (by decide) (by decide)).2.2.2.2.1 (by decide) (by decide)
    rw [h]
    decide

/-- C7 (as amended): in strategy A the digits of a successful measurement are
what the `int8_t` digits field keeps of the negated precision exponent (taken
from the mode response or from the default of the capability). For an
exponent from -127 to 128 they are the negated exponent: non-negative exactly
when the exponent is not positive, and negative exactly when it is
positive. -/
theorem C7_digits_negate_exponent (lib : StrUtil) (devc : dev_context)
    (info : scpi_dmm_acq_info) (ch : Nat) (fr vr : ScpiReply) (mode_response : CStr) (e : Int)
    (hrsp : (scpi_dmm_get_mq devc fr).rsp = some mode_response)
    (he : (exponent_suffix lib ((agilent_prec_text lib mode_response
        (scpi_dmm_get_mq devc fr).mqitem).map skip_number)).2 = e)
    (hok : (scpi_dmm_get_meas_agilent lib devc info ch fr vr).1 = SR_OK) :
    ((scpi_dmm_get_meas_agilent lib devc info ch fr vr).2.analog ch).digits = to_int8 (-e) ∧
    (-127 ≤ e → e ≤ 128 →
      ((scpi_dmm_get_meas_agilent lib devc info ch fr vr).2.analog ch).digits = -e ∧
      (0 ≤ ((scpi_dmm_get_meas_agilent lib devc info ch fr vr).2.analog ch).digits ↔ e ≤ 0) ∧
      (((scpi_dmm_get_meas_agilent lib devc info ch fr vr).2.analog ch).digits < 0 ↔
        0 < e)) := by
  have hd := (agilent_ok_sample lib devc info ch fr vr mode_response hrsp hok).2.1
  rw [he] at hd
  rw [hd]
  refine ⟨rfl, fun h1 h2 => ?_⟩
  rw [to_int8_of_fits (-e) (by omega) (by omega)]
  exact ⟨rfl, by omega, by omega⟩

set_option maxRecDepth 8000 in
/-- C7, a run of the amended statement: a resolution of `1e-06` gives six
digits, a resolution of `1e+02` gives minus two. -/
theorem C7_digits_negate_exponent_witness :
    ((scpi_dmm_get_meas_agilent libsigrok demo_devc acq_info_init 0
        (reply_ok "VOLT +1.00000E-01,+1.00000E-06") (reply_ok "+1.09450E-01\n")).2.analog 0).digits
      = 6 ∧
    ((scpi_dmm_get_meas_agilent libsigrok demo_devc acq_info_init 0
        (reply_ok "VOLT +1.00000E+08,+1.00000E+02") (reply_ok "+1.09450E+07\n")).2.analog 0).digits
      = -2 := by
  refine ⟨?_, ?_⟩
  · have h := ((C7_digits_negate_exponent libsigrok demo_devc acq_info_init 0
      (reply_ok "VOLT +1.00000E-01,+1.00000E-06") (reply_ok "+1.09450E-01\n")
      "VOLT +1.00000E-01,+1.00000E-06".toList (-6) (by decide) (by decide) (by decide)).2
      (by decide) (by decide)).1
    simpa using h
  · exact ((C7_digits_negate_exponent libsigrok demo_devc acq_info_init 0
      (reply_ok "VOLT +1.00000E+08,+1.00000E+02") (reply_ok "+1.09450E+07\n")
      "VOLT +1.00000E+08,+1.00000E+02".toList 2 (by decide) (by decide) (by decide)).2
      (by decide) (by decide)).1

set_option maxRecDepth 8000 in
/-- C7 as stated fails: the mode response `VOLT +1.00000E+08,+1.00000E+02`
carries the precision exponent 2, which is not negative, and the successful
measurement has digits -2. And past the range of the digits field the sign
follows no rule: the exponent -128, which is negative, gives digits -128. -/
theorem C7_counterexample :
    exponent_suffix libsigrok ((agilent_prec_text libsigrok "VOLT +1.00000E+08,+1.00000E+02".toList
        (scpi_dmm_get_mq demo_devc (reply_ok "VOLT +1.00000E+08,+1.00000E+02")).mqitem).map
        skip_number) = (SR_OK, 2) ∧
    (scpi_dmm_get_meas_agilent libsigrok demo_devc acq_info_init 0
        (reply_ok "VOLT +1.00000E+08,+1.00000E+02") (reply_ok "+1.09450E+07\n")).1 = SR_OK ∧
    ¬ (0 ≤ ((scpi_dmm_get_meas_agilent libsigrok demo_devc acq_info_init 0
        (reply_ok "VOLT +1.00000E+08,+1.00000E+02") (reply_ok "+1.09450E+07\n")).2.analog 0).digits) ∧
    exponent_suffix libsigrok ((agilent_prec_text libsigrok "VOLT +1.00000E+08,+1.0E-128".toList
        (scpi_dmm_get_mq demo_devc (reply_ok "VOLT +1.00000E+08,+1.0E-128")).mqitem).map
        skip_number) = (SR_OK, -128) ∧
    (scpi_dmm_get_meas_agilent libsigrok demo_devc acq_info_init 0
        (reply_ok "VOLT +1.00000E+08,+1.0E-128") (reply_ok "+1.09450E+07\n")).1 = SR_OK ∧
    ((scpi_dmm_get_meas_agilent libsigrok demo_devc acq_info_init 0
        (reply_ok "VOLT +1.00000E+08,+1.0E-128") (reply_ok "+1.09450E+07\n")).2.analog 0).digits
      = -128 := by
  decide

/-- C8: in a tick of a model that has a measurement routine, if no call of
the routine fails (every return code is `SR_OK` or a positive skip code), the
routine is called for exactly the enabled channels, in ascending order (a
skip does not end the loop), and exactly one packet is sent for each channel
that is enabled and whose call returned `SR_OK`, in ascending order; nothing
is sent for a disabled or a skipped channel. -/
theorem C8_tick_emission_order {σ α : Type} (P : poll_env σ α) (channels : Nat → sr_channel)
    (num_channels now : Nat) (dev : σ) (limits : sr_sw_limits)
    (hgm : P.get_measurement ≠ none)
    (hnf : ∀ c ∈ (scpi_dmm_receive_data P channels num_channels now dev limits).calls, 0 ≤ c.2) :
    ((scpi_dmm_receive_data P channels num_channels now dev limits).calls.map Prod.fst =
      (List.range num_channels).filter (fun c => (channels c).enabled)) ∧
    ((scpi_dmm_receive_data P channels num_channels now dev limits).sent.map Prod.fst =
      (List.range num_channels).filter (fun c => (channels c).enabled &&
        decide ((c, SR_OK) ∈ (scpi_dmm_receive_data P channels num_channels now dev limits).calls))) := by
  obtain ⟨hc, hs, -, -⟩ := receive_data_fields P channels num_channels now dev limits
  obtain ⟨nc, ns, h1, h2, -, h4, -, h6, -, -, h9⟩ :=
    channel_loop_spec P channels num_channels 0 ⟨dev, SR_OK, false, [], []⟩
  simp only [List.nil_append] at h1 h2
  rw [hc, h1] at hnf
  rw [hc, hs, h1, h2]
  have hcalls := h9 hnf hgm
  rw [List.range_eq_range']
  refine ⟨hcalls, ?_⟩
  have hff : (List.range' 0 num_channels).filter (fun c => (channels c).enabled &&
        decide ((c, SR_OK) ∈ nc)) =
      ((List.range' 0 num_channels).filter (fun c => (channels c).enabled)).filter
        (fun c => decide ((c, SR_OK) ∈ nc)) := by
    rw [List.filter_filter]
    congr 1
    funext c
    exact Bool.and_comm _ _
  rw [h4, hff, ← hcalls, List.filter_map]
  congr 1
  apply List.filter_congr
  intro x hx
  have huniq : ∀ y ∈ nc, y.1 = x.1 → y = x := fun y hy hxy => call_log_unique nc h6 x hx y hy hxy
  by_cases hz : x.2 = SR_OK
  · have : (x.1, SR_OK) ∈ nc := by rw [← hz]; exact hx
    simp [hz, this]
  · have : ¬ (x.1, SR_OK) ∈ nc := by
      intro hin
      have := huniq _ hin rfl
      exact hz (by rw [← this])
    simp [hz, this]

set_option maxRecDepth 8000 in
/-- C8, the run of the spec: of three channels with the second disabled,
strategy A sends the packets of the first and the third, in that order; and
when the first of three enabled channels is skipped, the other two are still
measured and sent. -/
theorem C8_tick_emission_order_witness :
    (scpi_dmm_receive_data
        (agilent_env libsigrok demo_devc
          (demo_replies "VOLT +1.00000E+01,+1.00000E-04" "+1.09450E+00\n" none 0))
        demo_channels_2_off 3 0 acq_info_init no_limits).sent.map Prod.fst = [0, 2] ∧
    (scpi_dmm_receive_data (scripted_env (fun ch => if ch = 0 then 1 else SR_OK))
        demo_channels_on 3 0 () no_limits).sent.map Prod.fst = [1, 2] := by
  refine ⟨?_, ?_⟩
  · have h := (C8_tick_emission_order
      (agilent_env libsigrok demo_devc
        (demo_replies "VOLT +1.00000E+01,+1.00000E-04" "+1.09450E+00\n" none 0))
      demo_channels_2_off 3 0 acq_info_init no_limits (by simp [agilent_env]) (by decide)).2
    rw [h]
    decide
  · have h := (C8_tick_emission_order (scripted_env (fun ch => if ch = 0 then 1 else SR_OK))
      demo_channels_on 3 0 () no_limits (by simp [scripted_env]) (by decide)).2
    rw [h]
    decide

/-- C9: if in a tick the measurement routine is called for channel `k` and
returns a failure (a code that is neither `SR_OK` nor a positive skip code),
then no channel above `k` is measured, every packet of the tick is for a
channel below `k` (none for `k`, none above), and the tick requests
acquisition stop. -/
theorem C9_tick_failure_stops {σ α : Type} (P : poll_env σ α) (channels : Nat → sr_channel)
    (num_channels now : Nat) (dev : σ) (limits : sr_sw_limits) (k : Nat) (r : Int)
    (hcall : (k, r) ∈ (scpi_dmm_receive_data P channels num_channels now dev limits).calls)
    (hfail : r ≠ SR_OK) (hskip : ¬ 0 < r) :
    (∀ c ∈ (scpi_dmm_receive_data P channels num_channels now dev limits).calls, c.1 ≤ k) ∧
    (∀ p ∈ (scpi_dmm_receive_data P channels num_channels now dev limits).sent, p.1 < k) ∧
    (scpi_dmm_receive_data P channels num_channels now dev limits).stop_requested = true := by
  obtain ⟨hc, hs, -, hstop⟩ := receive_data_fields P channels num_channels now dev limits
  obtain ⟨nc, ns, h1, h2, -, h4, -, h6, h7, -, -⟩ :=
    channel_loop_spec P channels num_channels 0 ⟨dev, SR_OK, false, [], []⟩
  simp only [List.nil_append] at h1 h2
  rw [hc, h1] at hcall
  rw [hc, hs, h1, h2]
  have hr : r < 0 := by
    simp only [SR_OK] at hfail
    omega
  obtain ⟨hall, hlast⟩ := failed_call_is_last k r hr nc h6 hcall
  refine ⟨?_, ?_, ?_⟩
  · intro c hcin
    rcases hall c hcin with rfl | hlt
    · exact le_refl _
    · exact le_of_lt hlt
  · intro p hp
    have hmem : p.1 ∈ ns.map Prod.fst := List.mem_map_of_mem _ hp
    rw [h4] at hmem
    obtain ⟨c, hcf, hcp⟩ := List.mem_map.mp hmem
    obtain ⟨hcin, hc0⟩ := List.mem_filter.mp hcf
    rcases hall c hcin with rfl | hlt
    · simp only [decide_eq_true_eq] at hc0
      exact absurd hc0 hfail
    · rw [← hcp]; exact hlt
  · apply hstop
    rw [h7 (k, r) hlast]
    exact hfail

set_option maxRecDepth 8000 in
/-- C9, the run of the spec: three enabled channels, the queries of the
second (index 1) fail with a communication error. The third channel is never
queried, only the first has a packet, and stop is requested. -/
theorem C9_tick_failure_stops_witness :
    (scpi_dmm_receive_data
        (agilent_env libsigrok demo_devc
          (demo_replies "VOLT +1.00000E+01,+1.00000E-04" "+1.09450E+00\n" (some 1) SR_ERR_IO))
        demo_channels_on 3 0 acq_info_init no_limits).calls = [(0, SR_OK), (1, SR_ERR_IO)] ∧
    (∀ c ∈ (scpi_dmm_receive_data
        (agilent_env libsigrok demo_devc
          (demo_replies "VOLT +1.00000E+01,+1.00000E-04" "+1.09450E+00\n" (some 1) SR_ERR_IO))
        demo_channels_on 3 0 acq_info_init no_limits).calls, c.1 ≤ 1) ∧
    (∀ p ∈ (scpi_dmm_receive_data
        (agilent_env libsigrok demo_devc
          (demo_replies "VOLT +1.00000E+01,+1.00000E-04" "+1.09450E+00\n" (some 1) SR_ERR_IO))
        demo_channels_on 3 0 acq_info_init no_limits).sent, p.1 < 1) ∧
    (scpi_dmm_receive_data
        (agilent_env libsigrok demo_devc
          (demo_replies "VOLT +1.00000E+01,+1.00000E-04" "+1.09450E+00\n" (some 1) SR_ERR_IO))
        demo_channels_on 3 0 acq_info_init no_limits).stop_requested = true :=
  ⟨by decide,
   C9_tick_failure_stops
    (agilent_env libsigrok demo_devc
      (demo_replies "VOLT +1.00000E+01,+1.00000E-04" "+1.09450E+00\n" (some 1) SR_ERR_IO))
    demo_channels_on 3 0 acq_info_init no_limits 1 SR_ERR_IO (by decide) (by decide) (by decide)⟩

/-- C10: in every tick `sr_sw_limits_update_samples_read (limits, 1)` is called
once when the tick sent at least one packet, however many, so the sweep
counter `samples_read` advances by exactly one; the limits are left as they
were when the tick sent none. -/
theorem C10_sweep_counter {σ α : Type} (P : poll_env σ α) (channels : Nat → sr_channel)
    (num_channels now : Nat) (dev : σ) (limits : sr_sw_limits) :
    ((scpi_dmm_receive_data P channels num_channels now dev limits).sent ≠ [] →
      (scpi_dmm_receive_data P channels num_channels now dev limits).limits =
        sr_sw_limits_update_samples_read limits 1 ∧
      (scpi_dmm_receive_data P channels num_channels now dev limits).limits.samples_read =
        limits.samples_read + 1) ∧
    ((scpi_dmm_receive_data P channels num_channels now dev limits).sent = [] →
      (scpi_dmm_receive_data P channels num_channels now dev limits).limits = limits) := by
  obtain ⟨-, hs, hl, -⟩ := receive_data_fields P channels num_channels now dev limits
  obtain ⟨nc, ns, -, h2, h3, -⟩ :=
    channel_loop_spec P channels num_channels 0 ⟨dev, SR_OK, false, [], []⟩
  simp only [List.nil_append, Bool.false_or] at h2 h3
  rw [hs, hl, h2, h3]
  refine ⟨fun hne => ?_, fun he => ?_⟩
  · cases ns with
    | nil => exact absurd rfl hne
    | cons a l => simp [sr_sw_limits_update_samples_read]
  · simp [he]

/-- The stop decision of a tick: stop is requested when the loop ended with
a return code other than `SR_OK`, or when the limit check on the limits as
the tick leaves them says so. -/
theorem receive_data_stop {σ α : Type} (P : poll_env σ α) (channels : Nat → sr_channel)
    (num_channels now : Nat) (dev : σ) (limits : sr_sw_limits) :
    (scpi_dmm_receive_data P channels num_channels now dev limits).stop_requested =
      (decide ((channel_loop P channels num_channels 0 ⟨dev, SR_OK, false, [], []⟩).ret ≠ SR_OK)
        || sr_sw_limits_check
            (scpi_dmm_receive_data P channels num_channels now dev limits).limits now) := by
  unfold scpi_dmm_receive_data
  simp only
  split_ifs <;> simp_all

/-- The return code the channel loop of a tick ends with when a measurement
routine is present: the code of the last call, `SR_OK` when there was no
call. -/
theorem tick_loop_ret {σ α : Type} (P : poll_env σ α) (channels : Nat → sr_channel)
    (num_channels : Nat) (dev : σ) (hgm : P.get_measurement ≠ none) :
    (channel_loop P channels num_channels 0 ⟨dev, SR_OK, false, [], []⟩).ret =
      match (channel_loop P channels num_channels 0 ⟨dev, SR_OK, false, [], []⟩).calls.getLast?
      with
      | some c => c.2
      | none => SR_OK := by
  obtain ⟨nc, ns, h1, -, -, -, -, -, h7, h8, -⟩ :=
    channel_loop_spec P channels num_channels 0 ⟨dev, SR_OK, false, [], []⟩
  simp only [List.nil_append] at h1
  rw [h1]
  cases hl : nc.getLast? with
  | none =>
    have hnil : nc = [] := List.getLast?_eq_none_iff.mp hl
    exact h8 hnil hgm
  | some c => exact h7 c hl

/-- C11 (as amended): in a tick whose last call of the measurement routine,
if there was any, returned `SR_OK` (so no channel failed), acquisition stop is
requested if and only if `sr_sw_limits_check` reports a reached limit at the
end of the tick. The check is made whether or not a packet was sent: on the
limits with the sweep counter advanced by one when the tick sent a packet, on
the unchanged limits when it sent none. -/
theorem C11_limit_check_each_tick {σ α : Type} (P : poll_env σ α)
    (channels : Nat → sr_channel) (num_channels now : Nat) (dev : σ) (limits : sr_sw_limits)
    (hgm : P.get_measurement ≠ none)
    (hlast : ∀ c, (scpi_dmm_receive_data P channels num_channels now dev limits).calls.getLast?
      = some c → c.2 = SR_OK) :
    ((scpi_dmm_receive_data P channels num_channels now dev limits).sent ≠ [] →
      ((scpi_dmm_receive_data P channels num_channels now dev limits).stop_requested = true ↔
        sr_sw_limits_check (sr_sw_limits_update_samples_read limits 1) now = true)) ∧
    ((scpi_dmm_receive_data P channels num_channels now dev limits).sent = [] →
      ((scpi_dmm_receive_data P channels num_channels now dev limits).stop_requested = true ↔
        sr_sw_limits_check limits now = true)) := by
  have hstop := receive_data_stop P channels num_channels now dev limits
  have hret := tick_loop_ret P channels num_channels dev hgm
  obtain ⟨hc, hs, hl, -⟩ := receive_data_fields P channels num_channels now dev limits
  obtain ⟨nc, ns, -, h2, h3, -⟩ :=
    channel_loop_spec P channels num_channels 0 ⟨dev, SR_OK, false, [], []⟩
  simp only [List.nil_append, Bool.false_or] at h2 h3
  rw [hc] at hlast
  have hok : (channel_loop P channels num_channels 0 ⟨dev, SR_OK, false, [], []⟩).ret = SR_OK := by
    rw [hret]
    cases hg : (channel_loop P channels num_channels 0
      ⟨dev, SR_OK, false, [], []⟩).calls.getLast? with
    | none => rfl
    | some c => exact hlast c hg
  rw [hok] at hstop
  simp only [ne_eq, not_true_eq_false, decide_False, Bool.false_or] at hstop
  rw [hstop, hl, h3, hs, h2]
  refine ⟨fun hne => ?_, fun he => ?_⟩
  · cases ns with
    | nil => exact absurd rfl hne
    | cons a l => simp
  · simp [he]

/-- C11, a run: two enabled channels that both measure, a sample limit of
one sweep. The tick sends two packets and requests stop, as the limit check on
the advanced counter says; with no limits configured it does not. -/
theorem C11_limit_check_each_tick_witness :
    (scpi_dmm_receive_data (scripted_env fun _ => SR_OK) demo_channels_on 2 0 ()
        { no_limits with limit_samples := 1 }).sent = [(0, 0), (1, 1)] ∧
    (scpi_dmm_receive_data (scripted_env fun _ => SR_OK) demo_channels_on 2 0 ()
        no_limits).stop_requested = false ∧
    ((scpi_dmm_receive_data (scripted_env fun _ => SR_OK) demo_channels_on 2 0 ()
        { no_limits with limit_samples := 1 }).stop_requested = true ↔
      sr_sw_limits_check
        (sr_sw_limits_update_samples_read { no_limits with limit_samples := 1 } 1) 0 = true) :=
  ⟨by decide, by decide,
   (C11_limit_check_each_tick (scripted_env fun _ => SR_OK) demo_channels_on 2 0 ()
      { no_limits with limit_samples := 1 } (by simp [scripted_env]) (by decide)).1
      (by decide)⟩

/-- C11 does not hold as stated: a tick over channels that are all disabled
sends no packet, and yet it requests stop, because the time limit of the
acquisition has run out when the check after the loop is made. -/
theorem C11_counterexample :
    (scpi_dmm_receive_data (scripted_env fun _ => SR_OK) demo_channels_off 2 5000 ()
        demo_time_limits).calls = [] ∧
    (scpi_dmm_receive_data (scripted_env fun _ => SR_OK) demo_channels_off 2 5000 ()
        demo_time_limits).sent = [] ∧
    (scpi_dmm_receive_data (scripted_env fun _ => SR_OK) demo_channels_off 2 5000 ()
        demo_time_limits).stop_requested = true := by
  decide

/-! ### Capability lookup -/

/-- The lookup by number is a search for the first entry that passes the
test of its loop. -/
theorem lookup_mq_number_eq_find (mq flag : Nat) : ∀ mqopts : List mqopt_item,
    scpi_dmm_lookup_mq_number mqopts mq flag = mqopts.find? (mq_number_matches mq flag) := by
  intro mqopts
  induction mqopts with
  | nil => rfl
  | cons item rest ih =>
    unfold scpi_dmm_lookup_mq_number
    by_cases h : item.mq ≠ mq ∨ item.mqflag ≠ flag
    · rw [if_pos h, ih]
      have : mq_number_matches mq flag item = false := by
        simp only [mq_number_matches, Bool.and_eq_false_imp, decide_eq_true_eq,
          decide_eq_false_iff_not]
        intro h1
        rcases h with h | h
        · exact absurd h1 h
        · exact h
      simp [List.find?, this]
    · rw [if_neg h]
      have : mq_number_matches mq flag item = true := by
        simp only [mq_number_matches, Bool.and_eq_true, decide_eq_true_eq]
        constructor
        · by_contra h1; exact h (Or.inl h1)
        · by_contra h1; exact h (Or.inr h1)
      simp [List.find?, this]

/-- The lookup by text is a search for the first entry that passes the
test of its loop. -/
theorem lookup_mq_text_eq_find (text : CStr) : ∀ mqopts : List mqopt_item,
    scpi_dmm_lookup_mq_text mqopts text = mqopts.find? (mq_text_matches text) := by
  intro mqopts
  induction mqopts with
  | nil => rfl
  | cons item rest ih =>
    unfold scpi_dmm_lookup_mq_text
    cases hq : item.scpi_func_query with
    | none =>
      simp only []
      rw [ih]
      simp [List.find?, mq_text_matches, hq]
    | some q =>
      simp only []
      by_cases hnil : q = []
      · rw [if_pos hnil, ih]
        simp [List.find?, mq_text_matches, hq, hnil]
      · rw [if_neg hnil]
        by_cases hp : g_str_has_prefix text q = false
        · rw [if_pos hp, ih]
          simp [List.find?, mq_text_matches, hq, hp]
        · rw [if_neg hp]
          have hp1 : g_str_has_prefix text q = true := by simpa using hp
          simp [List.find?, mq_text_matches, hq, hnil, hp1]

/-- The first entry of a list that passes a test, by position: it passes
the test and no entry at a smaller index does. -/
theorem find_eq_some_index {β : Type} (p : β → Bool) (c : β) : ∀ l : List β,
    l.find? p = some c ↔
      ∃ i : Nat, l[i]? = some c ∧ p c = true ∧
        ∀ j : Nat, j < i → ∀ e, l[j]? = some e → p e = false := by
  intro l
  induction l with
  | nil => simp
  | cons a t ih =>
    by_cases hp : p a = true
    · rw [List.find?_cons_of_pos _ hp]
      constructor
      · intro h
        cases h
        exact ⟨0, by simp, hp, fun j hj => absurd hj (Nat.not_lt_zero j)⟩
      · rintro ⟨i, hi, -, hlt⟩
        cases i with
        | zero => simpa using hi
        | succ k =>
          have := hlt 0 (Nat.succ_pos k) a (by simp)
          rw [hp] at this
          exact absurd this (by decide)
    · have hp0 : p a = false := by simpa using hp
      rw [List.find?_cons_of_neg _ hp, ih]
      constructor
      · rintro ⟨i, hi, hc, hlt⟩
        refine ⟨i + 1, by simpa using hi, hc, ?_⟩
        intro j hj e he
        cases j with
        | zero =>
          simp only [List.getElem?_cons_zero, Option.some.injEq] at he
          rw [← he]; exact hp0
        | succ k =>
          exact hlt k (Nat.lt_of_succ_lt_succ hj) e (by simpa using he)
      · rintro ⟨i, hi, hc, hlt⟩
        cases i with
        | zero =>
          simp only [List.getElem?_cons_zero, Option.some.injEq] at hi
          rw [hi, hc] at hp0
          exact absurd hp0 (by decide)
        | succ k =>
          refine ⟨k, by simpa using hi, hc, ?_⟩
          intro j hj e he
          exact hlt (j + 1) (Nat.succ_lt_succ hj) e (by simpa using he)

/-- What the test of the lookup by text says of an entry. -/
theorem mq_text_matches_iff (text : CStr) (item : mqopt_item) :
    mq_text_matches text item = true ↔
      ∃ q, item.scpi_func_query = some q ∧ q ≠ [] ∧ q <+: text := by
  unfold mq_text_matches g_str_has_prefix
  cases hq : item.scpi_func_query with
  | none => simp
  | some q => simp [List.isPrefixOf_iff_prefix]

/-- C12 (as amended): in a capability table with unique (quantity, flag)
pairs, the lookup by number on the pair of any entry `c` returns `c`; and the
lookup by text on the query token of `c` returns `c` when that token is
present and not empty and no entry before `c` has a non-empty query token
that is a prefix of it. -/
theorem C12_lookup_round_trip (table : List mqopt_item)
    (hpairs : table.Pairwise (fun a b => a.mq ≠ b.mq ∨ a.mqflag ≠ b.mqflag)) :
    (∀ c ∈ table, scpi_dmm_lookup_mq_number table c.mq c.mqflag = some c) ∧
    (∀ pre c post q, table = pre ++ c :: post → c.scpi_func_query = some q → q ≠ [] →
      (∀ e ∈ pre, ∀ t, e.scpi_func_query = some t → t ≠ [] → ¬ t <+: q) →
      scpi_dmm_lookup_mq_text table q = some c) := by
  constructor
  · intro c hc
    obtain ⟨pre, post, htab⟩ := List.append_of_mem hc
    rw [lookup_mq_number_eq_find, List.find?_eq_some]
    refine ⟨by simp [mq_number_matches], pre, post, htab, ?_⟩
    intro e he
    rw [htab] at hpairs
    have hr := (List.pairwise_append.mp hpairs).2.2 e he c (List.mem_cons_self c post)
    simp only [mq_number_matches, Bool.not_eq_true', Bool.and_eq_false_imp, decide_eq_true_eq,
      decide_eq_false_iff_not]
    intro h1
    rcases hr with hr | hr
    · exact absurd h1 hr
    · exact hr
  · intro pre c post q htab hq hne hpre
    rw [lookup_mq_text_eq_find, List.find?_eq_some]
    refine ⟨(mq_text_matches_iff q c).mpr ⟨q, hq, hne, List.prefix_refl q⟩, pre, post, htab, ?_⟩
    intro e he
    rw [Bool.not_eq_true', ← Bool.not_eq_true]
    intro hm
    obtain ⟨t, ht, htne, htp⟩ := (mq_text_matches_iff q e).mp hm
    exact hpre e he t ht htne htp

/-- C12, runs. On the table of the demo model the continuity entry, second
in the table, is found again by its pair and by its token CONT, of which the
token VOLT of the entry before it is no prefix. On a table whose first entry
has an empty query token that entry is still found again by its pair. -/
theorem C12_lookup_round_trip_witness :
    scpi_dmm_lookup_mq_number demo_model.mqopts SR_MQ_CONTINUITY 0 =
      some ⟨SR_MQ_CONTINUITY, 0, some "CONT".toList, some "CONT".toList, -1, 0⟩ ∧
    scpi_dmm_lookup_mq_text demo_model.mqopts "CONT".toList =
      some ⟨SR_MQ_CONTINUITY, 0, some "CONT".toList, some "CONT".toList, -1, 0⟩ ∧
    scpi_dmm_lookup_mq_number demo_table_empty_token SR_MQ_TIME 0 =
      some ⟨SR_MQ_TIME, 0, some "PER".toList, some [], NO_DFLT_PREC, 0⟩ :=
  ⟨(C12_lookup_round_trip demo_model.mqopts (by decide)).1
      ⟨SR_MQ_CONTINUITY, 0, some "CONT".toList, some "CONT".toList, -1, 0⟩ (by decide),
   (C12_lookup_round_trip demo_model.mqopts (by decide)).2
      [⟨SR_MQ_VOLTAGE, 2, some "VOLT".toList, some "VOLT".toList, NO_DFLT_PREC, 0⟩]
      ⟨SR_MQ_CONTINUITY, 0, some "CONT".toList, some "CONT".toList, -1, 0⟩ []
      "CONT".toList rfl rfl (by decide) (by decide),
   (C12_lookup_round_trip demo_table_empty_token (by decide)).1
      ⟨SR_MQ_TIME, 0, some "PER".toList, some [], NO_DFLT_PREC, 0⟩ (by decide)⟩

/-- C12 does not hold as stated. In a table with distinct pairs and distinct
tokens whose first token VOLT is a prefix of the second token VOLT:AC, the
lookup by text on the token of the second entry returns the first entry. And
an entry whose token is the empty text is never returned by the lookup by
text. -/
theorem C12_counterexample :
    demo_table_general_first.Pairwise (fun a b => a.mq ≠ b.mq ∨ a.mqflag ≠ b.mqflag) ∧
    demo_table_general_first.Pairwise (fun a b => a.scpi_func_query ≠ b.scpi_func_query) ∧
    demo_table_general_first[1]? =
      some ⟨SR_MQ_VOLTAGE, 1, some "VOLT:AC".toList, some "VOLT:AC".toList, NO_DFLT_PREC, 0⟩ ∧
    scpi_dmm_lookup_mq_number demo_table_general_first SR_MQ_VOLTAGE 1 =
      demo_table_general_first[1]? ∧
    scpi_dmm_lookup_mq_text demo_table_general_first "VOLT:AC".toList =
      demo_table_general_first[0]? ∧
    demo_table_general_first[0]? ≠ demo_table_general_first[1]? ∧
    demo_table_empty_token.Pairwise (fun a b => a.mq ≠ b.mq ∨ a.mqflag ≠ b.mqflag) ∧
    demo_table_empty_token.Pairwise (fun a b => a.scpi_func_query ≠ b.scpi_func_query) ∧
    (∃ c ∈ demo_table_empty_token, c.scpi_func_query = some [] ∧
      scpi_dmm_lookup_mq_text demo_table_empty_token [] = none) := by
  refine ⟨by decide, by decide, by decide, by decide, by decide, by decide, by decide,
    by decide, ?_⟩
  exact ⟨_, List.mem_cons_self _ _, rfl, by decide⟩

/-- C13 (as amended): the lookup by text returns the entry with the smallest
table index whose query token is present, not empty, and a prefix of the
text; it returns nothing exactly when no entry of the table has such a
token. An entry without a token or with an empty token is passed over. -/
theorem C13_lookup_text_first_match (mqopts : List mqopt_item) (text : CStr) :
    (∀ c, scpi_dmm_lookup_mq_text mqopts text = some c ↔
      ∃ i : Nat, mqopts[i]? = some c ∧
        (∃ q, c.scpi_func_query = some q ∧ q ≠ [] ∧ q <+: text) ∧
        ∀ j : Nat, j < i → ∀ e, mqopts[j]? = some e →
          ¬ ∃ q, e.scpi_func_query = some q ∧ q ≠ [] ∧ q <+: text) ∧
    (scpi_dmm_lookup_mq_text mqopts text = none ↔
      ∀ e ∈ mqopts, ¬ ∃ q, e.scpi_func_query = some q ∧ q ≠ [] ∧ q <+: text) := by
  constructor
  · intro c
    rw [lookup_mq_text_eq_find, find_eq_some_index]
    simp only [← mq_text_matches_iff, Bool.not_eq_true]
  · rw [lookup_mq_text_eq_find, List.find?_eq_none]
    simp only [← mq_text_matches_iff]

/-- C13 does not hold as stated: the empty token of the first entry of the
table is a prefix of the text VOLT, no entry has a smaller index, and still
the lookup returns the second entry; and on a text that only the empty token
prefixes the lookup returns nothing. -/
theorem C13_counterexample :
    (∃ q, (demo_table_empty_token[0]?.bind fun e => e.scpi_func_query) = some q ∧
      q <+: "VOLT".toList ∧ q <+: "FREQ".toList) ∧
    scpi_dmm_lookup_mq_text demo_table_empty_token "VOLT".toList = demo_table_empty_token[1]? ∧
    demo_table_empty_token[1]? ≠ demo_table_empty_token[0]? ∧
    scpi_dmm_lookup_mq_text demo_table_empty_token "FREQ".toList = none := by
  refine ⟨⟨[], rfl, List.nil_prefix, List.nil_prefix⟩, by decide, by decide, by decide⟩

/-- C14: for a model with a function query and a successful, non-empty
response `r`, let `h` be `r` without one leading double quote. The mode query
succeeds if and only if the lookup by text finds an entry for `h`; it then
reports that entry with its quantity and flag; when the lookup finds none it
fails with `SR_ERR_NA` and reports quantity 0, flag 0 and no entry. -/
theorem C14_get_mq (devc : dev_context) (command response : CStr)
    (hcmd : devc.cmdset.query_func = some command) (hcne : command ≠ [])
    (hrne : response ≠ []) :
    ((scpi_dmm_get_mq devc (SR_OK, some response)).ret = SR_OK ↔
      ∃ item, scpi_dmm_lookup_mq_text devc.model.mqopts
        (if response.head? = some '"' then response.tail else response) = some item) ∧
    (∀ item, scpi_dmm_lookup_mq_text devc.model.mqopts
        (if response.head? = some '"' then response.tail else response) = some item →
      (scpi_dmm_get_mq devc (SR_OK, some response)).ret = SR_OK ∧
      (scpi_dmm_get_mq devc (SR_OK, some response)).mqitem = some item ∧
      (scpi_dmm_get_mq devc (SR_OK, some response)).mq = item.mq ∧
      (scpi_dmm_get_mq devc (SR_OK, some response)).flag = item.mqflag) ∧
    (scpi_dmm_lookup_mq_text devc.model.mqopts
        (if response.head? = some '"' then response.tail else response) = none →
      (scpi_dmm_get_mq devc (SR_OK, some response)).ret = SR_ERR_NA ∧
      (scpi_dmm_get_mq devc (SR_OK, some response)).mq = 0 ∧
      (scpi_dmm_get_mq devc (SR_OK, some response)).flag = 0 ∧
      (scpi_dmm_get_mq devc (SR_OK, some response)).mqitem = none) := by
  have hm : scpi_dmm_get_mq devc (SR_OK, some response) =
      match scpi_dmm_lookup_mq_text devc.model.mqopts
        (if response.head? = some '"' then response.tail else response) with
      | some item => ⟨SR_OK, item.mq, item.mqflag, some response, some item⟩
      | none => ⟨SR_ERR_NA, 0, 0, some response, none⟩ := by
    unfold scpi_dmm_get_mq
    simp only [hcmd, if_neg hcne, if_neg hrne, ne_eq, not_true_eq_false, if_false]
  rw [hm]
  cases hl : scpi_dmm_lookup_mq_text devc.model.mqopts
      (if response.head? = some '"' then response.tail else response) with
  | none =>
    refine ⟨?_, ?_, ?_⟩
    · simp [SR_ERR_NA, SR_OK]
    · intro item h; cases h
    · intro _; exact ⟨rfl, rfl, rfl, rfl⟩
  | some item =>
    refine ⟨?_, ?_, ?_⟩
    · simp
    · intro item1 h
      cases h
      exact ⟨rfl, rfl, rfl, rfl⟩
    · intro h; cases h

set_option maxRecDepth 8000 in
/-- C14, two runs on the demo model: the quoted response of a device in DC
voltage mode is recognised as the voltage entry, and a response that no query
token prefixes makes the mode query fail with `SR_ERR_NA`. -/
theorem C14_get_mq_witness :
    (scpi_dmm_get_mq demo_devc (SR_OK, some "\"VOLT +1.0E+01\"".toList)).ret = SR_OK ∧
    (scpi_dmm_get_mq demo_devc (SR_OK, some "\"VOLT +1.0E+01\"".toList)).mq = SR_MQ_VOLTAGE ∧
    (scpi_dmm_get_mq demo_devc (SR_OK, some "\"VOLT +1.0E+01\"".toList)).flag = 2 ∧
    (scpi_dmm_get_mq demo_devc (SR_OK, some "DIOD".toList)).ret = SR_ERR_NA ∧
    (scpi_dmm_get_mq demo_devc (SR_OK, some "DIOD".toList)).mqitem = none :=
  ⟨((C14_get_mq demo_devc "CONF?".toList "\"VOLT +1.0E+01\"".toList rfl (by decide)
      (by decide)).2.1
      ⟨SR_MQ_VOLTAGE, 2, some "VOLT".toList, some "VOLT".toList, NO_DFLT_PREC, 0⟩
      (by decide)).1,
   by decide, by decide,
   ((C14_get_mq demo_devc "CONF?".toList "DIOD".toList rfl (by decide) (by decide)).2.2
      (by decide)).1,
   by decide⟩

/-! ### Setting the measurement mode -/

/-- C15: when no entry of the table has the requested quantity and flag,
the mode setup returns `SR_ERR_NA` and does nothing on the device. Otherwise,
with `item` the entry the lookup by number returns, it sends the setup
command of the command set once, with the setup token of `item` as the only
argument, and it sleeps `conf_delay_us` exactly when the send returned `SR_OK`
and `item` carries `FLAG_CONF_DELAY`; the code of a failed send is returned. -/
theorem C15_set_mq (devc : dev_context) (mq flag : Nat) (send_ret : Int) :
    ((∀ e ∈ devc.model.mqopts, ¬ (e.mq = mq ∧ e.mqflag = flag)) →
      scpi_dmm_set_mq devc mq flag send_ret = (SR_ERR_NA, [])) ∧
    (∀ item, scpi_dmm_lookup_mq_number devc.model.mqopts mq flag = some item →
      item ∈ devc.model.mqopts ∧ item.mq = mq ∧ item.mqflag = flag ∧
      (scpi_dmm_set_mq devc mq flag send_ret).1 = send_ret ∧
      (∀ us, scpi_op.usleep us ∈ (scpi_dmm_set_mq devc mq flag send_ret).2 ↔
        us = devc.model.conf_delay_us ∧ send_ret = SR_OK ∧
          item.drv_flags &&& FLAG_CONF_DELAY ≠ 0) ∧
      (scpi_dmm_set_mq devc mq flag send_ret).2 =
        [scpi_op.cmd_delay, scpi_op.send devc.cmdset.setup_func item.scpi_func_setup] ++
          (if send_ret = SR_OK ∧ item.drv_flags &&& FLAG_CONF_DELAY ≠ 0
            then [scpi_op.usleep devc.model.conf_delay_us] else [])) := by
  constructor
  · intro hno
    have hl : scpi_dmm_lookup_mq_number devc.model.mqopts mq flag = none := by
      rw [lookup_mq_number_eq_find, List.find?_eq_none]
      intro e he hm
      simp only [mq_number_matches, Bool.and_eq_true, decide_eq_true_eq] at hm
      exact hno e he hm
    unfold scpi_dmm_set_mq
    rw [hl]
  · intro item hl
    have hf := hl
    rw [lookup_mq_number_eq_find, List.find?_eq_some] at hf
    obtain ⟨hm, pre, post, hpp, -⟩ := hf
    simp only [mq_number_matches, Bool.and_eq_true, decide_eq_true_eq] at hm
    refine ⟨by rw [hpp]; simp, hm.1, hm.2, ?_⟩
    unfold scpi_dmm_set_mq
    rw [hl]
    simp only
    by_cases hs : send_ret = SR_OK
    · by_cases hfl : item.drv_flags &&& FLAG_CONF_DELAY ≠ 0
      · simp [hs, hfl]
      · simp [hs, hfl]
    · simp [hs]

/-- C15, runs on a model whose voltage capability is flagged for the settle
delay of 1000 microseconds: setting DC voltage sends the token VOLT and
sleeps; with a failing send there is no sleep and the code of the send is
returned; setting continuity, which is not flagged, sends CONT and does not
sleep; a quantity the table does not have is refused before anything is
sent. -/
theorem C15_set_mq_witness :
    scpi_dmm_set_mq demo_delay_devc SR_MQ_VOLTAGE 2 SR_OK =
      (SR_OK, [scpi_op.cmd_delay, scpi_op.send (some "CONF:%s".toList) (some "VOLT".toList),
        scpi_op.usleep 1000]) ∧
    scpi_dmm_set_mq demo_delay_devc SR_MQ_VOLTAGE 2 SR_ERR_IO =
      ( SR_ERR_IO, [scpi_op.cmd_delay,
        scpi_op.send (some "CONF:%s".toList) (some "VOLT".toList)]) ∧
    scpi_dmm_set_mq demo_delay_devc SR_MQ_CONTINUITY 0 SR_OK =
      (SR_OK, [scpi_op.cmd_delay,
        scpi_op.send (some "CONF:%s".toList) (some "CONT".toList)]) ∧
    scpi_dmm_set_mq demo_delay_devc SR_MQ_FREQUENCY 0 SR_OK = (SR_ERR_NA, []) :=
  ⟨by decide, by decide, by decide,
   (C15_set_mq demo_delay_devc SR_MQ_FREQUENCY 0 SR_OK).1 (by decide)⟩

/-! ### Encoding and meaning of a sample -/

/-- The meaning and the width of the sample of a successful run of
strategy A. -/
theorem agilent_ok_meaning (lib : StrUtil) (devc : dev_context) (info : scpi_dmm_acq_info)
    (ch : Nat) (fr vr : ScpiReply)
    (h : (scpi_dmm_get_meas_agilent lib devc info ch fr vr).1 = SR_OK) :
    agilent_unit (scpi_dmm_get_mq devc fr).mq =
      some ((scpi_dmm_get_meas_agilent lib devc info ch fr vr).2.analog ch).unit ∧
    ((scpi_dmm_get_meas_agilent lib devc info ch fr vr).2.analog ch).mq =
      (scpi_dmm_get_mq devc fr).mq ∧
    ((scpi_dmm_get_meas_agilent lib devc info ch fr vr).2.analog ch).mqflags =
      (scpi_dmm_get_mq devc fr).flag ∧
    ((scpi_dmm_get_meas_agilent lib devc info ch fr vr).2.analog ch).unitsize =
      (if 6 ≤ devc.model.digits then sizeof_double else sizeof_float) := by
  obtain ⟨mr, rtext, u, -, -, -, -, -, -, -, hu, heq⟩ := agilent_ok lib devc info ch fr vr h
  have hf := fill_analog_some
    { info with d_value :=
        if dbl_9e37 < (lib.sr_atod_ascii (g_strstrip vr.2)).2 then Dbl.pinf
        else if (lib.sr_atod_ascii (g_strstrip vr.2)).2 < -dbl_9e37 then Dbl.ninf
        else (lib.sr_atod_ascii (g_strstrip vr.2)).2 }
    ch (decide (6 ≤ devc.model.digits))
    (-(exponent_suffix lib ((agilent_prec_text lib mr
        (scpi_dmm_get_mq devc fr).mqitem).map skip_number)).2)
    (scpi_dmm_get_mq devc fr).mq (scpi_dmm_get_mq devc fr).flag u
  rw [← heq] at hf
  obtain ⟨-, -, ha⟩ := hf
  rw [ha, hu]
  refine ⟨rfl, rfl, rfl, ?_⟩
  by_cases h7 : 6 ≤ devc.model.digits <;> simp [h7]

/-- The meaning and the width of the sample of a successful run of
strategy B. -/
theorem gwinstek_ok_meaning (lib : StrUtil) (devc : dev_context) (info : scpi_dmm_acq_info)
    (ch : Nat) (fr vr : ScpiReply) (mode_response : CStr)
    (hrsp : (scpi_dmm_get_mq devc fr).rsp = some mode_response)
    (h : (scpi_dmm_get_meas_gwinstek lib devc info ch fr vr).1 = SR_OK) :
    gwinstek_unit (scpi_dmm_get_mq devc fr).mq (c_atoi mode_response) =
      some ((scpi_dmm_get_meas_gwinstek lib devc info ch fr vr).2.analog ch).unit ∧
    ((scpi_dmm_get_meas_gwinstek lib devc info ch fr vr).2.analog ch).mq =
      (scpi_dmm_get_mq devc fr).mq ∧
    ((scpi_dmm_get_meas_gwinstek lib devc info ch fr vr).2.analog ch).mqflags =
      (scpi_dmm_get_mq devc fr).flag ∧
    ((scpi_dmm_get_meas_gwinstek lib devc info ch fr vr).2.analog ch).unitsize =
      (if 6 < devc.model.digits then sizeof_double else sizeof_float) := by
  unfold scpi_dmm_get_meas_gwinstek at h ⊢
  by_cases h1 : (scpi_dmm_get_mq devc fr).ret = SR_OK
  swap
  · exact absurd h (by simp [h1])
  simp only [h1, ne_eq, not_true_eq_false, if_false, hrsp] at h ⊢
  by_cases h2 : (scpi_dmm_get_mq devc fr).mq = 0
  · simp [h2, SR_OK] at h
  simp only [h2, if_false] at h ⊢
  cases hc : devc.cmdset.query_value with
  | none => simp [hc, SR_ERR_NA, SR_OK] at h
  | some command =>
    simp only [hc] at h ⊢
    by_cases h4 : command = []
    · simp [h4, SR_ERR_NA, SR_OK] at h
    simp only [h4, if_false] at h ⊢
    by_cases h5 : vr.1 = SR_OK
    swap
    · exact absurd h (by simp [h5])
    simp only [h5, not_true_eq_false, if_false] at h ⊢
    by_cases h6 : (lib.sr_atod_ascii (g_strstrip vr.2)).1 = SR_OK
    swap
    · exact absurd h (by simp [h6])
    simp only [h6, not_true_eq_false, if_false] at h ⊢
    cases hs : g_strstrip vr.2 with
    | none => simp [hs, SR_ERR, SR_OK] at h
    | some rtext =>
      simp only [hs] at h h6 ⊢
      have hu : ∃ u, gwinstek_unit (scpi_dmm_get_mq devc fr).mq (c_atoi mode_response) = some u := by
        cases hq : gwinstek_unit (scpi_dmm_get_mq devc fr).mq (c_atoi mode_response) with
        | some u => exact ⟨u, rfl⟩
        | none =>
          rw [hq] at h
          split_ifs at h <;> simp_all [fill_analog, SR_OK, SR_ERR_NA]
      obtain ⟨u, hu⟩ := hu
      simp only [hu] at h ⊢
      have key : ∀ x : Dbl, ∀ dg : Int,
          some u = some ((fill_analog { info with d_value := x } ch
            (decide (6 < devc.model.digits)) dg (scpi_dmm_get_mq devc fr).mq
            (scpi_dmm_get_mq devc fr).flag (some u)).2.analog ch).unit ∧
          ((fill_analog { info with d_value := x } ch (decide (6 < devc.model.digits)) dg
            (scpi_dmm_get_mq devc fr).mq
            (scpi_dmm_get_mq devc fr).flag (some u)).2.analog ch).mq =
              (scpi_dmm_get_mq devc fr).mq ∧
          ((fill_analog { info with d_value := x } ch (decide (6 < devc.model.digits)) dg
            (scpi_dmm_get_mq devc fr).mq
            (scpi_dmm_get_mq devc fr).flag (some u)).2.analog ch).mqflags =
              (scpi_dmm_get_mq devc fr).flag ∧
          ((fill_analog { info with d_value := x } ch (decide (6 < devc.model.digits)) dg
            (scpi_dmm_get_mq devc fr).mq
            (scpi_dmm_get_mq devc fr).flag (some u)).2.analog ch).unitsize =
              (if 6 < devc.model.digits then sizeof_double else sizeof_float) := by
        intro x dg
        obtain ⟨-, -, ha⟩ := fill_analog_some { info with d_value := x } ch
          (decide (6 < devc.model.digits)) dg
          (scpi_dmm_get_mq devc fr).mq (scpi_dmm_get_mq devc fr).flag u
        rw [ha]
        refine ⟨rfl, rfl, rfl, ?_⟩
        by_cases h7 : 6 < devc.model.digits <;> simp [h7]
      by_cases c1 : gwinstek_limit devc.model.infinity_limit ≤ (lib.sr_atod_ascii (some rtext)).2
      · simp only [c1, if_true, not_true_eq_false, if_false] at h ⊢
        exact key _ _
      · by_cases c2 : (lib.sr_atod_ascii (some rtext)).2 ≤ -gwinstek_limit devc.model.infinity_limit
        · simp only [c1, c2, if_true, not_true_eq_false, if_false] at h ⊢
          exact key _ _
        · simp only [c1, c2, if_false] at h ⊢
          by_cases c3 : (exponent_suffix lib (some (skip_number rtext))).1 = SR_OK
          · simp only [c3, not_true_eq_false, if_false] at h ⊢
            exact key _ _
          · simp [c3] at h

/-- A successful run of strategy B had a mode response. -/
theorem gwinstek_ok_rsp (lib : StrUtil) (devc : dev_context) (info : scpi_dmm_acq_info)
    (ch : Nat) (fr vr : ScpiReply)
    (h : (scpi_dmm_get_meas_gwinstek lib devc info ch fr vr).1 = SR_OK) :
    ∃ mode_response, (scpi_dmm_get_mq devc fr).rsp = some mode_response := by
  cases hr : (scpi_dmm_get_mq devc fr).rsp with
  | some mr => exact ⟨mr, rfl⟩
  | none =>
    unfold scpi_dmm_get_meas_gwinstek at h
    by_cases h1 : (scpi_dmm_get_mq devc fr).ret = SR_OK
    · simp [h1, hr, SR_ERR, SR_OK] at h
    · exact absurd h (by simp [h1])

/-- The digits that strategy B takes from the precision text, case by
case. -/
theorem gwinstek_digits_cases (model_digits : Int) (precision : Option CStr) :
    (∀ p, precision = some p → "Slow".toList <+: p →
      gwinstek_digits model_digits precision = 6) ∧
    (∀ p, precision = some p → "Mid".toList <+: p →
      gwinstek_digits model_digits precision = 5) ∧
    (∀ p, precision = some p → "Fast".toList <+: p →
      gwinstek_digits model_digits precision = 4) ∧
    (precision = none → gwinstek_digits model_digits precision = model_digits) ∧
    (precision = some [] → gwinstek_digits model_digits precision = model_digits) ∧
    (∀ p, precision = some p → ¬ "Slow".toList <+: p → ¬ "Mid".toList <+: p →
      ¬ "Fast".toList <+: p → gwinstek_digits model_digits precision = model_digits) := by
  have e1 : "Slow".toList = ['S', 'l', 'o', 'w'] := rfl
  have e2 : "Mid".toList = ['M', 'i', 'd'] := rfl
  have e3 : "Fast".toList = ['F', 'a', 's', 't'] := rfl
  rw [e1, e2, e3]
  refine ⟨?_, ?_, ?_, ?_, ?_, ?_⟩
  · rintro p rfl ⟨t, rfl⟩
    simp [gwinstek_digits, g_str_has_prefix, e1]
  · rintro p rfl ⟨t, rfl⟩
    simp [gwinstek_digits, g_str_has_prefix, e1, e2]
  · rintro p rfl ⟨t, rfl⟩
    simp [gwinstek_digits, g_str_has_prefix, e1, e2, e3]
  · rintro rfl
    rfl
  · rintro rfl
    rfl
  · rintro p rfl h1 h2 h3
    rw [← List.isPrefixOf_iff_prefix] at h1 h2 h3
    simp only [gwinstek_digits, g_str_has_prefix, e1, e2, e3]
    simp only [h1, h2, h3, if_false, Bool.false_eq_true]
    split_ifs <;> rfl

/-- C17: the digits of the sample of a successful run of strategy B are 6
when the stored precision text starts with Slow, 5 when it starts with Mid,
4 when it starts with Fast, and the digits of the model when there is no
precision text, when it is empty, or when it starts with none of the three
(the digits of the model as the `int8_t` digits field keeps them, which is
the declared number whenever that is from -128 to 127). They are the same
for every successful run on the same driver context, whatever the replies of
the device are. -/
theorem C17_gwinstek_digits (lib : StrUtil) (devc : dev_context) (info : scpi_dmm_acq_info)
    (ch : Nat) (fr vr : ScpiReply)
    (h : (scpi_dmm_get_meas_gwinstek lib devc info ch fr vr).1 = SR_OK) :
    (∀ p, devc.precision = some p → "Slow".toList <+: p →
      ((scpi_dmm_get_meas_gwinstek lib devc info ch fr vr).2.analog ch).digits = 6) ∧
    (∀ p, devc.precision = some p → "Mid".toList <+: p →
      ((scpi_dmm_get_meas_gwinstek lib devc info ch fr vr).2.analog ch).digits = 5) ∧
    (∀ p, devc.precision = some p → "Fast".toList <+: p →
      ((scpi_dmm_get_meas_gwinstek lib devc info ch fr vr).2.analog ch).digits = 4) ∧
    (devc.precision = none ∨ devc.precision = some [] ∨
      (∃ p, devc.precision = some p ∧ ¬ "Slow".toList <+: p ∧ ¬ "Mid".toList <+: p ∧
        ¬ "Fast".toList <+: p) →
      ((scpi_dmm_get_meas_gwinstek lib devc info ch fr vr).2.analog ch).digits =
        to_int8 devc.model.digits ∧
      (-128 ≤ devc.model.digits → devc.model.digits ≤ 127 →
        ((scpi_dmm_get_meas_gwinstek lib devc info ch fr vr).2.analog ch).digits =
          devc.model.digits)) ∧
    (∀ info1 ch1 fr1 vr1, (scpi_dmm_get_meas_gwinstek lib devc info1 ch1 fr1 vr1).1 = SR_OK →
      ((scpi_dmm_get_meas_gwinstek lib devc info1 ch1 fr1 vr1).2.analog ch1).digits =
        ((scpi_dmm_get_meas_gwinstek lib devc info ch fr vr).2.analog ch).digits) := by
  obtain ⟨mr, hmr⟩ := gwinstek_ok_rsp lib devc info ch fr vr h
  have hd := (gwinstek_ok_sample lib devc info ch fr vr mr hmr h).2.2
  obtain ⟨c1, c2, c3, c4, c5, c6⟩ := gwinstek_digits_cases devc.model.digits devc.precision
  rw [hd]
  refine ⟨fun p hp hs => by rw [c1 p hp hs]; rfl, fun p hp hs => by rw [c2 p hp hs]; rfl,
    fun p hp hs => by rw [c3 p hp hs]; rfl, ?_, ?_⟩
  · intro hcase
    have hg : gwinstek_digits devc.model.digits devc.precision = devc.model.digits := by
      rcases hcase with hn | hn | ⟨p, hp, h1, h2, h3⟩
      · exact c4 hn
      · exact c5 hn
      · exact c6 p hp h1 h2 h3
    rw [hg]
    exact ⟨rfl, fun a b => to_int8_of_fits _ a b⟩
  · intro info1 ch1 fr1 vr1 h1
    obtain ⟨mr1, hmr1⟩ := gwinstek_ok_rsp lib devc info1 ch1 fr1 vr1 h1
    exact (gwinstek_ok_sample lib devc info1 ch1 fr1 vr1 mr1 hmr1 h1).2.2

set_option maxRecDepth 8000 in
/-- C17, a run: with the precision text Slow the resistance sample of a
mode-code model has six digits. -/
theorem C17_gwinstek_digits_witness :
    (scpi_dmm_get_meas_gwinstek libsigrok (demo_gw_devc "GDM8251A" dbl_0) acq_info_init 0
      (reply_ok "07") (reply_ok "+1.2345E+03")).1 = SR_OK ∧
    ((scpi_dmm_get_meas_gwinstek libsigrok (demo_gw_devc "GDM8251A" dbl_0) acq_info_init 0
      (reply_ok "07") (reply_ok "+1.2345E+03")).2.analog 0).digits = 6 :=
  ⟨by decide,
   (C17_gwinstek_digits libsigrok (demo_gw_devc "GDM8251A" dbl_0) acq_info_init 0
      (reply_ok "07") (reply_ok "+1.2345E+03") (by decide)).1 "Slow".toList rfl
      (List.prefix_refl _)⟩

/-- C18: the sample of a successful run of strategy A is encoded with unit
size 8, the size of a double, when the digits of the model are 6 or more,
and with unit size 4, the size of a float, otherwise. -/
theorem C18_agilent_unitsize (lib : StrUtil) (devc : dev_context) (info : scpi_dmm_acq_info)
    (ch : Nat) (fr vr : ScpiReply)
    (h : (scpi_dmm_get_meas_agilent lib devc info ch fr vr).1 = SR_OK) :
    (6 ≤ devc.model.digits →
      ((scpi_dmm_get_meas_agilent lib devc info ch fr vr).2.analog ch).unitsize = 8) ∧
    (devc.model.digits < 6 →
      ((scpi_dmm_get_meas_agilent lib devc info ch fr vr).2.analog ch).unitsize = 4) := by
  have hs := (agilent_ok_meaning lib devc info ch fr vr h).2.2.2
  rw [hs]
  constructor
  · intro h6
    rw [if_pos h6]; rfl
  · intro h6
    rw [if_neg (not_le.mpr h6)]; rfl

set_option maxRecDepth 8000 in
/-- C18, two runs: the demo model with its five digits encodes the sample
as a float, the same model declared with six digits as a double. -/
theorem C18_agilent_unitsize_witness :
    ((scpi_dmm_get_meas_agilent libsigrok demo_devc acq_info_init 0
      (reply_ok "CONT") (reply_ok "+1.5E+01")).2.analog 0).unitsize = 4 ∧
    ((scpi_dmm_get_meas_agilent libsigrok
      ⟨⟨demo_model.model, 6, demo_model.mqopts, dbl_0, 0⟩, demo_cmdset, none⟩ acq_info_init 0
      (reply_ok "CONT") (reply_ok "+1.5E+01")).2.analog 0).unitsize = 8 :=
  ⟨(C18_agilent_unitsize libsigrok demo_devc acq_info_init 0
      (reply_ok "CONT") (reply_ok "+1.5E+01") (by decide)).2 (by decide),
   (C18_agilent_unitsize libsigrok
      ⟨⟨demo_model.model, 6, demo_model.mqopts, dbl_0, 0⟩, demo_cmdset, none⟩ acq_info_init 0
      (reply_ok "CONT") (reply_ok "+1.5E+01") (by decide)).1 (by decide)⟩

/-! ### Range text of the vendor-normalised strategy -/

/-- The replacement of the Ohm sign on the short texts. -/
theorem replace_ohm_short (s : CStr) (h : ∀ (a b : Char) (t : List Char), s = a :: b :: t → False) :
    replace_ohm s = s := by
  match s, h with
  | [], _ => rfl
  | [_], _ => rfl
  | a :: b :: t, h => exact absurd rfl (fun e => h a b t e)

/-- The replacement of the Ohm sign, one occurrence at a time: the text
before an occurrence and the text after it are replaced on their own, and the
occurrence becomes `Ohm`. -/
theorem replace_ohm_append (b : CStr) : ∀ a : CStr,
    replace_ohm (a ++ ohm_sign ++ b) = replace_ohm a ++ 'O' :: 'h' :: 'm' :: replace_ohm b := by
  intro a
  induction a using replace_ohm.induct with
  | case1 x y t hc ih =>
    have e : x :: y :: t ++ ohm_sign ++ b = x :: y :: (t ++ ohm_sign ++ b) := by simp
    rw [e, replace_ohm, if_pos hc, ih, replace_ohm, if_pos hc]
    simp
  | case2 x y t hc ih =>
    have e : x :: y :: t ++ ohm_sign ++ b = x :: y :: (t ++ ohm_sign ++ b) := by simp
    have e2 : y :: (t ++ ohm_sign ++ b) = y :: t ++ ohm_sign ++ b := by simp
    rw [e, replace_ohm, if_neg hc, e2, ih, replace_ohm, if_neg hc]
    simp
  | case3 s hs =>
    match s, hs with
    | [], _ =>
      simp [ohm_sign, replace_ohm]
    | [x], _ =>
      have hne : ¬ (x = Char.ofNat 0xCE ∧ Char.ofNat 0xCE = Char.ofNat 0xA9) := by
        intro h; exact absurd h.2 (by decide)
      simp only [ohm_sign, List.cons_append, List.nil_append]
      rw [replace_ohm, if_neg hne, replace_ohm, if_pos ⟨rfl, rfl⟩]
      rfl
    | x :: y :: t, hs => exact absurd rfl (fun e => hs x y t e)

/-- A text without the Ohm sign is left as it is. -/
theorem replace_ohm_none : ∀ t : CStr, ¬ ohm_sign <:+: t → replace_ohm t = t := by
  intro t
  induction t using replace_ohm.induct with
  | case1 x y t hc ih =>
    intro hno
    exfalso
    apply hno
    rw [hc.1, hc.2]
    exact ⟨[], t, rfl⟩
  | case2 x y t hc ih =>
    intro hno
    rw [replace_ohm, if_neg hc, ih]
    intro hin
    exact hno (List.infix_cons hin)
  | case3 s hs =>
    intro _
    exact replace_ohm_short s hs

/-- After the replacement no Ohm sign is left, and the first byte of the
result is the `O` of a replaced sign or the first byte of the text. -/
theorem replace_ohm_clean : ∀ t : CStr,
    ¬ ohm_sign <:+: replace_ohm t ∧
    ∀ c, (replace_ohm t).head? = some c → c = 'O' ∨ t.head? = some c := by
  intro t
  induction t using replace_ohm.induct with
  | case1 x y t hc ih =>
    rw [replace_ohm, if_pos hc]
    refine ⟨?_, ?_⟩
    · intro hin
      rcases List.infix_cons_iff.mp hin with hp | hin
      · obtain ⟨r, hr⟩ := hp
        simp [ohm_sign] at hr
      rcases List.infix_cons_iff.mp hin with hp | hin
      · obtain ⟨r, hr⟩ := hp
        simp [ohm_sign] at hr
      rcases List.infix_cons_iff.mp hin with hp | hin
      · obtain ⟨r, hr⟩ := hp
        simp [ohm_sign] at hr
      exact ih.1 hin
    · intro c hcc
      left
      simpa using hcc.symm
  | case2 x y t hc ih =>
    rw [replace_ohm, if_neg hc]
    refine ⟨?_, ?_⟩
    · intro hin
      rcases List.infix_cons_iff.mp hin with hp | hin
      · obtain ⟨r, hr⟩ := hp
        simp only [ohm_sign, List.cons_append, List.nil_append, List.cons.injEq] at hr
        obtain ⟨hx, hr⟩ := hr
        cases hl : replace_ohm (y :: t) with
        | nil => rw [hl] at hr; cases hr
        | cons c l =>
          rw [hl] at hr
          simp only [List.cons.injEq] at hr
          rcases ih.2 c (by rw [hl]; rfl) with hO | hy
          · rw [hO] at hr
            exact absurd hr.1 (by decide)
          · simp only [List.head?_cons, Option.some.injEq] at hy
            exact hc ⟨hx.symm, by rw [hy]; exact hr.1.symm⟩
      · exact ih.1 hin
    · intro c hcc
      right
      simpa using hcc
  | case3 s hs =>
    rw [replace_ohm_short s hs]
    refine ⟨?_, fun c hcc => Or.inr hcc⟩
    rintro ⟨l, r, hlr⟩
    match s, hs with
    | [], _ => simp [ohm_sign] at hlr
    | [x], _ =>
      have := congrArg List.length hlr
      simp [ohm_sign] at this
      omega
    | x :: y :: t, hs => exact absurd rfl (fun e => hs x y t e)

/-- A scan that steps over the bytes passing a test: when the text is a run
of such bytes followed by a rest that does not start with one, the scan
stops at the rest. -/
theorem scan_stops_at {β : Type} (p : β → Bool) (number rest : List β)
    (hn : ∀ x ∈ number, p x = true) (hr : ∀ c, rest.head? = some c → p c = false) :
    (number ++ rest).takeWhile p = number ∧ (number ++ rest).dropWhile p = rest := by
  rw [List.takeWhile_append_of_pos hn, List.dropWhile_append_of_pos hn]
  cases rest with
  | nil => simp
  | cons c l =>
    have hc : p c = false := hr c rfl
    simp [List.takeWhile_cons, List.dropWhile_cons, hc]

/-- A text shorter than the buffer is written whole. -/
theorem snprintf_s_fits (size : Nat) (text : CStr) (h : text.length < size) :
    snprintf_s size text = text := by
  unfold snprintf_s
  exact List.take_of_length_le (by omega)

/-- The range text when a unit follows the number directly: number, one
space, and what follows the number. -/
theorem owon_range_text_insert (size : Nat) (reply number rest : CStr) (c : Char)
    (hpos : (replace_ohm reply).dropWhile g_ascii_isspace = number ++ c :: rest)
    (hne : number ≠ []) (hn : ∀ x ∈ number, owon_number_char x = true)
    (hc : owon_number_char c = false) (hsp : g_ascii_isspace c = false) :
    owon_range_text size (some reply) = snprintf_s size (number ++ ' ' :: c :: rest) := by
  obtain ⟨ht, hd⟩ := scan_stops_at owon_number_char number (c :: rest) hn
    (fun x hx => by cases hx; exact hc)
  unfold owon_range_text
  simp only [Option.getD_some, hpos, ht, hd]
  rw [if_pos ⟨hne, hsp⟩]

/-- The range text in every other case: the response as it is, with the Ohm
sign replaced. -/
theorem owon_range_text_keep (size : Nat) (reply number rest : CStr)
    (hpos : (replace_ohm reply).dropWhile g_ascii_isspace = number ++ rest)
    (hn : ∀ x ∈ number, owon_number_char x = true)
    (hr : ∀ c, rest.head? = some c → owon_number_char c = false)
    (hcase : number = [] ∨ rest = [] ∨ ∃ c, rest.head? = some c ∧ g_ascii_isspace c = true) :
    owon_range_text size (some reply) = snprintf_s size (replace_ohm reply) := by
  obtain ⟨ht, hd⟩ := scan_stops_at owon_number_char number rest hn hr
  unfold owon_range_text
  simp only [Option.getD_some, hpos, ht, hd]
  cases rest with
  | nil => rfl
  | cons c l =>
    simp only
    rw [if_neg]
    rintro ⟨h1, h2⟩
    rcases hcase with h | h | ⟨x, hx, hxs⟩
    · exact h1 h
    · cases h
    · cases hx
      rw [h2] at hxs
      cases hxs

/-- The range read-back of a device that is not in auto range, when the
active mode is known, can be set up, and has ranges. -/
theorem owon_get_range_text_manual (devc : dev_context) (size : Nat) (fr : ScpiReply)
    (reply : Option CStr) (item : mqopt_item)
    (hm : (scpi_dmm_get_mq devc fr).ret = SR_OK)
    (hi : (scpi_dmm_get_mq devc fr).mqitem = some item)
    (hs : item.scpi_func_setup ≠ none)
    (hf : item.drv_flags &&& FLAG_NO_RANGE = 0) :
    scpi_dmm_owon_get_range_text devc size fr SR_OK (SR_OK, false) SR_OK (SR_OK, reply) =
      some (owon_range_text size reply) := by
  unfold scpi_dmm_owon_get_range_text
  simp only [hm, hi, hf, if_neg hs, ne_eq, not_true_eq_false, if_false, Bool.false_eq_true]

/-- C19 (as amended): in the branch that is not auto range, every occurrence
of the Ohm sign (bytes 0xCE 0xA9) in the response becomes `Ohm`, and none is
left. Then, if after leading white space the text begins with a non-empty run
of the bytes of the number scan (digits, period, signs, `e`, `E`) that is
directly followed by a byte that is not white space, the result is that run,
exactly one space, and the remainder; in every other case it is the text
with the sign replaced, unchanged. Both hold when the result is shorter than
the range text buffer of `range_text_size` bytes. -/
theorem C19_owon_range_text (devc : dev_context) (range_text_size : Nat) (fr : ScpiReply)
    (reply : CStr) (item : mqopt_item)
    (hm : (scpi_dmm_get_mq devc fr).ret = SR_OK)
    (hi : (scpi_dmm_get_mq devc fr).mqitem = some item)
    (hs : item.scpi_func_setup ≠ none)
    (hf : item.drv_flags &&& FLAG_NO_RANGE = 0) :
    (∀ a b, replace_ohm (a ++ ohm_sign ++ b) =
      replace_ohm a ++ "Ohm".toList ++ replace_ohm b) ∧
    ¬ ohm_sign <:+: replace_ohm reply ∧
    (¬ ohm_sign <:+: reply → replace_ohm reply = reply) ∧
    (∀ number c rest,
      (replace_ohm reply).dropWhile g_ascii_isspace = number ++ c :: rest →
      number ≠ [] → (∀ x ∈ number, owon_number_char x = true) →
      owon_number_char c = false → g_ascii_isspace c = false →
      (number ++ ' ' :: c :: rest).length < range_text_size →
      scpi_dmm_owon_get_range_text devc range_text_size fr SR_OK (SR_OK, false) SR_OK
        (SR_OK, some reply) = some (number ++ ' ' :: c :: rest)) ∧
    (∀ number rest,
      (replace_ohm reply).dropWhile g_ascii_isspace = number ++ rest →
      (∀ x ∈ number, owon_number_char x = true) →
      (∀ c, rest.head? = some c → owon_number_char c = false) →
      (number = [] ∨ rest = [] ∨ ∃ c, rest.head? = some c ∧ g_ascii_isspace c = true) →
      (replace_ohm reply).length < range_text_size →
      scpi_dmm_owon_get_range_text devc range_text_size fr SR_OK (SR_OK, false) SR_OK
        (SR_OK, some reply) = some (replace_ohm reply)) := by
  rw [owon_get_range_text_manual devc range_text_size fr (some reply) item hm hi hs hf]
  refine ⟨?_, (replace_ohm_clean reply).1, replace_ohm_none reply, ?_, ?_⟩
  · intro a b
    rw [replace_ohm_append]
    simp
  · intro number c rest hpos hne hn hc hsp hlen
    rw [owon_range_text_insert range_text_size reply number rest c hpos hne hn hc hsp,
      snprintf_s_fits _ _ hlen]
  · intro number rest hpos hn hr hcase hlen
    rw [owon_range_text_keep range_text_size reply number rest hpos hn hr hcase,
      snprintf_s_fits _ _ hlen]

/-- Whatever the size of the range text buffer is, a response as long as the
buffer comes back one byte short. -/
theorem owon_range_text_truncates (size : Nat) (hsize : 0 < size) :
    replace_ohm (List.replicate size 'x') = List.replicate size 'x' ∧
    owon_range_text size (some (List.replicate size 'x')) = List.replicate (size - 1) 'x' := by
  have hno : ¬ ohm_sign <:+: List.replicate size 'x' := by
    intro hin
    have hmem : Char.ofNat 0xCE ∈ List.replicate size 'x' :=
      hin.subset (by simp [ohm_sign])
    exact absurd (List.eq_of_mem_replicate hmem) (by decide)
  have hrep := replace_ohm_none _ hno
  have hdrop : (List.replicate size 'x').dropWhile g_ascii_isspace = List.replicate size 'x' := by
    cases size with
    | zero => rfl
    | succ n =>
      rw [List.replicate_succ, List.dropWhile_cons_of_neg (by decide)]
  refine ⟨hrep, ?_⟩
  rw [owon_range_text_keep size (List.replicate size 'x') [] (List.replicate size 'x')
    (by rw [hrep, hdrop]; rfl) (by simp) ?_ (Or.inl rfl), hrep]
  · unfold snprintf_s
    rw [List.take_replicate, Nat.min_eq_left (Nat.sub_le size 1)]
  · intro c hc
    cases size with
    | zero => cases hc
    | succ n =>
      rw [List.replicate_succ] at hc
      cases hc
      decide

set_option maxRecDepth 8000 in
/-- C19, the three texts of the spec, with a range text buffer of 32 bytes:
the Ohm sign is spelled out, a space is put between number and unit, and a
text that has the space is left alone. -/
theorem C19_owon_range_text_witness :
    scpi_dmm_owon_get_range_text demo_owon_devc 32 (reply_ok "RES") SR_OK (SR_OK, false) SR_OK
      (SR_OK, some ("500 ".toList ++ ohm_sign)) = some "500 Ohm".toList ∧
    scpi_dmm_owon_get_range_text demo_owon_devc 32 (reply_ok "CAP") SR_OK (SR_OK, false) SR_OK
      (SR_OK, some "500uF".toList) = some "500 uF".toList ∧
    scpi_dmm_owon_get_range_text demo_owon_devc 32 (reply_ok "CAP") SR_OK (SR_OK, false) SR_OK
      (SR_OK, some "500 uF".toList) = some "500 uF".toList :=
  ⟨(C19_owon_range_text demo_owon_devc 32 (reply_ok "RES") ("500 ".toList ++ ohm_sign)
      ⟨SR_MQ_RESISTANCE, 0, some "RES".toList, some "RES".toList, NO_DFLT_PREC, 0⟩
      (by decide) (by decide) (by decide) (by decide)).2.2.2.2
      "500".toList " Ohm".toList (by decide) (by decide) (by decide)
      (Or.inr (Or.inr ⟨' ', rfl, by decide⟩)) (by decide),
   (C19_owon_range_text demo_owon_devc 32 (reply_ok "CAP") "500uF".toList
      ⟨SR_MQ_CAPACITANCE, 0, some "CAP".toList, some "CAP".toList, NO_DFLT_PREC, 0⟩
      (by decide) (by decide) (by decide) (by decide)).2.2.2.1
      "500".toList 'u' "F".toList (by decide) (by decide) (by decide) (by decide) (by decide)
      (by decide),
   (C19_owon_range_text demo_owon_devc 32 (reply_ok "CAP") "500 uF".toList
      ⟨SR_MQ_CAPACITANCE, 0, some "CAP".toList, some "CAP".toList, NO_DFLT_PREC, 0⟩
      (by decide) (by decide) (by decide) (by decide)).2.2.2.2
      "500".toList " uF".toList (by decide) (by decide) (by decide)
      (Or.inr (Or.inr ⟨' ', rfl, by decide⟩)) (by decide)⟩

set_option maxRecDepth 8000 in
/-- C19 does not hold for every device response: the result is written to
the range text buffer, which cuts it. With a buffer of 32 bytes a response of
41 bytes without Ohm sign and without a leading number comes back as its
first 31 bytes, not unchanged, and a number of 30 digits that is directly
followed by a unit comes back without the space and the unit; with a buffer
of any size a response of that many bytes comes back one byte short. -/
theorem C19_counterexample :
    replace_ohm "Thermocouple type K, ITS-90, to 1372 degC".toList =
      "Thermocouple type K, ITS-90, to 1372 degC".toList ∧
    scpi_dmm_owon_get_range_text demo_owon_devc 32 (reply_ok "RES") SR_OK (SR_OK, false) SR_OK
      (SR_OK, some "Thermocouple type K, ITS-90, to 1372 degC".toList) =
      some "Thermocouple type K, ITS-90, to".toList ∧
    scpi_dmm_owon_get_range_text demo_owon_devc 32 (reply_ok "RES") SR_OK (SR_OK, false) SR_OK
      (SR_OK, some "0.0000000000000000000000000005F".toList) =
      some "0.0000000000000000000000000005 ".toList ∧
    (∀ size, 0 < size →
      owon_range_text size (some (List.replicate size 'x')) ≠
        replace_ohm (List.replicate size 'x')) := by
  refine ⟨by decide, by decide, by decide, ?_⟩
  intro size hsize heq
  obtain ⟨h1, h2⟩ := owon_range_text_truncates size hsize
  rw [h1, h2] at heq
  have := congrArg List.length heq
  simp only [List.length_replicate] at this
  omega

/-! ### Setting the range of the vendor-normalised strategy -/

/-- The multiplier literals are the binary64 numbers nearest to the powers
of ten they name. -/
theorem si_literals_are_rounded :
    dbl_1e3 = binary64_of_decimal false 1 3 ∧ dbl_1e6 = binary64_of_decimal false 1 6 ∧
    dbl_1e9 = binary64_of_decimal false 1 9 ∧
    dbl_1e_3 = .fin (mkRat 1152921504606847 1152921504606846976) := by
  refine ⟨by decide, by decide, by decide, by decide⟩

/-- The text before the first space and the text from it on. -/
theorem split_at_first_space (num rest : CStr) (hnum : ' ' ∉ num) :
    (num ++ ' ' :: rest).takeWhile (fun c => c != ' ') = num ∧
    (num ++ ' ' :: rest).dropWhile (fun c => c != ' ') = ' ' :: rest := by
  apply scan_stops_at
  · intro x hx
    have : x ≠ ' ' := fun h => hnum (h ▸ hx)
    simpa using this
  · intro c hc
    cases hc
    decide

/-- A text without a space is not preprocessed. -/
theorem owon_processed_range_no_space (lib : StrUtil) (range : CStr) (h : ' ' ∉ range) :
    owon_processed_range lib range = some (snprintf_s 64 range) := by
  have hd : range.dropWhile (fun c => c != ' ') = [] := by
    rw [List.dropWhile_eq_nil_iff]
    intro x hx
    have : x ≠ ' ' := fun e => h (e ▸ hx)
    simpa using this
  unfold owon_processed_range
  simp only [hd]

/-- A number part of 32 bytes or more in front of a space and a unit leaves
the range setup undefined: the terminating NUL of `num_str` is written past the
array of 32 bytes. -/
theorem owon_set_range_long_number (lib : StrUtil) (devc : dev_context) (num rest : CStr)
    (c : Char) (fr : ScpiReply) (cmd_ret : Int) (item : mqopt_item)
    (hnum : ' ' ∉ num) (hlen : 32 ≤ num.length)
    (hm : (scpi_dmm_get_mq devc fr).ret = SR_OK)
    (hi : (scpi_dmm_get_mq devc fr).mqitem = some item)
    (hs : item.scpi_func_setup ≠ none)
    (hf : item.drv_flags &&& FLAG_NO_RANGE = 0) :
    scpi_dmm_owon_set_range_from_text lib devc (some (num ++ ' ' :: c :: rest)) fr cmd_ret =
      none := by
  obtain ⟨ht, hd⟩ := split_at_first_space num (c :: rest) hnum
  have hp : owon_processed_range lib (num ++ ' ' :: c :: rest) = none := by
    unfold owon_processed_range
    simp only [ht, hd]
    rw [if_pos hlen]
  cases hr : num ++ ' ' :: c :: rest with
  | nil => simp at hr
  | cons r0 rs =>
    rw [hr] at hp
    unfold scpi_dmm_owon_set_range_from_text
    simp only [hm, hi, hf, if_neg hs, ne_eq, not_true_eq_false, if_false, hp]

/-! ### A tick that ends on a skipped channel -/

/-- A tick whose last measured channel is skipped (return code `+1`) leaves
the loop with that code in `ret`, and the test `ret != SR_OK` after the loop
requests stop, with no limit configured and no failure. -/
theorem trailing_skip_requests_stop :
    (scpi_dmm_receive_data (scripted_env fun _ => 1) demo_channels_on 1 0 ()
        no_limits).calls = [(0, 1)] ∧
    (scpi_dmm_receive_data (scripted_env fun _ => 1) demo_channels_on 1 0 ()
        no_limits).sent = [] ∧
    sr_sw_limits_check no_limits 0 = false ∧
    (scpi_dmm_receive_data (scripted_env fun _ => 1) demo_channels_on 1 0 ()
        no_limits).stop_requested = true := by
  decide

/-! ### Byte width of the two strategies -/

/-- C26: the sample of a successful run of strategy B has the width of a
double exactly when the digits of the model are more than 6. For a model of
exactly six digits strategy B encodes a float where strategy A encodes a
double; for every other number of digits the two strategies encode the same
width. -/
theorem C26_gwinstek_unitsize (lib : StrUtil) (devc : dev_context)
    (infoA infoB : scpi_dmm_acq_info) (chA chB : Nat) (frA vrA frB vrB : ScpiReply)
    (hA : (scpi_dmm_get_meas_agilent lib devc infoA chA frA vrA).1 = SR_OK)
    (hB : (scpi_dmm_get_meas_gwinstek lib devc infoB chB frB vrB).1 = SR_OK) :
    (((scpi_dmm_get_meas_gwinstek lib devc infoB chB frB vrB).2.analog chB).unitsize =
        sizeof_double ↔ 6 < devc.model.digits) ∧
    (((scpi_dmm_get_meas_gwinstek lib devc infoB chB frB vrB).2.analog chB).unitsize =
        sizeof_float ↔ devc.model.digits ≤ 6) ∧
    (devc.model.digits = 6 →
      ((scpi_dmm_get_meas_gwinstek lib devc infoB chB frB vrB).2.analog chB).unitsize = 4 ∧
      ((scpi_dmm_get_meas_agilent lib devc infoA chA frA vrA).2.analog chA).unitsize = 8) ∧
    (devc.model.digits ≠ 6 →
      ((scpi_dmm_get_meas_gwinstek lib devc infoB chB frB vrB).2.analog chB).unitsize =
        ((scpi_dmm_get_meas_agilent lib devc infoA chA frA vrA).2.analog chA).unitsize) := by
  obtain ⟨mr, hmr⟩ := gwinstek_ok_rsp lib devc infoB chB frB vrB hB
  have hb := (gwinstek_ok_meaning lib devc infoB chB frB vrB mr hmr hB).2.2.2
  have ha := (agilent_ok_meaning lib devc infoA chA frA vrA hA).2.2.2
  rw [hb, ha]
  refine ⟨?_, ?_, ?_, ?_⟩
  · by_cases h : 6 < devc.model.digits
    · simp [h]
    · simp [h, sizeof_double, sizeof_float]
  · by_cases h : 6 < devc.model.digits
    · simp [h, sizeof_double, sizeof_float]
    · simp [h, not_lt.mp h]
  · intro h6
    rw [h6]
    exact ⟨rfl, rfl⟩
  · intro hne
    by_cases h : 6 < devc.model.digits
    · rw [if_pos h, if_pos (le_of_lt h)]
    · have h5 : ¬ 6 ≤ devc.model.digits := by omega
      rw [if_neg h, if_neg h5]

set_option maxRecDepth 8000 in
/-- C26, runs on a model that declares six digits: strategy B encodes the
resistance sample in 4 bytes, strategy A in 8. -/
theorem C26_gwinstek_unitsize_witness :
    (demo_gw_devc "GDM8251A" dbl_0).model.digits = 6 ∧
    ((scpi_dmm_get_meas_gwinstek libsigrok (demo_gw_devc "GDM8251A" dbl_0) acq_info_init 0
      (reply_ok "07") (reply_ok "+1.2345E+03")).2.analog 0).unitsize = 4 ∧
    ((scpi_dmm_get_meas_agilent libsigrok (demo_gw_devc "GDM8251A" dbl_0) acq_info_init 0
      (reply_ok "07") (reply_ok "+1.2345E+03")).2.analog 0).unitsize = 8 :=
  ⟨rfl,
   (C26_gwinstek_unitsize libsigrok (demo_gw_devc "GDM8251A" dbl_0) acq_info_init acq_info_init
      0 0 (reply_ok "07") (reply_ok "+1.2345E+03") (reply_ok "07") (reply_ok "+1.2345E+03")
      (by decide) (by decide)).2.2.1 rfl⟩

/-! ### The auto range text -/

/-- The lower case of an upper case letter, by character code. -/
theorem g_ascii_tolower_upper (c : Char) (h1 : 'A' ≤ c) (h2 : c ≤ 'Z') :
    (g_ascii_tolower c).toNat = c.toNat + 32 := by
  have a1 : 65 ≤ c.toNat := h1
  have a2 : c.toNat ≤ 90 := h2
  unfold g_ascii_tolower
  rw [if_pos ⟨h1, h2⟩]
  generalize c.toNat = n at *
  interval_cases n <;> rfl

/-- The bytes that `g_ascii_tolower` maps to a lower case letter `x`: the
letter itself and the byte 32 below it. -/
theorem g_ascii_tolower_eq (c x : Char) (h : g_ascii_tolower c = x) :
    c = x ∨ c = Char.ofNat (x.toNat - 32) := by
  by_cases hu : 'A' ≤ c ∧ c ≤ 'Z'
  · right
    have ht := g_ascii_tolower_upper c hu.1 hu.2
    rw [h] at ht
    rw [ht, Nat.add_sub_cancel, Char.ofNat_toNat]
  · left
    unfold g_ascii_tolower at h
    rw [if_neg hu] at h
    exact h

/-- The texts that `g_ascii_strcasecmp` finds equal to `auto`: the four letters,
each in either case. -/
theorem strcasecmp_auto_iff (range : CStr) :
    g_ascii_strcasecmp_eq range "auto".toList = true ↔
      ∃ c1 c2 c3 c4, range = [c1, c2, c3, c4] ∧ (c1 = 'a' ∨ c1 = 'A') ∧
        (c2 = 'u' ∨ c2 = 'U') ∧ (c3 = 't' ∨ c3 = 'T') ∧ (c4 = 'o' ∨ c4 = 'O') := by
  have hauto : "auto".toList.map g_ascii_tolower = ['a', 'u', 't', 'o'] := by decide
  unfold g_ascii_strcasecmp_eq
  rw [hauto, decide_eq_true_eq]
  constructor
  · intro h
    match range, h with
    | [c1, c2, c3, c4], h =>
      simp only [List.map_cons, List.map_nil, List.cons.injEq, and_true] at h
      obtain ⟨h1, h2, h3, h4⟩ := h
      exact ⟨c1, c2, c3, c4, rfl, g_ascii_tolower_eq c1 'a' h1, g_ascii_tolower_eq c2 'u' h2,
        g_ascii_tolower_eq c3 't' h3, g_ascii_tolower_eq c4 'o' h4⟩
    | [], h => simp at h
    | [_], h => simp at h
    | [_, _], h => simp at h
    | [_, _, _], h => simp at h
    | _ :: _ :: _ :: _ :: _ :: _, h => simp at h
  · rintro ⟨c1, c2, c3, c4, rfl, h1, h2, h3, h4⟩
    rcases h1 with rfl | rfl <;> rcases h2 with rfl | rfl <;> rcases h3 with rfl | rfl <;>
      rcases h4 with rfl | rfl <;> decide

/-- A text that `g_ascii_strcasecmp` finds equal to `auto` goes through the
preprocessing of the vendor-normalised strategy as it is. -/
theorem owon_processed_range_auto (lib : StrUtil) (range : CStr)
    (h : g_ascii_strcasecmp_eq range "auto".toList = true) :
    owon_processed_range lib range = some range := by
  obtain ⟨c1, c2, c3, c4, rfl, h1, h2, h3, h4⟩ := (strcasecmp_auto_iff range).mp h
  rw [owon_processed_range_no_space, snprintf_s_fits]
  · simp
  · rcases h1 with rfl | rfl <;> rcases h2 with rfl | rfl <;> rcases h3 with rfl | rfl <;>
      rcases h4 with rfl | rfl <;> decide

/-- The range setup of the generic strategy when the active mode is known,
can be set up, and has ranges. -/
theorem set_range_manual (devc : dev_context) (range : CStr) (fr : ScpiReply) (cmd_ret : Int)
    (item : mqopt_item) (hne : range ≠ [])
    (hm : (scpi_dmm_get_mq devc fr).ret = SR_OK)
    (hi : (scpi_dmm_get_mq devc fr).mqitem = some item)
    (hs : item.scpi_func_setup ≠ none)
    (hf : item.drv_flags &&& FLAG_NO_RANGE = 0) :
    scpi_dmm_set_range_from_text devc (some range) fr cmd_ret =
      owon_send_range devc item
        (if g_ascii_strcasecmp_eq range "auto".toList then "AUTO".toList else range) cmd_ret := by
  cases range with
  | nil => exact absurd rfl hne
  | cons r0 rs =>
    unfold scpi_dmm_set_range_from_text owon_send_range
    simp only [hm, hi, hf, if_neg hs, ne_eq, not_true_eq_false, if_false]

/-- C24: on an active mode that can be set up and has ranges, a range text
that is `auto` up to the case of its four letters makes both range setups
send the setup range command with the setup token of the capability and the
payload `AUTO`; the generic setup sends every other non-empty text as the
payload, unchanged. The command is sent once and its code is returned. -/
theorem C24_set_range_auto (lib : StrUtil) (devc : dev_context) (range : CStr)
    (fr : ScpiReply) (cmd_ret : Int) (item : mqopt_item)
    (hm : (scpi_dmm_get_mq devc fr).ret = SR_OK)
    (hi : (scpi_dmm_get_mq devc fr).mqitem = some item)
    (hs : item.scpi_func_setup ≠ none)
    (hf : item.drv_flags &&& FLAG_NO_RANGE = 0) :
    ((∃ c1 c2 c3 c4, range = [c1, c2, c3, c4] ∧ (c1 = 'a' ∨ c1 = 'A') ∧
        (c2 = 'u' ∨ c2 = 'U') ∧ (c3 = 't' ∨ c3 = 'T') ∧ (c4 = 'o' ∨ c4 = 'O')) →
      scpi_dmm_set_range_from_text devc (some range) fr cmd_ret =
        owon_send_range devc item "AUTO".toList cmd_ret ∧
      scpi_dmm_owon_set_range_from_text lib devc (some range) fr cmd_ret =
        some (owon_send_range devc item "AUTO".toList cmd_ret)) ∧
    (range ≠ [] →
      ¬ (∃ c1 c2 c3 c4, range = [c1, c2, c3, c4] ∧ (c1 = 'a' ∨ c1 = 'A') ∧
        (c2 = 'u' ∨ c2 = 'U') ∧ (c3 = 't' ∨ c3 = 'T') ∧ (c4 = 'o' ∨ c4 = 'O')) →
      scpi_dmm_set_range_from_text devc (some range) fr cmd_ret =
        owon_send_range devc item range cmd_ret) ∧
    (∀ payload, (owon_send_range devc item payload cmd_ret).1 = cmd_ret ∧
      (owon_send_range devc item payload cmd_ret).2 =
        [scpi_op.cmd_delay,
          scpi_op.cmd devc.cmdset.setup_range [item.scpi_func_setup, some payload]] ++
        (if cmd_ret = SR_OK ∧ item.drv_flags &&& FLAG_CONF_DELAY ≠ 0
          then [scpi_op.usleep devc.model.conf_delay_us] else [])) := by
  refine ⟨?_, ?_, ?_⟩
  · intro hv
    have hauto := (strcasecmp_auto_iff range).mpr hv
    have hne : range ≠ [] := by
      obtain ⟨c1, c2, c3, c4, rfl, -⟩ := hv
      simp
    refine ⟨?_, ?_⟩
    · rw [set_range_manual devc range fr cmd_ret item hne hm hi hs hf, hauto]
      rfl
    · have hp := owon_processed_range_auto lib range hauto
      cases range with
      | nil => exact absurd rfl hne
      | cons r0 rs =>
        unfold scpi_dmm_owon_set_range_from_text
        simp only [hm, hi, hf, hauto, hp, if_neg hs, ne_eq, not_true_eq_false, if_false,
          if_true]
  · intro hne hnv
    have hauto : g_ascii_strcasecmp_eq range "auto".toList = false := by
      cases hq : g_ascii_strcasecmp_eq range "auto".toList with
      | false => rfl
      | true => exact absurd ((strcasecmp_auto_iff range).mp hq) hnv
    rw [set_range_manual devc range fr cmd_ret item hne hm hi hs hf, hauto]
    rfl
  · intro payload
    unfold owon_send_range
    by_cases hc : cmd_ret = SR_OK
    · by_cases hfl : item.drv_flags &&& FLAG_CONF_DELAY ≠ 0
      · simp [hc, hfl]
      · simp [hc, hfl]
    · simp [hc]

set_option maxRecDepth 8000 in
/-- C24, runs on a resistance mode: the text `Auto` is sent as `AUTO` by both
range setups, and the generic setup sends the text `1000` as it is. -/
theorem C24_set_range_auto_witness :
    scpi_dmm_set_range_from_text demo_owon_devc (some "Auto".toList) (reply_ok "RES") SR_OK =
      (SR_OK, [scpi_op.cmd_delay,
        scpi_op.cmd (some "CONF:%s %s".toList) [some "RES".toList, some "AUTO".toList]]) ∧
    scpi_dmm_owon_set_range_from_text libsigrok demo_owon_devc (some "Auto".toList)
      (reply_ok "RES") SR_OK =
      some (SR_OK, [scpi_op.cmd_delay,
        scpi_op.cmd (some "CONF:%s %s".toList) [some "RES".toList, some "AUTO".toList]]) ∧
    scpi_dmm_set_range_from_text demo_owon_devc (some "1000".toList) (reply_ok "RES") SR_OK =
      (SR_OK, [scpi_op.cmd_delay,
        scpi_op.cmd (some "CONF:%s %s".toList) [some "RES".toList, some "1000".toList]]) :=
  ⟨((C24_set_range_auto libsigrok demo_owon_devc "Auto".toList (reply_ok "RES") SR_OK
      ⟨SR_MQ_RESISTANCE, 0, some "RES".toList, some "RES".toList, NO_DFLT_PREC, 0⟩
      (by decide) (by decide) (by decide) (by decide)).1
      ⟨'A', 'u', 't', 'o', rfl, Or.inr rfl, Or.inl rfl, Or.inl rfl, Or.inl rfl⟩).1,
   ((C24_set_range_auto libsigrok demo_owon_devc "Auto".toList (reply_ok "RES") SR_OK
      ⟨SR_MQ_RESISTANCE, 0, some "RES".toList, some "RES".toList, NO_DFLT_PREC, 0⟩
      (by decide) (by decide) (by decide) (by decide)).1
      ⟨'A', 'u', 't', 'o', rfl, Or.inr rfl, Or.inl rfl, Or.inl rfl, Or.inl rfl⟩).2,
   by decide⟩

/-! ### The range list of the vendor-normalised strategy -/

/-- C23: the range list is empty when the mode query fails and when the
active capability carries `FLAG_NO_RANGE`. Otherwise it is the catalogue of the
active quantity and flag word, in catalogue order: for voltage and for
current the DC catalogue when the flag word has the DC bit, else the AC
catalogue when it has the AC bit, else nothing; for resistance, capacitance
and temperature their own catalogue; and nothing for every other
quantity. -/
theorem C23_owon_range_list (devc : dev_context) (fr : ScpiReply) :
    ((scpi_dmm_get_mq devc fr).ret ≠ SR_OK →
      scpi_dmm_owon_get_range_text_list devc fr = []) ∧
    (∀ item, (scpi_dmm_get_mq devc fr).mqitem = some item →
      item.drv_flags &&& FLAG_NO_RANGE ≠ 0 →
      scpi_dmm_owon_get_range_text_list devc fr = []) ∧
    ((scpi_dmm_get_mq devc fr).ret = SR_OK →
      (∀ item, (scpi_dmm_get_mq devc fr).mqitem = some item →
        item.drv_flags &&& FLAG_NO_RANGE = 0) →
      ((scpi_dmm_get_mq devc fr).mq = SR_MQ_VOLTAGE →
        ((scpi_dmm_get_mq devc fr).flag &&& SR_MQFLAG_DC ≠ 0 →
          scpi_dmm_owon_get_range_text_list devc fr = owon_dcv_ranges) ∧
        ((scpi_dmm_get_mq devc fr).flag &&& SR_MQFLAG_DC = 0 →
          (scpi_dmm_get_mq devc fr).flag &&& SR_MQFLAG_AC ≠ 0 →
          scpi_dmm_owon_get_range_text_list devc fr = owon_acv_ranges) ∧
        ((scpi_dmm_get_mq devc fr).flag &&& SR_MQFLAG_DC = 0 →
          (scpi_dmm_get_mq devc fr).flag &&& SR_MQFLAG_AC = 0 →
          scpi_dmm_owon_get_range_text_list devc fr = [])) ∧
      ((scpi_dmm_get_mq devc fr).mq = SR_MQ_CURRENT →
        ((scpi_dmm_get_mq devc fr).flag &&& SR_MQFLAG_DC ≠ 0 →
          scpi_dmm_owon_get_range_text_list devc fr = owon_dci_ranges) ∧
        ((scpi_dmm_get_mq devc fr).flag &&& SR_MQFLAG_DC = 0 →
          (scpi_dmm_get_mq devc fr).flag &&& SR_MQFLAG_AC ≠ 0 →
          scpi_dmm_owon_get_range_text_list devc fr = owon_aci_ranges) ∧
        ((scpi_dmm_get_mq devc fr).flag &&& SR_MQFLAG_DC = 0 →
          (scpi_dmm_get_mq devc fr).flag &&& SR_MQFLAG_AC = 0 →
          scpi_dmm_owon_get_range_text_list devc fr = [])) ∧
      ((scpi_dmm_get_mq devc fr).mq = SR_MQ_RESISTANCE →
        scpi_dmm_owon_get_range_text_list devc fr = owon_res_ranges) ∧
      ((scpi_dmm_get_mq devc fr).mq = SR_MQ_CAPACITANCE →
        scpi_dmm_owon_get_range_text_list devc fr = owon_cap_ranges) ∧
      ((scpi_dmm_get_mq devc fr).mq = SR_MQ_TEMPERATURE →
        scpi_dmm_owon_get_range_text_list devc fr = owon_temp_ranges) ∧
      ((scpi_dmm_get_mq devc fr).mq ≠ SR_MQ_VOLTAGE →
        (scpi_dmm_get_mq devc fr).mq ≠ SR_MQ_CURRENT →
        (scpi_dmm_get_mq devc fr).mq ≠ SR_MQ_RESISTANCE →
        (scpi_dmm_get_mq devc fr).mq ≠ SR_MQ_CAPACITANCE →
        (scpi_dmm_get_mq devc fr).mq ≠ SR_MQ_TEMPERATURE →
        scpi_dmm_owon_get_range_text_list devc fr = [])) ∧
    owon_dcv_ranges =
      ["auto", "50 mV", "500 mV", "5 V", "50 V", "500 V", "1000 V"].map String.toList := by
  refine ⟨?_, ?_, ?_, rfl⟩
  · intro h
    unfold scpi_dmm_owon_get_range_text_list
    simp only [h, ne_eq, not_false_eq_true, if_true]
  · intro item hi hfl
    unfold scpi_dmm_owon_get_range_text_list
    by_cases h : (scpi_dmm_get_mq devc fr).ret = SR_OK
    · simp only [h, hi, ne_eq, not_true_eq_false, if_false]
      rw [if_pos (by simpa using hfl)]
    · simp only [h, ne_eq, not_false_eq_true, if_true]
  · intro hm hnf
    have hlist : scpi_dmm_owon_get_range_text_list devc fr =
        match owon_select_ranges (scpi_dmm_get_mq devc fr).mq (scpi_dmm_get_mq devc fr).flag with
        | some ranges => ranges
        | none => [] := by
      unfold scpi_dmm_owon_get_range_text_list
      simp only [hm, ne_eq, not_true_eq_false, if_false]
      cases hi : (scpi_dmm_get_mq devc fr).mqitem with
      | none => simp
      | some item => simp [hnf item hi]
    rw [hlist]
    refine ⟨?_, ?_, ?_, ?_, ?_, ?_⟩
    · intro hq
      refine ⟨?_, ?_, ?_⟩
      · intro h1
        simp [owon_select_ranges, hq, h1]
      · intro h1 h2
        simp [owon_select_ranges, hq, h1, h2]
      · intro h1 h2
        simp [owon_select_ranges, hq, h1, h2]
    · intro hq
      have hv : SR_MQ_CURRENT ≠ SR_MQ_VOLTAGE := by decide
      refine ⟨?_, ?_, ?_⟩
      · intro h1
        simp [owon_select_ranges, hq, hv, h1]
      · intro h1 h2
        simp [owon_select_ranges, hq, hv, h1, h2]
      · intro h1 h2
        simp [owon_select_ranges, hq, hv, h1, h2]
    · intro hq
      rw [hq]
      rfl
    · intro hq
      rw [hq]
      rfl
    · intro hq
      rw [hq]
      rfl
    · intro h1 h2 h3 h4 h5
      simp [owon_select_ranges, h1, h2, h3, h4, h5]

set_option maxRecDepth 8000 in
/-- C23, runs on a model with every kind of mode: DC voltage and AC voltage
get their catalogues, frequency has none, the diode mode is flagged as having
no ranges, and a failed mode query gives the empty list. -/
theorem C23_owon_range_list_witness :
    scpi_dmm_owon_get_range_text_list demo_owon_full_devc (reply_ok "VOLT") =
      ["auto", "50 mV", "500 mV", "5 V", "50 V", "500 V", "1000 V"].map String.toList ∧
    scpi_dmm_owon_get_range_text_list demo_owon_full_devc (reply_ok "VOLT AC") =
      ["auto", "500 mV", "5 V", "50 V", "500 V", "750 V"].map String.toList ∧
    scpi_dmm_owon_get_range_text_list demo_owon_full_devc (reply_ok "RES") =
      ["auto", "500 Ohm", "5 kOhm", "50 kOhm", "500 kOhm", "5 MOhm", "50 MOhm"].map
        String.toList ∧
    scpi_dmm_owon_get_range_text_list demo_owon_full_devc (reply_ok "TEMP") =
      ["KITS90", "Pt100"].map String.toList ∧
    scpi_dmm_owon_get_range_text_list demo_owon_full_devc (reply_ok "FREQ") = [] ∧
    scpi_dmm_owon_get_range_text_list demo_owon_full_devc (reply_ok "DIOD") = [] ∧
    scpi_dmm_owon_get_range_text_list demo_owon_full_devc (reply_ok "PER") = [] ∧
    scpi_dmm_owon_get_range_text_list demo_owon_full_devc ( SR_ERR_IO, none) = [] :=
  ⟨by decide, by decide, by decide, by decide, by decide, by decide, by decide,
   (C23_owon_range_list demo_owon_full_devc ( SR_ERR_IO, none)).1 (by decide)⟩

/-! ### Read-back of the documented range answers -/

set_option maxRecDepth 16000 in
/-- C22: what the read-back makes of the range answers that the driver
documents, with a range text buffer of 32 bytes. The three kilo-ohm answers
of the resistance mode, which the meter writes with a capital `K`, come back
as `500 KOhm`, `50 KOhm` and `5 KOhm`; the catalogue of the mode has
`500 kOhm`, `50 kOhm` and `5 kOhm`, so none of the three is an entry of it.
Every other documented answer of every mode comes back as an entry of the
catalogue of its mode. -/
theorem C22_range_read_back :
    scpi_dmm_owon_get_range_text demo_owon_full_devc 32 (reply_ok "RES") SR_OK (SR_OK, false)
      SR_OK (SR_OK, some ("500 K".toList ++ ohm_sign)) = some "500 KOhm".toList ∧
    "500 KOhm".toList ∉ owon_res_ranges ∧ "500 kOhm".toList ∈ owon_res_ranges ∧
    owon_range_text 32 (some ("50 K".toList ++ ohm_sign)) = "50 KOhm".toList ∧
    "50 KOhm".toList ∉ owon_res_ranges ∧ "50 kOhm".toList ∈ owon_res_ranges ∧
    owon_range_text 32 (some ("5 K".toList ++ ohm_sign)) = "5 KOhm".toList ∧
    "5 KOhm".toList ∉ owon_res_ranges ∧ "5 kOhm".toList ∈ owon_res_ranges ∧
    scpi_dmm_owon_get_range_text_list demo_owon_full_devc (reply_ok "RES") = owon_res_ranges ∧
    (∀ p ∈ owon_observed_answers, ∀ a ∈ p.2,
      owon_range_text 32 (some a) ∈ p.1 ∨
        a ∈ ["500 K".toList ++ ohm_sign, "50 K".toList ++ ohm_sign,
          "5 K".toList ++ ohm_sign]) := by
  refine ⟨by decide, by decide, by decide, by decide, by decide, by decide, by decide,
    by decide, by decide, by decide, by decide⟩

/-! ### The read-back normalisation applied twice -/

/-- The start of a text, scanned: what the scan drops from the start of a
text is a start of what it drops from the whole text. -/
theorem dropWhile_take {β : Type} (p : β → Bool) : ∀ (l : List β) (k : Nat),
    ∃ k1, (l.take k).dropWhile p = (l.dropWhile p).take k1 := by
  intro l
  induction l with
  | nil => intro k; exact ⟨0, by simp⟩
  | cons a t ih =>
    intro k
    cases k with
    | zero => exact ⟨0, by simp⟩
    | succ k =>
      by_cases ha : p a = true
      · obtain ⟨k1, hk1⟩ := ih k
        refine ⟨k1, ?_⟩
        rw [List.take_succ_cons, List.dropWhile_cons_of_pos ha, List.dropWhile_cons_of_pos ha,
          hk1]
      · refine ⟨k + 1, ?_⟩
        rw [List.take_succ_cons, List.dropWhile_cons_of_neg ha, List.dropWhile_cons_of_neg ha,
          List.take_succ_cons]

/-- The start of a text, scanned: what the scan steps over at the start of
a text is a start of what it steps over in the whole text. -/
theorem takeWhile_take {β : Type} (p : β → Bool) : ∀ (l : List β) (k : Nat),
    (l.take k).takeWhile p = (l.takeWhile p).take k := by
  intro l
  induction l with
  | nil => intro k; simp
  | cons a t ih =>
    intro k
    cases k with
    | zero => simp
    | succ k =>
      by_cases ha : p a = true
      · rw [List.take_succ_cons, List.takeWhile_cons_of_pos ha, List.takeWhile_cons_of_pos ha,
          List.take_succ_cons, ih]
      · rw [List.take_succ_cons, List.takeWhile_cons_of_neg ha, List.takeWhile_cons_of_neg ha]
        simp

/-- A byte of the number scan is not white space. -/
theorem number_char_not_space (x : Char) (h : owon_number_char x = true) :
    g_ascii_isspace x = false := by
  cases hs : g_ascii_isspace x with
  | false => rfl
  | true =>
    exfalso
    simp only [g_ascii_isspace, Bool.or_eq_true, decide_eq_true_eq] at hs
    rcases hs with (((hs | hs) | hs) | hs) | hs <;> (rw [hs] at h; revert h; decide)

/-- A byte of the number scan is not the first byte of the Ohm sign. -/
theorem number_char_not_ohm (x : Char) (h : owon_number_char x = true) :
    x ≠ Char.ofNat 0xCE := by
  intro hx
  rw [hx] at h
  revert h
  decide

/-- A text is left alone by the replacement exactly when it has no Ohm
sign. -/
theorem replace_ohm_fixed_iff (t : CStr) : replace_ohm t = t ↔ ¬ ohm_sign <:+: t := by
  constructor
  · intro h
    have := (replace_ohm_clean t).1
    rw [h] at this
    exact this
  · exact replace_ohm_none t

/-- The start of a text without Ohm sign has no Ohm sign. -/
theorem replace_ohm_take (t : CStr) (k : Nat) (h : replace_ohm t = t) :
    replace_ohm (t.take k) = t.take k := by
  rw [replace_ohm_fixed_iff] at h ⊢
  intro hin
  exact h (hin.trans (List.take_prefix k t).isInfix)

/-- A number, a space, and a text without Ohm sign make a text without Ohm
sign. -/
theorem replace_ohm_number_space (tl : CStr) (htl : replace_ohm tl = tl) :
    ∀ number : CStr, (∀ x ∈ number, owon_number_char x = true) →
      replace_ohm (number ++ ' ' :: tl) = number ++ ' ' :: tl := by
  intro number
  induction number with
  | nil =>
    intro _
    cases tl with
    | nil => rfl
    | cons c l =>
      simp only [List.nil_append]
      rw [replace_ohm, if_neg (fun h => absurd h.1 (by decide)), htl]
  | cons x n ih =>
    intro hn
    have hx : x ≠ Char.ofNat 0xCE := number_char_not_ohm x (hn x (List.mem_cons_self x n))
    have ihn := ih (fun y hy => hn y (List.mem_cons_of_mem x hy))
    cases n with
    | nil =>
      simp only [List.cons_append, List.nil_append] at ihn ⊢
      rw [replace_ohm, if_neg (fun h => hx h.1), ihn]
    | cons y n2 =>
      simp only [List.cons_append] at ihn ⊢
      rw [replace_ohm, if_neg (fun h => hx h.1), ihn]

/-- The read-back text is the response with the Ohm sign replaced whenever
that text is one that the routine copies. -/
theorem owon_range_text_of_copies (size : Nat) (reply : CStr)
    (h : owon_copies (replace_ohm reply) = true) :
    owon_range_text size (some reply) = snprintf_s size (replace_ohm reply) := by
  unfold owon_copies at h
  unfold owon_range_text
  simp only [Option.getD_some] at h ⊢
  cases hne : ((replace_ohm reply).dropWhile g_ascii_isspace).dropWhile owon_number_char with
  | nil => rfl
  | cons c l =>
    rw [hne] at h
    simp only [Bool.or_eq_true, decide_eq_true_eq] at h
    simp only
    rw [if_neg]
    rintro ⟨h1, h2⟩
    rcases h with h | h
    · exact h1 h
    · rw [h2] at h; cases h

/-- The start of a text that the routine copies is a text that the routine
copies. -/
theorem owon_copies_take (w : CStr) (k : Nat) (h : owon_copies w = true) :
    owon_copies (w.take k) = true := by
  obtain ⟨k1, hk1⟩ := dropWhile_take g_ascii_isspace w k
  obtain ⟨k2, hk2⟩ := dropWhile_take owon_number_char (w.dropWhile g_ascii_isspace) k1
  have hk3 := takeWhile_take owon_number_char (w.dropWhile g_ascii_isspace) k1
  unfold owon_copies at h ⊢
  simp only [hk1, hk2, hk3]
  cases hne : ((w.dropWhile g_ascii_isspace).dropWhile owon_number_char).take k2 with
  | nil => rfl
  | cons c l =>
    simp only
    cases hw : (w.dropWhile g_ascii_isspace).dropWhile owon_number_char with
    | nil => rw [hw] at hne; simp at hne
    | cons c1 l1 =>
      rw [hw] at hne
      simp only [hw, Bool.or_eq_true, decide_eq_true_eq] at h
      simp only [Bool.or_eq_true, decide_eq_true_eq]
      cases k2 with
      | zero => simp at hne
      | succ k2 =>
        rw [List.take_succ_cons] at hne
        cases hne
        rcases h with h | h
        · left; rw [h]; simp
        · right; exact h

/-- The read-back text is the start, as long as the buffer holds, of a text
that has no Ohm sign and that the routine copies. -/
theorem owon_range_text_shape (size : Nat) (reply : CStr) :
    ∃ w, owon_range_text size (some reply) = snprintf_s size w ∧ replace_ohm w = w ∧
      owon_copies w = true := by
  have hclean := (replace_ohm_fixed_iff (replace_ohm reply)).mpr (replace_ohm_clean reply).1
  cases hne : ((replace_ohm reply).dropWhile g_ascii_isspace).dropWhile owon_number_char with
  | nil =>
    have hc : owon_copies (replace_ohm reply) = true := by
      unfold owon_copies
      simp only [hne]
    exact ⟨replace_ohm reply, owon_range_text_of_copies size reply hc, hclean, hc⟩
  | cons c l =>
    by_cases hcond : ((replace_ohm reply).dropWhile g_ascii_isspace).takeWhile owon_number_char
        ≠ [] ∧ g_ascii_isspace c = false
    · obtain ⟨hnum, hsp⟩ := hcond
      have hall : ∀ x ∈ ((replace_ohm reply).dropWhile g_ascii_isspace).takeWhile
          owon_number_char, owon_number_char x = true :=
        fun x hx => (List.mem_takeWhile_imp hx)
      have htl : replace_ohm (c :: l) = c :: l := by
        rw [replace_ohm_fixed_iff]
        intro hin
        have hsuf : (c :: l) <:+: replace_ohm reply := by
          rw [← hne]
          exact ((List.dropWhile_suffix _).trans (List.dropWhile_suffix _)).isInfix
        exact (replace_ohm_clean reply).1 (hin.trans hsuf)
      refine ⟨((replace_ohm reply).dropWhile g_ascii_isspace).takeWhile owon_number_char ++
        ' ' :: c :: l, ?_, replace_ohm_number_space (c :: l) htl _ hall, ?_⟩
      · unfold owon_range_text
        simp only [Option.getD_some, hne]
        rw [if_pos ⟨hnum, hsp⟩]
      · generalize hN : ((replace_ohm reply).dropWhile g_ascii_isspace).takeWhile
          owon_number_char = number at hnum hall
        obtain ⟨ht, hd⟩ := scan_stops_at owon_number_char number (' ' :: c :: l) hall
          (fun x hx => by cases hx; decide)
        have hpos : (number ++ ' ' :: c :: l).dropWhile g_ascii_isspace =
            number ++ ' ' :: c :: l := by
          cases number with
          | nil => exact absurd rfl hnum
          | cons x n =>
            have hx := number_char_not_space x (hall x (List.mem_cons_self x n))
            rw [List.cons_append, List.dropWhile_cons_of_neg (by simp [hx])]
        unfold owon_copies
        simp only [hpos, hd]
        rw [Bool.or_eq_true]
        right
        decide
    · have hc : owon_copies (replace_ohm reply) = true := by
        unfold owon_copies
        simp only [hne, Bool.or_eq_true, decide_eq_true_eq]
        by_cases h1 : ((replace_ohm reply).dropWhile g_ascii_isspace).takeWhile
            owon_number_char = []
        · left; exact h1
        · right
          cases hs : g_ascii_isspace c with
          | true => rfl
          | false => exact absurd ⟨h1, hs⟩ hcond
      exact ⟨replace_ohm reply, owon_range_text_of_copies size reply hc, hclean, hc⟩

/-- C25: the read-back normalisation of `scpi_dmm_owon_get_range_text` (Ohm sign
replaced, space put between number and unit, result written to the range
text buffer) applied to its own output returns that output unchanged, for
every response and every size of the buffer; in particular for every
response that fits the buffer. -/
theorem C25_owon_range_text_idempotent (range_text_size : Nat) (reply : CStr) :
    owon_range_text range_text_size (some (owon_range_text range_text_size (some reply))) =
      owon_range_text range_text_size (some reply) := by
  obtain ⟨w, hw, hfix, hcop⟩ := owon_range_text_shape range_text_size reply
  rw [hw]
  unfold snprintf_s
  have h1 := replace_ohm_take w (range_text_size - 1) hfix
  have h2 := owon_copies_take w (range_text_size - 1) hcop
  rw [owon_range_text_of_copies range_text_size _ (by rw [h1]; exact h2), h1]
  unfold snprintf_s
  rw [List.take_take, Nat.min_self]

set_option maxRecDepth 8000 in
/-- C25, runs with a buffer of 32 bytes: the outputs for the responses
`500uF` and `5 K` with the Ohm sign are `500 uF` and `5 KOhm`, and the
normalisation leaves both as they are. -/
theorem C25_owon_range_text_idempotent_witness :
    owon_range_text 32 (some "500uF".toList) = "500 uF".toList ∧
    owon_range_text 32 (some "500 uF".toList) = "500 uF".toList ∧
    owon_range_text 32 (some ("5 K".toList ++ ohm_sign)) = "5 KOhm".toList ∧
    owon_range_text 32 (some (owon_range_text 32 (some ("5 K".toList ++ ohm_sign)))) =
      owon_range_text 32 (some ("5 K".toList ++ ohm_sign)) :=
  ⟨by decide, by decide, by decide,
   C25_owon_range_text_idempotent 32 ("5 K".toList ++ ohm_sign)⟩

/-! ### The text of a double -/

end ScpiDmm
